import Mathlib

/-!
# jsmn-stream: a shallow embedding of `jsmn_stream.c` / `jsmn_stream.h`

The parser structure is embedded field by field.  A C `char` is represented by
its byte value as a natural number (`'{'` is `123`); the two fixed arrays
`type_stack[JSMN_STREAM_MAX_DEPTH]` and `buffer[JSMN_STREAM_BUFFER_SIZE]` are
total maps from indices to cells, so dead cells (those at or above
`stack_height` / `buffer_size`) are part of the state exactly as in C.
The user callback is not executed; every invocation that the C code performs is
recorded, in order, as a `callback_call`.  A `NULL` callback (for which the
`JSMN_STREAM_CALLBACK` guards suppress the call) is the flag `callback = false`.

The comparisons `js[pos] < 32 || js[pos] >= 127` are written on the byte value:
for a signed `char` the bytes `128..255` are negative and caught by `< 32`, for
an unsigned `char` they are caught by `>= 127`, so both readings agree.

`stack_height` and `buffer_size` (`size_t` in C) are natural numbers: the code
increments them only behind guards that keep them at most 32 and 255, and
decrements `stack_height` only when it is positive, so no wrap-around occurs.

The file has three parts: the embedding of the source, the vocabulary of the
properties (tokens, JSON value trees, serialisations, event lists), and the
facts proved about the embedding, the verified properties last.
-/

namespace JsmnStream

/-! ## Constants and enumerations of `jsmn_stream.h` -/

/-- Maximal nesting level: size of `type_stack`. -/
def JSMN_STREAM_MAX_DEPTH : Nat := 32

/-- Size of the token buffer, the terminating NUL included. -/
def JSMN_STREAM_BUFFER_SIZE : Nat := 256

/-- Event kinds handed to the callback (`jsmn_stream_token_t`). -/
inductive jsmn_stream_token_t
  | JSMN_STREAM_TOKEN_START_OBJECT
  | JSMN_STREAM_TOKEN_END_OBJECT
  | JSMN_STREAM_TOKEN_START_ARRAY
  | JSMN_STREAM_TOKEN_END_ARRAY
  | JSMN_STREAM_TOKEN_KEY
  | JSMN_STREAM_TOKEN_STRING
  | JSMN_STREAM_TOKEN_PRIMITIVE
  deriving DecidableEq, Repr

/-- Markers stored on the type stack (`jsmn_streamtype_t`). -/
inductive jsmn_streamtype_t
  | JSMN_STREAM_UNDEFINED
  | JSMN_STREAM_OBJECT
  | JSMN_STREAM_ARRAY
  | JSMN_STREAM_STRING
  | JSMN_STREAM_PRIMITIVE
  | JSMN_STREAM_KEY
  deriving DecidableEq, Repr

/-- Parser modes (`jsmn_streamstate_t`). -/
inductive jsmn_streamstate_t
  | JSMN_STREAM_PARSING
  | JSMN_STREAM_PARSING_STRING
  | JSMN_STREAM_PARSING_PRIMITIVE
  deriving DecidableEq, Repr

open jsmn_stream_token_t jsmn_streamtype_t jsmn_streamstate_t

/-- Buffer not large enough. -/
def JSMN_STREAM_ERROR_NOMEM : Int := -1
/-- Invalid character inside JSON string. -/
def JSMN_STREAM_ERROR_INVAL : Int := -2
/-- The string is not a full JSON packet, more bytes expected. -/
def JSMN_STREAM_ERROR_PART : Int := -3
/-- Reached maximal stack depth. -/
def JSMN_STREAM_ERROR_MAX_DEPTH : Int := -4

/-! ## The parser structure and the recorded callback invocations -/

/-- One invocation `callback(token, buf, len, user_arg)`; `buf = none` is the
`NULL` pointer, `buf = some bytes` the `len` bytes the pointer refers to. -/
structure callback_call where
  token : jsmn_stream_token_t
  buf : Option (List Nat)
  len : Nat
  deriving DecidableEq, Repr

/-- The struct that `jsmn_stream.h` names `jsmn_stream_parser` (here with a
`_t` suffix); `callback` tells whether the stored function pointer is
non-`NULL`. -/
structure jsmn_stream_parser_t where
  state : jsmn_streamstate_t
  callback : Bool
  type_stack : Nat → jsmn_streamtype_t
  stack_height : Nat
  buffer : Nat → Nat
  buffer_size : Nat

/-- What one call leaves behind: the returned `int`, the parser after the
call, and the callback invocations made during the call, oldest first. -/
structure step_result where
  ret : Int
  parser : jsmn_stream_parser_t
  calls : List callback_call

/-- The guard `if ((f) != NULL) { (f)(ty, buf, len, user_arg); }`. -/
def JSMN_STREAM_CALLBACK (parser : jsmn_stream_parser_t) (ty : jsmn_stream_token_t)
    (buf : Option (List Nat)) (len : Nat) : List callback_call :=
  if parser.callback then [⟨ty, buf, len⟩] else []

/-- The guard `if ((f) != NULL) { (f)(ty, NULL, 0, parser->user_arg); }`. -/
def JSMN_STREAM_CALLBACK_NULL (parser : jsmn_stream_parser_t) (ty : jsmn_stream_token_t) :
    List callback_call :=
  if parser.callback then [⟨ty, none, 0⟩] else []

/-- The `len` bytes a callback can read through the pointer `js`. -/
def payload (js : Nat → Nat) (len : Nat) : List Nat :=
  (List.range len).map js

/-! ## The nesting stack -/

/-- Embedding of `jsmn_stream_stack_push`: the returned flag is the C `bool`. -/
def jsmn_stream_stack_push (parser : jsmn_stream_parser_t) (type : jsmn_streamtype_t) :
    Bool × jsmn_stream_parser_t :=
  if parser.stack_height ≥ JSMN_STREAM_MAX_DEPTH then
    (false, parser)
  else
    (true, { parser with
      type_stack := Function.update parser.type_stack parser.stack_height type
      stack_height := parser.stack_height + 1 })

/-- Embedding of `jsmn_stream_stack_pop`. -/
def jsmn_stream_stack_pop (parser : jsmn_stream_parser_t) : jsmn_stream_parser_t :=
  if parser.stack_height > 0 then
    { parser with stack_height := parser.stack_height - 1 }
  else parser

/-- Embedding of `jsmn_stream_stack_top`. -/
def jsmn_stream_stack_top (parser : jsmn_stream_parser_t) : jsmn_streamtype_t :=
  if parser.stack_height = 0 then JSMN_STREAM_UNDEFINED
  else parser.type_stack (parser.stack_height - 1)

/-! ## The primitive accumulator -/

/-- How a scanning loop over the buffer ends. -/
inductive scan_exit
  | found
  | inval
  | part
  deriving DecidableEq, Repr

/-- The `case` labels of the delimiter switch in `jsmn_stream_parse_primitive`:
tab, CR, LF, space, comma, `]`, `}`. -/
def is_delimiter (c : Nat) : Bool :=
  c = 9 || c = 13 || c = 10 || c = 32 || c = 44 || c = 93 || c = 125

/-- The loop `for (pos = 0; pos < len && js[pos] != 0; pos++)` of
`jsmn_stream_parse_primitive`, started at `pos`; `fuel` bounds the number of
iterations and is given as `len - pos` by the caller, which the loop never
exceeds since every iteration advances `pos` by one. -/
def primitive_loop (js : Nat → Nat) (len : Nat) : Nat → Nat → scan_exit
  | 0, _ => scan_exit.part
  | fuel + 1, pos =>
    if pos < len ∧ js pos ≠ 0 then
      if is_delimiter (js pos) then scan_exit.found
      else if js pos < 32 ∨ js pos ≥ 127 then scan_exit.inval
      else primitive_loop js len fuel (pos + 1)
    else scan_exit.part

/-- Embedding of `jsmn_stream_parse_primitive`. -/
def jsmn_stream_parse_primitive (parser : jsmn_stream_parser_t) (cin : Nat) : step_result :=
  if parser.buffer_size = JSMN_STREAM_BUFFER_SIZE - 1 then
    ⟨JSMN_STREAM_ERROR_NOMEM, parser, []⟩
  else
    let parser1 := { parser with
      buffer := Function.update parser.buffer parser.buffer_size cin
      buffer_size := parser.buffer_size + 1 }
    let len := parser1.buffer_size
    match primitive_loop parser1.buffer len len 0 with
    | scan_exit.inval => ⟨JSMN_STREAM_ERROR_INVAL, parser1, []⟩
    | scan_exit.part => ⟨JSMN_STREAM_ERROR_PART, parser1, []⟩
    | scan_exit.found =>
      let parser2 := { parser1 with buffer := Function.update parser1.buffer (len - 1) 0 }
      let calls := JSMN_STREAM_CALLBACK parser2 JSMN_STREAM_TOKEN_PRIMITIVE
        (some (payload parser2.buffer (len - 1))) (len - 1)
      ⟨0, { parser2 with buffer_size := 0, state := JSMN_STREAM_PARSING }, calls⟩

/-! ## The string accumulator -/

/-- The test `(c >= 48 && c <= 57) || (c >= 65 && c <= 70) || (c >= 97 && c <= 102)`. -/
def is_hex (c : Nat) : Bool :=
  (48 ≤ c && c ≤ 57) || (65 ≤ c && c ≤ 70) || (97 ≤ c && c ≤ 102)

/-- The inner loop `for (i = 0; i < 4 && pos < len && js[pos] != 0; i++)` after
`\u`; the first argument is `4 - i`.  `none` is `return JSMN_STREAM_ERROR_INVAL`,
`some pos` the value of `pos` when the loop is left. -/
def unicode_loop (js : Nat → Nat) (len : Nat) : Nat → Nat → Option Nat
  | 0, pos => some pos
  | n + 1, pos =>
    if pos < len ∧ js pos ≠ 0 then
      if is_hex (js pos) then unicode_loop js len n (pos + 1) else none
    else some pos

/-- The `case` labels of the escape switch that just `break`:
`"`, `/`, `\`, `b`, `f`, `r`, `n`, `t`. -/
def is_simple_escape (c : Nat) : Bool :=
  c = 34 || c = 47 || c = 92 || c = 98 || c = 102 || c = 114 || c = 110 || c = 116

/-- The loop `for (pos = 0; pos < len; pos++)` of `jsmn_stream_parse_string`,
started at `pos`.  Every iteration advances `pos` by at least one, so the
`fuel` the caller gives (`len`) is never used up before `pos` reaches `len`. -/
def string_loop (js : Nat → Nat) (len : Nat) : Nat → Nat → scan_exit
  | 0, _ => scan_exit.part
  | fuel + 1, pos =>
    if pos < len then
      if js pos = 34 then scan_exit.found
      else if js pos = 92 ∧ pos + 1 < len then
        -- pos++ ; switch (js[pos])
        if is_simple_escape (js (pos + 1)) then string_loop js len fuel (pos + 1 + 1)
        else if js (pos + 1) = 117 then
          -- pos++ ; hex loop ; pos-- ; break ; and the pos++ of the for loop
          match unicode_loop js len 4 (pos + 1 + 1) with
          | none => scan_exit.inval
          | some pos1 => string_loop js len fuel (pos1 - 1 + 1)
        else scan_exit.inval
      else string_loop js len fuel (pos + 1)
    else scan_exit.part

/-- Embedding of `jsmn_stream_parse_string`. -/
def jsmn_stream_parse_string (parser : jsmn_stream_parser_t) (cin : Nat) : step_result :=
  if parser.buffer_size = JSMN_STREAM_BUFFER_SIZE - 1 then
    ⟨JSMN_STREAM_ERROR_NOMEM, parser, []⟩
  else
    let parser1 := { parser with
      buffer := Function.update parser.buffer parser.buffer_size cin
      buffer_size := parser.buffer_size + 1 }
    let len := parser1.buffer_size
    match string_loop parser1.buffer len len 0 with
    | scan_exit.inval => ⟨JSMN_STREAM_ERROR_INVAL, parser1, []⟩
    | scan_exit.part => ⟨JSMN_STREAM_ERROR_PART, parser1, []⟩
    | scan_exit.found =>
      let parser2 := { parser1 with buffer := Function.update parser1.buffer (len - 1) 0 }
      let calls := JSMN_STREAM_CALLBACK parser2
        (if jsmn_stream_stack_top parser2 = JSMN_STREAM_KEY
          then JSMN_STREAM_TOKEN_STRING else JSMN_STREAM_TOKEN_KEY)
        (some (payload parser2.buffer (len - 1))) (len - 1)
      ⟨0, { parser2 with buffer_size := 0, state := JSMN_STREAM_PARSING }, calls⟩

/-! ## The character dispatcher -/

/-- The `case` labels `'-'`, `'0'` … `'9'`, `'t'`, `'f'`, `'n'` of the switch
in `jsmn_stream_parse`. -/
def is_primitive_start (c : Nat) : Bool :=
  c = 45 || c = 48 || c = 49 || c = 50 || c = 51 || c = 52 || c = 53 || c = 54 ||
  c = 55 || c = 56 || c = 57 || c = 116 || c = 102 || c = 110

/-- The statement
`if (jsmn_stream_stack_top(parser) == JSMN_STREAM_KEY) jsmn_stream_stack_pop(parser);`
which occurs three times in `jsmn_stream_parse`. -/
def pop_if_key (parser : jsmn_stream_parser_t) : jsmn_stream_parser_t :=
  if jsmn_stream_stack_top parser = JSMN_STREAM_KEY then jsmn_stream_stack_pop parser
  else parser

/-- Embedding of `jsmn_stream_parse`.  The C function calls itself; `fuel` is
the number of nested activations allowed, and `none` means that this number
was not enough.  The callback invocations of a nested activation are recorded
after those already made by the activation that calls it. -/
def jsmn_stream_parse_fuel : Nat → jsmn_stream_parser_t → Nat → Option step_result
  | 0, _, _ => none
  | fuel + 1, parser, c =>
    match parser.state with
    | JSMN_STREAM_PARSING =>
      if c = 123 ∨ c = 91 then
        let type := if c = 123 then JSMN_STREAM_OBJECT else JSMN_STREAM_ARRAY
        let calls :=
          if c = 123 then JSMN_STREAM_CALLBACK_NULL parser JSMN_STREAM_TOKEN_START_OBJECT
          else JSMN_STREAM_CALLBACK_NULL parser JSMN_STREAM_TOKEN_START_ARRAY
        let pushed := jsmn_stream_stack_push parser type
        if !pushed.1 then some ⟨JSMN_STREAM_ERROR_MAX_DEPTH, pushed.2, calls⟩
        else some ⟨0, pushed.2, calls⟩
      else if c = 125 ∨ c = 93 then
        let calls :=
          if c = 125 then JSMN_STREAM_CALLBACK_NULL parser JSMN_STREAM_TOKEN_END_OBJECT
          else JSMN_STREAM_CALLBACK_NULL parser JSMN_STREAM_TOKEN_END_ARRAY
        some ⟨0, pop_if_key (jsmn_stream_stack_pop parser), calls⟩
      else if c = 34 then
        some ⟨0, { parser with state := JSMN_STREAM_PARSING_STRING }, []⟩
      else if c = 9 ∨ c = 13 ∨ c = 10 ∨ c = 32 ∨ c = 44 then
        some ⟨0, parser, []⟩
      else if c = 58 then
        if jsmn_stream_stack_top parser = JSMN_STREAM_OBJECT then
          let pushed := jsmn_stream_stack_push parser JSMN_STREAM_KEY
          if !pushed.1 then some ⟨JSMN_STREAM_ERROR_MAX_DEPTH, pushed.2, []⟩
          else some ⟨0, pushed.2, []⟩
        else some ⟨0, parser, []⟩
      else if is_primitive_start c then
        if jsmn_stream_stack_top parser = JSMN_STREAM_OBJECT then
          some ⟨JSMN_STREAM_ERROR_INVAL, parser, []⟩
        else
          -- the value returned by the nested call is dropped
          match jsmn_stream_parse_fuel fuel
              { parser with state := JSMN_STREAM_PARSING_PRIMITIVE } c with
          | none => none
          | some r => some ⟨0, r.parser, r.calls⟩
      else some ⟨JSMN_STREAM_ERROR_INVAL, parser, []⟩
    | JSMN_STREAM_PARSING_STRING =>
      let r := jsmn_stream_parse_string parser c
      if r.ret < 0 then some r
      else some ⟨0, pop_if_key r.parser, r.calls⟩
    | JSMN_STREAM_PARSING_PRIMITIVE =>
      let r := jsmn_stream_parse_primitive parser c
      if r.ret < 0 then some r
      else if r.ret = 0 then
        match jsmn_stream_parse_fuel fuel (pop_if_key r.parser) c with
        | none => none
        | some r2 => some ⟨r2.ret, r2.parser, r.calls ++ r2.calls⟩
      else some ⟨0, r.parser, r.calls⟩

/-- The call `jsmn_stream_parse(parser, c)`: four nested activations are
allowed, which is enough in every parser state
(`jsmn_stream_parse_fuel_enough`), so the fallback value is never used. -/
def jsmn_stream_parse (parser : jsmn_stream_parser_t) (c : Nat) : step_result :=
  (jsmn_stream_parse_fuel 4 parser c).getD ⟨0, parser, []⟩

/-- Embedding of `jsmn_stream_init`; the arrays are not touched. -/
def jsmn_stream_init (parser : jsmn_stream_parser_t) (callback : Bool) : jsmn_stream_parser_t :=
  { parser with
    state := JSMN_STREAM_PARSING
    stack_height := 0
    buffer_size := 0
    callback := callback }

/-! ## Driving the parser over a character sequence -/

/-- The outcome of calling `jsmn_stream_parse` once per character: the value
returned by each call, the parser after the last call, all callback
invocations in order. -/
structure feed_result where
  rets : List Int
  parser : jsmn_stream_parser_t
  calls : List callback_call

/-- The caller side: `jsmn_stream_parse` once per character, in order,
whatever the calls return. -/
def feed (parser : jsmn_stream_parser_t) : List Nat → feed_result
  | [] => ⟨[], parser, []⟩
  | c :: cs =>
    let r := jsmn_stream_parse parser c
    let f := feed r.parser cs
    ⟨r.ret :: f.rets, f.parser, r.calls ++ f.calls⟩

/-- The live part of the type stack, bottom first. -/
def live_stack (parser : jsmn_stream_parser_t) : List jsmn_streamtype_t :=
  (List.range parser.stack_height).map parser.type_stack

/-- The bytes accumulated so far. -/
def live_buffer (parser : jsmn_stream_parser_t) : List Nat :=
  payload parser.buffer parser.buffer_size

/-- The parser states a caller can produce: `jsmn_stream_init` on a
parser structure with arbitrary previous contents, then any sequence of calls
of `jsmn_stream_parse`. -/
def reachable (p : jsmn_stream_parser_t) : Prop :=
  ∃ (p0 : jsmn_stream_parser_t) (callback : Bool) (cs : List Nat),
    p = (feed (jsmn_stream_init p0 callback) cs).parser

/-! ## Tokens of the claims: whitespace, primitive texts, string contents -/

/-- The whitespace characters: tab, CR, LF, space. -/
def is_whitespace (c : Nat) : Bool :=
  c = 9 || c = 13 || c = 10 || c = 32

/-- A run of whitespace characters, possibly empty. -/
def whitespace (w : List Nat) : Prop :=
  ∀ c ∈ w, is_whitespace c = true

/-- A byte that can stand inside a primitive: printable ASCII (`32..126`) and
not one of the delimiters. -/
def is_primitive_char (c : Nat) : Bool :=
  32 ≤ c && c < 127 && !is_delimiter c

/-- The text of a primitive within the length bound: at most 254 bytes, the
first one of `-`, `0`…`9`, `t`, `f`, `n`, all of them printable ASCII other
than the delimiters.  Every JSON number and `true`, `false`, `null` of at most
254 bytes is such a text. -/
def primitive_text (t : List Nat) : Prop :=
  (∃ c t', t = c :: t' ∧ is_primitive_start c = true) ∧
  (∀ c ∈ t, is_primitive_char c = true) ∧ t.length ≤ 254

/-- The string contents of claim C4: a concatenation of plain characters
(anything but `"` and `\`) and valid escapes (`\` followed by one of
`" / \ b f r n t`, or `\u` followed by four hexadecimal digits). -/
inductive string_content : List Nat → Prop
  | nil : string_content []
  | plain (c : Nat) (s : List Nat) :
      c ≠ 34 → c ≠ 92 → string_content s → string_content (c :: s)
  | escape (e : Nat) (s : List Nat) :
      is_simple_escape e = true → string_content s → string_content (92 :: e :: s)
  | unicode (a b c d : Nat) (s : List Nat) :
      is_hex a = true → is_hex b = true → is_hex c = true → is_hex d = true →
      string_content s → string_content (92 :: 117 :: a :: b :: c :: d :: s)

/-- The raw text of a string within the length bound. -/
def string_text (s : List Nat) : Prop :=
  string_content s ∧ s.length ≤ 254

/-! ## JSON documents, their serialisations and their events -/

mutual
/-- A JSON value tree whose top level may be any value.  Strings and object
keys are kept as raw text (escapes not decoded), primitives (numbers, `true`,
`false`, `null`) as their text. -/
inductive json_value
  | primitive (text : List Nat)
  | string (raw : List Nat)
  | array (elements : json_elements)
  | object (members : json_members)
/-- The elements of an array, in order. -/
inductive json_elements
  | nil
  | cons (head : json_value) (tail : json_elements)
/-- The members of an object, in order. -/
inductive json_members
  | nil
  | cons (key : List Nat) (value : json_value) (tail : json_members)
end

mutual
/-- Every primitive, string and key of the tree is within the length bound
and well formed. -/
def json_value.ok : json_value → Prop
  | .primitive t => primitive_text t
  | .string s => string_text s
  | .array es => es.ok
  | .object ms => ms.ok
/-- The same for the elements of an array. -/
def json_elements.ok : json_elements → Prop
  | .nil => True
  | .cons v es => v.ok ∧ es.ok
/-- The same for the members of an object. -/
def json_members.ok : json_members → Prop
  | .nil => True
  | .cons k v ms => string_text k ∧ v.ok ∧ ms.ok
end

mutual
/-- The number of stack entries the parse of a value needs on top of those
in use when the value begins: one per open container and one per key whose
value is pending. -/
def json_value.stack_need : json_value → Nat
  | .primitive _ => 0
  | .string _ => 0
  | .array es => 1 + es.stack_need
  | .object ms => 1 + ms.stack_need
/-- The same for the elements of an array (the array's own entry excluded). -/
def json_elements.stack_need : json_elements → Nat
  | .nil => 0
  | .cons v es => max v.stack_need es.stack_need
/-- The same for the members of an object: each value is parsed with the
`KEY` marker of its key on the stack. -/
def json_members.stack_need : json_members → Nat
  | .nil => 0
  | .cons _ v ms => max (1 + v.stack_need) ms.stack_need
end

mutual
/-- The in-order event list of a value as `jsmn_stream_parse` reports it;
`member` tells whether the value is the direct value of an object member.
A string is reported as `STRING` when it is such a value and as `KEY`
otherwise (object keys, array elements). -/
def json_value.events : json_value → Bool → List callback_call
  | .primitive t, _ => [⟨JSMN_STREAM_TOKEN_PRIMITIVE, some t, t.length⟩]
  | .string s, member =>
    [⟨if member then JSMN_STREAM_TOKEN_STRING else JSMN_STREAM_TOKEN_KEY, some s, s.length⟩]
  | .array es, _ =>
    ⟨JSMN_STREAM_TOKEN_START_ARRAY, none, 0⟩ ::
      (es.events ++ [⟨JSMN_STREAM_TOKEN_END_ARRAY, none, 0⟩])
  | .object ms, _ =>
    ⟨JSMN_STREAM_TOKEN_START_OBJECT, none, 0⟩ ::
      (ms.events ++ [⟨JSMN_STREAM_TOKEN_END_OBJECT, none, 0⟩])
/-- The events of the elements of an array. -/
def json_elements.events : json_elements → List callback_call
  | .nil => []
  | .cons v es => v.events false ++ es.events
/-- The events of the members of an object: each key, then its value. -/
def json_members.events : json_members → List callback_call
  | .nil => []
  | .cons k v ms => ⟨JSMN_STREAM_TOKEN_KEY, some k, k.length⟩ :: (v.events true ++ ms.events)
end

mutual
/-- The serialisations of a value: the token sequence of the value with any
run of whitespace between tokens. -/
inductive serializes : json_value → List Nat → Prop
  | primitive (t : List Nat) : serializes (.primitive t) t
  | string (s : List Nat) : serializes (.string s) (34 :: (s ++ [34]))
  | array (es : json_elements) (w body : List Nat) :
      whitespace w → serializes_elements es body →
      serializes (.array es) (91 :: (w ++ (body ++ [93])))
  | object (ms : json_members) (w body : List Nat) :
      whitespace w → serializes_members ms body →
      serializes (.object ms) (123 :: (w ++ (body ++ [125])))
/-- The text between `[` and `]`: the elements separated by commas. -/
inductive serializes_elements : json_elements → List Nat → Prop
  | nil : serializes_elements .nil []
  | last (v : json_value) (cs w : List Nat) :
      serializes v cs → whitespace w →
      serializes_elements (.cons v .nil) (cs ++ w)
  | cons (v v' : json_value) (es : json_elements) (cs w1 w2 body : List Nat) :
      serializes v cs → whitespace w1 → whitespace w2 →
      serializes_elements (.cons v' es) body →
      serializes_elements (.cons v (.cons v' es)) (cs ++ (w1 ++ 44 :: (w2 ++ body)))
/-- The text between `{` and `}`: the members `"key" : value` separated by
commas. -/
inductive serializes_members : json_members → List Nat → Prop
  | nil : serializes_members .nil []
  | last (k : List Nat) (v : json_value) (w1 w2 cs w3 : List Nat) :
      whitespace w1 → whitespace w2 → serializes v cs → whitespace w3 →
      serializes_members (.cons k v .nil)
        (34 :: (k ++ 34 :: (w1 ++ 58 :: (w2 ++ (cs ++ w3)))))
  | cons (k : List Nat) (v : json_value) (k' : List Nat) (v' : json_value)
      (ms : json_members) (w1 w2 cs w3 w4 body : List Nat) :
      whitespace w1 → whitespace w2 → serializes v cs → whitespace w3 → whitespace w4 →
      serializes_members (.cons k' v' ms) body →
      serializes_members (.cons k v (.cons k' v' ms))
        (34 :: (k ++ 34 :: (w1 ++ 58 :: (w2 ++ (cs ++ (w3 ++ 44 :: (w4 ++ body)))))))
end

/-- The check that the `START_*` / `END_*` events of a list are matched and
correctly nested; the second argument is the stack of the `END_*` events still
expected, the innermost first. -/
def nesting_matched : List callback_call → List jsmn_stream_token_t → Bool
  | [], expected => expected.isEmpty
  | e :: es, expected =>
    match e.token with
    | JSMN_STREAM_TOKEN_START_OBJECT => nesting_matched es (JSMN_STREAM_TOKEN_END_OBJECT :: expected)
    | JSMN_STREAM_TOKEN_START_ARRAY => nesting_matched es (JSMN_STREAM_TOKEN_END_ARRAY :: expected)
    | JSMN_STREAM_TOKEN_END_OBJECT =>
      match expected with
      | JSMN_STREAM_TOKEN_END_OBJECT :: expected' => nesting_matched es expected'
      | _ => false
    | JSMN_STREAM_TOKEN_END_ARRAY =>
      match expected with
      | JSMN_STREAM_TOKEN_END_ARRAY :: expected' => nesting_matched es expected'
      | _ => false
    | _ => nesting_matched es expected

/-! ## Intermediate parser states used in the proofs -/

/-- The beginning of an escape that is not complete yet: nothing, a lone `\`,
or `\u` with fewer than four hexadecimal digits. -/
def escape_start (r : List Nat) : Prop :=
  r = [] ∨ r = [92] ∨ ∃ hs : List Nat, r = 92 :: 117 :: hs ∧ hs.length < 4 ∧ ∀ h ∈ hs, is_hex h = true

/-- What the buffer holds while a string of claim C4 is being received:
string contents followed by the beginning of an escape. -/
def string_open (t : List Nat) : Prop :=
  ∃ s r, t = s ++ r ∧ string_content s ∧ escape_start r

/-- What may follow a value: a primitive ends at a delimiter, so one has to
follow it; any other value ends by itself. -/
def value_end : json_value → List Nat → Prop
  | .primitive _, rest => ∃ d r, rest = d :: r ∧ is_delimiter d = true
  | _, _ => True

/-- The top of a stack given as a list, bottom first. -/
def list_top (S : List jsmn_streamtype_t) : jsmn_streamtype_t :=
  S.getLast?.getD JSMN_STREAM_UNDEFINED

/-- The effect of `pop_if_key` on the live stack. -/
def list_pop_if_key (S : List jsmn_streamtype_t) : List jsmn_streamtype_t :=
  if list_top S = JSMN_STREAM_KEY then S.dropLast else S

/-- Every value returned in the run `a` is a value returned in the run `b`, or
`0`, or `JSMN_STREAM_ERROR_PART`. -/
def rets_within (a b : List Int) : Prop :=
  ∀ x ∈ a, x ∈ b ∨ x = 0 ∨ x = JSMN_STREAM_ERROR_PART

/-- A parser ready for the next token: structural mode, empty buffer, a
callback installed. -/
def ready (p : jsmn_stream_parser_t) : Prop :=
  p.state = JSMN_STREAM_PARSING ∧ p.buffer_size = 0 ∧ p.callback = true

/-- The parser `p'` that is left when a value that began in the structural
parser `p` is complete: structural mode, empty buffer, same callback, the
`KEY` marker that was on top of the stack (if any) popped, the remaining live
stack entries untouched. -/
def after_value (p p' : jsmn_stream_parser_t) : Prop :=
  p'.state = JSMN_STREAM_PARSING ∧ p'.buffer_size = 0 ∧ p'.callback = p.callback ∧
  live_stack p' = live_stack (pop_if_key p)

/-! ## Concrete inputs -/

/-- A parser with unspecified previous contents, used to state concrete runs. -/
def blank : jsmn_stream_parser_t :=
  ⟨JSMN_STREAM_PARSING_STRING, false, fun _ => JSMN_STREAM_STRING, 7, fun _ => 65, 9⟩

/-- A parser in structural mode whose stack holds 32 object markers. -/
def full_stack : jsmn_stream_parser_t :=
  ⟨JSMN_STREAM_PARSING, true, fun _ => JSMN_STREAM_OBJECT, 32, fun _ => 0, 0⟩

/-- The document start `{"a":{"a": … {"a":{` with seventeen `{`: sixteen
times the five characters `{"a":`, then one more `{`. -/
def seventeen_objects : List Nat :=
  (List.replicate 16 [123, 34, 97, 34, 58]).flatten ++ [123]

/-- The tree of the document `[1,2,3]`. -/
def one_two_three : json_value :=
  .array (.cons (.primitive [49]) (.cons (.primitive [50]) (.cons (.primitive [51]) .nil)))

/-- The tree of the document `{"a":1}`. -/
def a_is_one : json_value :=
  .object (.cons [97] (.primitive [49]) .nil)

/-- The tree of the document `{"k":["a"],"s":"b"}`. -/
def mixed_strings : json_value :=
  .object (.cons [107] (.array (.cons (.string [97]) .nil)) (.cons [115] (.string [98]) .nil))

/-- Two parsers that agree on the mode, on the two counters and on the cells
below the counters: the stack entries `type_stack[0 .. stack_height)` and the
bytes `buffer[0 .. buffer_size)`.  The other cells of the two arrays and the
callback pointer may differ. -/
def same_live (p q : jsmn_stream_parser_t) : Prop :=
  p.state = q.state ∧ p.stack_height = q.stack_height ∧ p.buffer_size = q.buffer_size ∧
  (∀ i, i < p.stack_height → p.type_stack i = q.type_stack i) ∧
  (∀ i, i < p.buffer_size → p.buffer i = q.buffer i)

/-- The two counters are within the sizes of their arrays: at most
`JSMN_STREAM_MAX_DEPTH` stack entries, at most `JSMN_STREAM_BUFFER_SIZE - 1`
buffered bytes. -/
def within_bounds (p : jsmn_stream_parser_t) : Prop :=
  p.stack_height ≤ JSMN_STREAM_MAX_DEPTH ∧ p.buffer_size ≤ JSMN_STREAM_BUFFER_SIZE - 1

/-- What a call may change outside the live cells: `keeps_frame p r` says
that `r` has the callback of `p` and the stack cells of `p` from index
`JSMN_STREAM_MAX_DEPTH` on, that its stack height is within the bound if that
of `p` is, and, if the buffer size of `p` is within its bound, that the buffer
size of `r` is so too and `r` has the buffer cells of `p` from index
`JSMN_STREAM_BUFFER_SIZE - 1` on. -/
def keeps_frame (p r : jsmn_stream_parser_t) : Prop :=
  r.callback = p.callback ∧
  (∀ i, JSMN_STREAM_MAX_DEPTH ≤ i → r.type_stack i = p.type_stack i) ∧
  (p.stack_height ≤ JSMN_STREAM_MAX_DEPTH → r.stack_height ≤ JSMN_STREAM_MAX_DEPTH) ∧
  (p.buffer_size ≤ JSMN_STREAM_BUFFER_SIZE - 1 →
    r.buffer_size ≤ JSMN_STREAM_BUFFER_SIZE - 1 ∧
    ∀ i, JSMN_STREAM_BUFFER_SIZE - 1 ≤ i → r.buffer i = p.buffer i)

/-- Among the `n` bytes held in `js`, the one at index `k` is the first that
is not a primitive character. -/
def first_dirty (js : Nat → Nat) (n k : Nat) : Prop :=
  k < n ∧ is_primitive_char (js k) = false ∧ ∀ i, i < k → is_primitive_char (js i) = true

/-- All bytes held in the buffer are primitive characters. -/
def clean_buffer (p : jsmn_stream_parser_t) : Prop :=
  ∀ i, i < p.buffer_size → is_primitive_char (p.buffer i) = true

/-- What holds of the buffer while a primitive is being accumulated: it is not
empty, its first byte is one of the characters that start a primitive, and
the first byte that is not a primitive character, if there is one, is not a
delimiter (it is a NUL or a byte outside the printable range, on which every
later scan stops). -/
def primitive_pending (p : jsmn_stream_parser_t) : Prop :=
  p.state = JSMN_STREAM_PARSING_PRIMITIVE →
    0 < p.buffer_size ∧ is_primitive_start (p.buffer 0) = true ∧
    ∀ k, first_dirty p.buffer p.buffer_size k → is_delimiter (p.buffer k) = false

/-- The facts that hold in every state a caller can produce: counters within
bounds, an empty buffer in structural mode, a started primitive in primitive
mode. -/
def sound (p : jsmn_stream_parser_t) : Prop :=
  within_bounds p ∧ (p.state = JSMN_STREAM_PARSING → p.buffer_size = 0) ∧ primitive_pending p

/-- The shape of the live part of the stack: every entry is
`JSMN_STREAM_OBJECT`, `JSMN_STREAM_ARRAY` or `JSMN_STREAM_KEY`, and a
`JSMN_STREAM_KEY` entry is never the bottom one and has a
`JSMN_STREAM_OBJECT` entry immediately beneath it. -/
def key_on_object (p : jsmn_stream_parser_t) : Prop :=
  ∀ i, i < p.stack_height →
    (p.type_stack i = JSMN_STREAM_OBJECT ∨ p.type_stack i = JSMN_STREAM_ARRAY ∨
      p.type_stack i = JSMN_STREAM_KEY) ∧
    (p.type_stack i = JSMN_STREAM_KEY → 0 < i ∧ p.type_stack (i - 1) = JSMN_STREAM_OBJECT)

/-- The document start `[[ … [{"a"`: thirty-one `[`, then `{"a"`; the object
is the thirty-second entry of the stack. -/
def deep_object : List Nat :=
  List.replicate 31 91 ++ [123, 34, 97, 34]

/-- A primitive that can no longer end: the parser is in primitive mode and
the first byte of the buffer that is not a primitive character is a NUL, at
which every scan of the buffer stops. -/
def nul_stuck (p : jsmn_stream_parser_t) : Prop :=
  p.state = JSMN_STREAM_PARSING_PRIMITIVE ∧
  ∃ k, first_dirty p.buffer p.buffer_size k ∧ p.buffer k = 0

/-! ## Basic facts about the embedding -/

theorem parse_fuel_mono (n : Nat) : ∀ (p : jsmn_stream_parser_t) (c : Nat) (r : step_result),
    jsmn_stream_parse_fuel n p c = some r → jsmn_stream_parse_fuel (n + 1) p c = some r := by
  induction n with
  | zero => intro p c r h; simp [jsmn_stream_parse_fuel] at h
  | succ n ih =>
    intro p c r h
    rw [jsmn_stream_parse_fuel] at h ⊢
    cases hs : p.state <;> simp only [hs] at h ⊢
    · split_ifs at h ⊢ <;> try exact h
      split at h
      · simp at h
      · rename_i r2 hrec
        rw [ih _ _ _ hrec]; exact h
    · exact h
    · split_ifs at h ⊢ <;> try exact h
      all_goals
        split at h
        · simp at h
        · rename_i r2 hrec
          rw [ih _ _ _ hrec]; exact h

theorem parse_fuel_mono_le (n m : Nat) (hnm : n ≤ m) (p : jsmn_stream_parser_t) (c : Nat)
    (r : step_result) (h : jsmn_stream_parse_fuel n p c = some r) :
    jsmn_stream_parse_fuel m p c = some r := by
  induction hnm with
  | refl => exact h
  | step _ ih => exact parse_fuel_mono _ _ _ _ ih

theorem is_primitive_start_cases {c : Nat} (h : is_primitive_start c = true) :
    c = 45 ∨ c = 48 ∨ c = 49 ∨ c = 50 ∨ c = 51 ∨ c = 52 ∨ c = 53 ∨ c = 54 ∨
    c = 55 ∨ c = 56 ∨ c = 57 ∨ c = 116 ∨ c = 102 ∨ c = 110 := by
  simpa [is_primitive_start, or_assoc] using h

/-- Description of a finished token: the accumulator returned `0`. -/
theorem parse_primitive_zero {p : jsmn_stream_parser_t} {c : Nat}
    (h : (jsmn_stream_parse_primitive p c).ret = 0) :
    (jsmn_stream_parse_primitive p c).parser =
      { p with buffer := Function.update p.buffer p.buffer_size 0
               buffer_size := 0
               state := JSMN_STREAM_PARSING } := by
  unfold jsmn_stream_parse_primitive at h ⊢
  split_ifs at h ⊢ with h1
  · simp [JSMN_STREAM_ERROR_NOMEM] at h
  · simp only at h ⊢
    split at h <;> rename_i hm
    · simp [JSMN_STREAM_ERROR_INVAL] at h
    · simp [JSMN_STREAM_ERROR_PART] at h
    · simp

theorem parse_primitive_ret (p : jsmn_stream_parser_t) (c : Nat) :
    (jsmn_stream_parse_primitive p c).ret = JSMN_STREAM_ERROR_NOMEM ∨
    (jsmn_stream_parse_primitive p c).ret = JSMN_STREAM_ERROR_INVAL ∨
    (jsmn_stream_parse_primitive p c).ret = JSMN_STREAM_ERROR_PART ∨
    (jsmn_stream_parse_primitive p c).ret = 0 := by
  unfold jsmn_stream_parse_primitive
  split_ifs
  · simp
  · simp only
    split <;> simp

theorem parse_string_ret (p : jsmn_stream_parser_t) (c : Nat) :
    (jsmn_stream_parse_string p c).ret = JSMN_STREAM_ERROR_NOMEM ∨
    (jsmn_stream_parse_string p c).ret = JSMN_STREAM_ERROR_INVAL ∨
    (jsmn_stream_parse_string p c).ret = JSMN_STREAM_ERROR_PART ∨
    (jsmn_stream_parse_string p c).ret = 0 := by
  unfold jsmn_stream_parse_string
  split_ifs
  · simp
  · simp only
    split <;> simp

theorem parse_primitive_first {p : jsmn_stream_parser_t} {c : Nat}
    (hb : p.buffer_size = 0) (hc : is_primitive_start c = true) :
    jsmn_stream_parse_primitive p c =
      ⟨JSMN_STREAM_ERROR_PART,
       { p with buffer := Function.update p.buffer 0 c, buffer_size := 1 }, []⟩ := by
  unfold jsmn_stream_parse_primitive
  rw [hb]
  rcases is_primitive_start_cases hc with h | h | h | h | h | h | h | h | h | h | h | h | h | h <;>
    subst h <;>
    simp [JSMN_STREAM_BUFFER_SIZE, primitive_loop, is_delimiter]

theorem parse_fuel_primitive_first (n : Nat) {p : jsmn_stream_parser_t} {c : Nat}
    (hs : p.state = JSMN_STREAM_PARSING_PRIMITIVE) (hb : p.buffer_size = 0)
    (hc : is_primitive_start c = true) :
    jsmn_stream_parse_fuel (n + 1) p c = some (jsmn_stream_parse_primitive p c) := by
  rw [jsmn_stream_parse_fuel]
  simp only [hs]
  rw [parse_primitive_first hb hc]
  simp [JSMN_STREAM_ERROR_PART]

theorem parse_fuel_structural_empty (n : Nat) {p : jsmn_stream_parser_t} (c : Nat)
    (hs : p.state = JSMN_STREAM_PARSING) (hb : p.buffer_size = 0) :
    ∃ r, jsmn_stream_parse_fuel (n + 2) p c = some r := by
  rw [jsmn_stream_parse_fuel]
  simp only [hs]
  split_ifs <;> try exact ⟨_, rfl⟩
  rename_i hc _
  rw [parse_fuel_primitive_first n (p := { p with state := JSMN_STREAM_PARSING_PRIMITIVE })
    rfl hb hc]
  exact ⟨_, rfl⟩

theorem stack_pop_state (p : jsmn_stream_parser_t) :
    (jsmn_stream_stack_pop p).state = p.state := by
  unfold jsmn_stream_stack_pop; split_ifs <;> rfl

theorem stack_pop_buffer_size (p : jsmn_stream_parser_t) :
    (jsmn_stream_stack_pop p).buffer_size = p.buffer_size := by
  unfold jsmn_stream_stack_pop; split_ifs <;> rfl

theorem stack_pop_buffer (p : jsmn_stream_parser_t) :
    (jsmn_stream_stack_pop p).buffer = p.buffer := by
  unfold jsmn_stream_stack_pop; split_ifs <;> rfl

theorem stack_pop_type_stack (p : jsmn_stream_parser_t) :
    (jsmn_stream_stack_pop p).type_stack = p.type_stack := by
  unfold jsmn_stream_stack_pop; split_ifs <;> rfl

theorem stack_pop_callback (p : jsmn_stream_parser_t) :
    (jsmn_stream_stack_pop p).callback = p.callback := by
  unfold jsmn_stream_stack_pop; split_ifs <;> rfl

theorem stack_pop_height (p : jsmn_stream_parser_t) :
    (jsmn_stream_stack_pop p).stack_height = p.stack_height - 1 := by
  unfold jsmn_stream_stack_pop; split_ifs with h
  · rfl
  · omega

theorem pop_if_key_state (p : jsmn_stream_parser_t) : (pop_if_key p).state = p.state := by
  unfold pop_if_key; split_ifs
  · exact stack_pop_state p
  · rfl

theorem pop_if_key_buffer_size (p : jsmn_stream_parser_t) :
    (pop_if_key p).buffer_size = p.buffer_size := by
  unfold pop_if_key; split_ifs
  · exact stack_pop_buffer_size p
  · rfl

theorem pop_if_key_buffer (p : jsmn_stream_parser_t) : (pop_if_key p).buffer = p.buffer := by
  unfold pop_if_key; split_ifs
  · exact stack_pop_buffer p
  · rfl

theorem pop_if_key_type_stack (p : jsmn_stream_parser_t) :
    (pop_if_key p).type_stack = p.type_stack := by
  unfold pop_if_key; split_ifs
  · exact stack_pop_type_stack p
  · rfl

theorem pop_if_key_callback (p : jsmn_stream_parser_t) :
    (pop_if_key p).callback = p.callback := by
  unfold pop_if_key; split_ifs
  · exact stack_pop_callback p
  · rfl

theorem parse_fuel_primitive_some (n : Nat) {p : jsmn_stream_parser_t} (c : Nat)
    (hs : p.state = JSMN_STREAM_PARSING_PRIMITIVE) :
    ∃ r, jsmn_stream_parse_fuel (n + 3) p c = some r := by
  rw [jsmn_stream_parse_fuel]
  simp only [hs]
  by_cases h1 : (jsmn_stream_parse_primitive p c).ret < 0
  · rw [if_pos h1]; exact ⟨_, rfl⟩
  · rw [if_neg h1]
    by_cases h2 : (jsmn_stream_parse_primitive p c).ret = 0
    · rw [if_pos h2]
      obtain ⟨r, hr⟩ := parse_fuel_structural_empty n c
        (p := pop_if_key (jsmn_stream_parse_primitive p c).parser)
        (by rw [pop_if_key_state, parse_primitive_zero h2])
        (by rw [pop_if_key_buffer_size, parse_primitive_zero h2])
      rw [hr]; exact ⟨_, rfl⟩
    · rw [if_neg h2]; exact ⟨_, rfl⟩

theorem parse_fuel_some (p : jsmn_stream_parser_t) (c : Nat) :
    ∃ r, jsmn_stream_parse_fuel 4 p c = some r := by
  cases hs : p.state
  · rw [jsmn_stream_parse_fuel]
    simp only [hs]
    split_ifs <;> try exact ⟨_, rfl⟩
    obtain ⟨r, hr⟩ := parse_fuel_primitive_some 0 c
      (p := { p with state := JSMN_STREAM_PARSING_PRIMITIVE }) rfl
    rw [hr]; exact ⟨_, rfl⟩
  · rw [jsmn_stream_parse_fuel]
    simp only [hs]
    split_ifs <;> exact ⟨_, rfl⟩
  · obtain ⟨r, hr⟩ := parse_fuel_primitive_some 0 c hs
    exact ⟨r, parse_fuel_mono _ _ _ _ hr⟩

/-- Four nested activations are enough in every state: more fuel gives the
same result, which is the value of `jsmn_stream_parse`. -/
theorem jsmn_stream_parse_fuel_enough (n : Nat) (hn : 4 ≤ n) (p : jsmn_stream_parser_t) (c : Nat) :
    jsmn_stream_parse_fuel n p c = some (jsmn_stream_parse p c) := by
  obtain ⟨r, hr⟩ := parse_fuel_some p c
  have : jsmn_stream_parse p c = r := by simp [jsmn_stream_parse, hr]
  rw [this]
  exact parse_fuel_mono_le 4 n hn p c r hr

/-- Unfolding of `jsmn_stream_parse` in mode `JSMN_STREAM_PARSING`. -/
theorem parse_structural {p : jsmn_stream_parser_t} (c : Nat) (hs : p.state = JSMN_STREAM_PARSING) :
    jsmn_stream_parse p c =
      if c = 123 ∨ c = 91 then
        if !(jsmn_stream_stack_push p
            (if c = 123 then JSMN_STREAM_OBJECT else JSMN_STREAM_ARRAY)).1 then
          ⟨JSMN_STREAM_ERROR_MAX_DEPTH,
           (jsmn_stream_stack_push p (if c = 123 then JSMN_STREAM_OBJECT else JSMN_STREAM_ARRAY)).2,
           if c = 123 then JSMN_STREAM_CALLBACK_NULL p JSMN_STREAM_TOKEN_START_OBJECT
           else JSMN_STREAM_CALLBACK_NULL p JSMN_STREAM_TOKEN_START_ARRAY⟩
        else
          ⟨0,
           (jsmn_stream_stack_push p (if c = 123 then JSMN_STREAM_OBJECT else JSMN_STREAM_ARRAY)).2,
           if c = 123 then JSMN_STREAM_CALLBACK_NULL p JSMN_STREAM_TOKEN_START_OBJECT
           else JSMN_STREAM_CALLBACK_NULL p JSMN_STREAM_TOKEN_START_ARRAY⟩
      else if c = 125 ∨ c = 93 then
        ⟨0, pop_if_key (jsmn_stream_stack_pop p),
         if c = 125 then JSMN_STREAM_CALLBACK_NULL p JSMN_STREAM_TOKEN_END_OBJECT
         else JSMN_STREAM_CALLBACK_NULL p JSMN_STREAM_TOKEN_END_ARRAY⟩
      else if c = 34 then ⟨0, { p with state := JSMN_STREAM_PARSING_STRING }, []⟩
      else if c = 9 ∨ c = 13 ∨ c = 10 ∨ c = 32 ∨ c = 44 then ⟨0, p, []⟩
      else if c = 58 then
        if jsmn_stream_stack_top p = JSMN_STREAM_OBJECT then
          if !(jsmn_stream_stack_push p JSMN_STREAM_KEY).1 then
            ⟨JSMN_STREAM_ERROR_MAX_DEPTH, (jsmn_stream_stack_push p JSMN_STREAM_KEY).2, []⟩
          else ⟨0, (jsmn_stream_stack_push p JSMN_STREAM_KEY).2, []⟩
        else ⟨0, p, []⟩
      else if is_primitive_start c then
        if jsmn_stream_stack_top p = JSMN_STREAM_OBJECT then ⟨JSMN_STREAM_ERROR_INVAL, p, []⟩
        else
          ⟨0, (jsmn_stream_parse { p with state := JSMN_STREAM_PARSING_PRIMITIVE } c).parser,
           (jsmn_stream_parse { p with state := JSMN_STREAM_PARSING_PRIMITIVE } c).calls⟩
      else ⟨JSMN_STREAM_ERROR_INVAL, p, []⟩ := by
  have h5 := jsmn_stream_parse_fuel_enough 5 (by omega) p c
  rw [jsmn_stream_parse_fuel] at h5
  simp only [hs] at h5
  simp only [jsmn_stream_parse_fuel_enough 4 (le_refl _)] at h5
  split_ifs at h5 ⊢ <;> simpa using h5.symm

/-- Unfolding of `jsmn_stream_parse` in mode `JSMN_STREAM_PARSING_STRING`. -/
theorem parse_in_string {p : jsmn_stream_parser_t} (c : Nat)
    (hs : p.state = JSMN_STREAM_PARSING_STRING) :
    jsmn_stream_parse p c =
      if (jsmn_stream_parse_string p c).ret < 0 then jsmn_stream_parse_string p c
      else ⟨0, pop_if_key (jsmn_stream_parse_string p c).parser,
            (jsmn_stream_parse_string p c).calls⟩ := by
  have h5 := jsmn_stream_parse_fuel_enough 5 (by omega) p c
  rw [jsmn_stream_parse_fuel] at h5
  simp only [hs] at h5
  split_ifs at h5 ⊢ <;> simpa using h5.symm

/-- Unfolding of `jsmn_stream_parse` in mode `JSMN_STREAM_PARSING_PRIMITIVE`. -/
theorem parse_in_primitive {p : jsmn_stream_parser_t} (c : Nat)
    (hs : p.state = JSMN_STREAM_PARSING_PRIMITIVE) :
    jsmn_stream_parse p c =
      if (jsmn_stream_parse_primitive p c).ret < 0 then jsmn_stream_parse_primitive p c
      else if (jsmn_stream_parse_primitive p c).ret = 0 then
        ⟨(jsmn_stream_parse (pop_if_key (jsmn_stream_parse_primitive p c).parser) c).ret,
         (jsmn_stream_parse (pop_if_key (jsmn_stream_parse_primitive p c).parser) c).parser,
         (jsmn_stream_parse_primitive p c).calls ++
         (jsmn_stream_parse (pop_if_key (jsmn_stream_parse_primitive p c).parser) c).calls⟩
      else ⟨0, (jsmn_stream_parse_primitive p c).parser, (jsmn_stream_parse_primitive p c).calls⟩ := by
  have h5 := jsmn_stream_parse_fuel_enough 5 (by omega) p c
  rw [jsmn_stream_parse_fuel] at h5
  simp only [hs] at h5
  simp only [jsmn_stream_parse_fuel_enough 4 (le_refl _)] at h5
  split_ifs at h5 ⊢ <;> simpa using h5.symm

/-- In mode `JSMN_STREAM_PARSING` only `0`, `INVAL` and `MAX_DEPTH` are returned. -/
theorem parse_structural_ret {p : jsmn_stream_parser_t} (c : Nat)
    (hs : p.state = JSMN_STREAM_PARSING) :
    (jsmn_stream_parse p c).ret = 0 ∨
    (jsmn_stream_parse p c).ret = JSMN_STREAM_ERROR_INVAL ∨
    (jsmn_stream_parse p c).ret = JSMN_STREAM_ERROR_MAX_DEPTH := by
  rw [parse_structural c hs]
  split_ifs <;> first | (left; rfl) | (right; left; rfl) | (right; right; rfl)

theorem parse_primitive_done_state {p : jsmn_stream_parser_t} {c : Nat}
    (h : (jsmn_stream_parse_primitive p c).ret = 0) :
    (pop_if_key (jsmn_stream_parse_primitive p c).parser).state = JSMN_STREAM_PARSING := by
  rw [pop_if_key_state, parse_primitive_zero h]

/-- The accumulators make no callback and keep the mode unless they return `0`. -/
theorem parse_primitive_part {p : jsmn_stream_parser_t} {c : Nat}
    (h : (jsmn_stream_parse_primitive p c).ret ≠ 0) :
    (jsmn_stream_parse_primitive p c).calls = [] ∧
    (jsmn_stream_parse_primitive p c).parser.state = p.state ∧
    (jsmn_stream_parse_primitive p c).parser.stack_height = p.stack_height ∧
    (jsmn_stream_parse_primitive p c).parser.type_stack = p.type_stack := by
  unfold jsmn_stream_parse_primitive at h ⊢
  split_ifs at h ⊢
  · exact ⟨rfl, rfl, rfl, rfl⟩
  · simp only at h ⊢
    split at h
    · exact ⟨rfl, rfl, rfl, rfl⟩
    · exact ⟨rfl, rfl, rfl, rfl⟩
    · exact absurd rfl h

theorem parse_string_part {p : jsmn_stream_parser_t} {c : Nat}
    (h : (jsmn_stream_parse_string p c).ret ≠ 0) :
    (jsmn_stream_parse_string p c).calls = [] ∧
    (jsmn_stream_parse_string p c).parser.state = p.state ∧
    (jsmn_stream_parse_string p c).parser.stack_height = p.stack_height ∧
    (jsmn_stream_parse_string p c).parser.type_stack = p.type_stack := by
  unfold jsmn_stream_parse_string at h ⊢
  split_ifs at h ⊢
  · exact ⟨rfl, rfl, rfl, rfl⟩
  · simp only at h ⊢
    split at h
    · exact ⟨rfl, rfl, rfl, rfl⟩
    · exact ⟨rfl, rfl, rfl, rfl⟩
    · exact absurd rfl h

/-- The values `jsmn_stream_parse` can return. -/
theorem parse_ret_range (p : jsmn_stream_parser_t) (c : Nat) :
    (jsmn_stream_parse p c).ret = 0 ∨
    (jsmn_stream_parse p c).ret = JSMN_STREAM_ERROR_NOMEM ∨
    (jsmn_stream_parse p c).ret = JSMN_STREAM_ERROR_INVAL ∨
    (jsmn_stream_parse p c).ret = JSMN_STREAM_ERROR_PART ∨
    (jsmn_stream_parse p c).ret = JSMN_STREAM_ERROR_MAX_DEPTH := by
  cases hs : p.state
  · rcases parse_structural_ret c hs with h | h | h <;> simp [h]
  · rw [parse_in_string c hs]
    by_cases hneg : (jsmn_stream_parse_string p c).ret < 0
    · rw [if_pos hneg]
      rcases parse_string_ret p c with h | h | h | h <;> simp [h]
    · rw [if_neg hneg]; left; rfl
  · rw [parse_in_primitive c hs]
    by_cases h1 : (jsmn_stream_parse_primitive p c).ret < 0
    · rw [if_pos h1]
      rcases parse_primitive_ret p c with h | h | h | h <;> simp [h]
    · rw [if_neg h1]
      by_cases h2 : (jsmn_stream_parse_primitive p c).ret = 0
      · rw [if_pos h2]
        rcases parse_structural_ret c (parse_primitive_done_state h2) with h | h | h <;> simp [h]
      · rw [if_neg h2]; left; rfl

theorem parse_primitive_full {p : jsmn_stream_parser_t} (c : Nat)
    (h : p.buffer_size = JSMN_STREAM_BUFFER_SIZE - 1) :
    jsmn_stream_parse_primitive p c = ⟨JSMN_STREAM_ERROR_NOMEM, p, []⟩ := by
  unfold jsmn_stream_parse_primitive; rw [if_pos h]

theorem parse_string_full {p : jsmn_stream_parser_t} (c : Nat)
    (h : p.buffer_size = JSMN_STREAM_BUFFER_SIZE - 1) :
    jsmn_stream_parse_string p c = ⟨JSMN_STREAM_ERROR_NOMEM, p, []⟩ := by
  unfold jsmn_stream_parse_string; rw [if_pos h]

theorem parse_primitive_nomem {p : jsmn_stream_parser_t} {c : Nat}
    (h : (jsmn_stream_parse_primitive p c).ret = JSMN_STREAM_ERROR_NOMEM) :
    p.buffer_size = JSMN_STREAM_BUFFER_SIZE - 1 := by
  unfold jsmn_stream_parse_primitive at h
  split_ifs at h with h1
  · exact h1
  · simp only at h
    split at h <;> simp [JSMN_STREAM_ERROR_NOMEM, JSMN_STREAM_ERROR_INVAL,
      JSMN_STREAM_ERROR_PART] at h

theorem parse_string_nomem {p : jsmn_stream_parser_t} {c : Nat}
    (h : (jsmn_stream_parse_string p c).ret = JSMN_STREAM_ERROR_NOMEM) :
    p.buffer_size = JSMN_STREAM_BUFFER_SIZE - 1 := by
  unfold jsmn_stream_parse_string at h
  split_ifs at h with h1
  · exact h1
  · simp only at h
    split at h <;> simp [JSMN_STREAM_ERROR_NOMEM, JSMN_STREAM_ERROR_INVAL,
      JSMN_STREAM_ERROR_PART] at h

theorem stack_push_full {p : jsmn_stream_parser_t} (t : jsmn_streamtype_t)
    (h : JSMN_STREAM_MAX_DEPTH ≤ p.stack_height) :
    jsmn_stream_stack_push p t = (false, p) := by
  unfold jsmn_stream_stack_push; rw [if_pos h]

theorem stack_push_ok {p : jsmn_stream_parser_t} (t : jsmn_streamtype_t)
    (h : p.stack_height < JSMN_STREAM_MAX_DEPTH) :
    jsmn_stream_stack_push p t =
      (true, { p with type_stack := Function.update p.type_stack p.stack_height t
                      stack_height := p.stack_height + 1 }) := by
  unfold jsmn_stream_stack_push; rw [if_neg (by omega)]

theorem is_primitive_char_spec {c : Nat} (h : is_primitive_char c = true) :
    32 ≤ c ∧ c < 127 ∧ is_delimiter c = false := by
  simpa [is_primitive_char, and_assoc] using h

/-- The primitive loop walks over primitive characters. -/
theorem primitive_loop_skip (js : Nat → Nat) (len : Nat) (d : Nat) :
    ∀ (fuel pos : Nat), (∀ i, pos ≤ i → i < pos + d → is_primitive_char (js i) = true) →
      pos + d ≤ len →
      primitive_loop js len (fuel + d) pos = primitive_loop js len fuel (pos + d) := by
  induction d with
  | zero => intro fuel pos _ _; rfl
  | succ d ih =>
    intro fuel pos hall hle
    obtain ⟨h1, h2, h3⟩ := is_primitive_char_spec (hall pos (le_refl _) (by omega))
    have e : fuel + (d + 1) = (fuel + d) + 1 := by omega
    rw [e, primitive_loop]
    have hc : pos < len ∧ js pos ≠ 0 := ⟨by omega, by omega⟩
    rw [if_pos hc, h3]
    have hn : ¬ (js pos < 32 ∨ js pos ≥ 127) := by omega
    simp only [Bool.false_eq_true, if_false, if_neg hn]
    rw [ih fuel (pos + 1) (fun i hi1 hi2 => hall i (by omega) (by omega)) (by omega)]
    congr 1; omega

/-- The scan made by `jsmn_stream_parse_primitive` when the bytes already held
are primitive characters: only the new byte decides. -/
theorem primitive_loop_last (js : Nat → Nat) (n : Nat)
    (hall : ∀ i, i < n → is_primitive_char (js i) = true) :
    primitive_loop js (n + 1) (n + 1) 0 =
      if js n = 0 then scan_exit.part
      else if is_delimiter (js n) then scan_exit.found
      else if js n < 32 ∨ js n ≥ 127 then scan_exit.inval
      else scan_exit.part := by
  have h := primitive_loop_skip js (n + 1) n 1 0 (fun i _ hi => hall i (by omega)) (by omega)
  rw [Nat.add_comm 1 n, Nat.zero_add] at h
  rw [h, primitive_loop]
  by_cases h0 : js n = 0
  · simp [h0]
  · simp [h0, primitive_loop]

theorem update_held (js : Nat → Nat) (n c : Nat) (P : Nat → Prop)
    (hall : ∀ i, i < n → P (js i)) : ∀ i, i < n → P (Function.update js n c i) := by
  intro i hi
  rw [Function.update_noteq (by omega)]
  exact hall i hi

theorem payload_update (js : Nat → Nat) (n k v : Nat) (h : n ≤ k) :
    payload (Function.update js k v) n = payload js n := by
  unfold payload
  apply List.map_congr_left
  intro i hi
  rw [List.mem_range] at hi
  rw [Function.update_noteq (by omega)]

/-- The primitive accumulator on a clean buffer, by the kind of the new byte. -/
theorem parse_primitive_clean (p : jsmn_stream_parser_t) (c : Nat)
    (hlt : p.buffer_size < 255)
    (hbuf : ∀ i, i < p.buffer_size → is_primitive_char (p.buffer i) = true) :
    jsmn_stream_parse_primitive p c =
      if c = 0 then
        ⟨JSMN_STREAM_ERROR_PART,
         { p with buffer := Function.update p.buffer p.buffer_size c
                  buffer_size := p.buffer_size + 1 }, []⟩
      else if is_delimiter c then
        ⟨0, { p with buffer := Function.update p.buffer p.buffer_size 0
                     buffer_size := 0
                     state := JSMN_STREAM_PARSING },
         JSMN_STREAM_CALLBACK p JSMN_STREAM_TOKEN_PRIMITIVE
           (some (live_buffer p)) p.buffer_size⟩
      else if c < 32 ∨ c ≥ 127 then
        ⟨JSMN_STREAM_ERROR_INVAL,
         { p with buffer := Function.update p.buffer p.buffer_size c
                  buffer_size := p.buffer_size + 1 }, []⟩
      else
        ⟨JSMN_STREAM_ERROR_PART,
         { p with buffer := Function.update p.buffer p.buffer_size c
                  buffer_size := p.buffer_size + 1 }, []⟩ := by
  unfold jsmn_stream_parse_primitive
  have hne : p.buffer_size ≠ JSMN_STREAM_BUFFER_SIZE - 1 := by
    simp only [JSMN_STREAM_BUFFER_SIZE]; omega
  rw [if_neg hne]
  simp only
  rw [primitive_loop_last _ _
    (update_held p.buffer p.buffer_size c (fun x => is_primitive_char x = true) hbuf)]
  simp only [Function.update_same]
  by_cases h0 : c = 0
  · simp [h0]
  · by_cases hd : is_delimiter c = true
    · simp [h0, hd, JSMN_STREAM_CALLBACK, live_buffer, payload_update]
    · by_cases hr : c < 32 ∨ c ≥ 127
      · simp [h0, hd, hr]
      · simp [h0, hd, hr]

theorem stack_pop_with_buffer (p : jsmn_stream_parser_t) (b : Nat → Nat) :
    jsmn_stream_stack_pop { p with buffer := b } = { jsmn_stream_stack_pop p with buffer := b } := by
  unfold jsmn_stream_stack_pop
  split_ifs <;> rfl

theorem pop_if_key_with_buffer (p : jsmn_stream_parser_t) (b : Nat → Nat) :
    pop_if_key { p with buffer := b } = { pop_if_key p with buffer := b } := by
  unfold pop_if_key
  have : jsmn_stream_stack_top { p with buffer := b } = jsmn_stream_stack_top p := rfl
  rw [this, stack_pop_with_buffer]
  split_ifs <;> rfl

theorem is_delimiter_cases {d : Nat} (h : is_delimiter d = true) :
    d = 9 ∨ d = 13 ∨ d = 10 ∨ d = 32 ∨ d = 44 ∨ d = 93 ∨ d = 125 := by
  simpa [is_delimiter, or_assoc] using h

/-- In structural mode a delimiter never looks at the buffer. -/
theorem parse_delimiter_with_buffer (p : jsmn_stream_parser_t) (b : Nat → Nat) (d : Nat)
    (hs : p.state = JSMN_STREAM_PARSING) (hd : is_delimiter d = true) :
    jsmn_stream_parse { p with buffer := b } d =
      ⟨(jsmn_stream_parse p d).ret, { (jsmn_stream_parse p d).parser with buffer := b },
       (jsmn_stream_parse p d).calls⟩ := by
  rw [parse_structural d (p := { p with buffer := b }) hs, parse_structural d hs]
  rcases is_delimiter_cases hd with h | h | h | h | h | h | h <;> subst h <;>
    simp [stack_pop_with_buffer, pop_if_key_with_buffer, JSMN_STREAM_CALLBACK_NULL]

theorem pop_if_key_height_le (p : jsmn_stream_parser_t) :
    (pop_if_key p).stack_height ≤ p.stack_height := by
  unfold pop_if_key; split_ifs
  · rw [stack_pop_height]; omega
  · exact le_refl _

theorem parse_structural_max_depth {p : jsmn_stream_parser_t} {c : Nat}
    (hs : p.state = JSMN_STREAM_PARSING)
    (h : (jsmn_stream_parse p c).ret = JSMN_STREAM_ERROR_MAX_DEPTH) :
    JSMN_STREAM_MAX_DEPTH ≤ p.stack_height := by
  by_contra hlt
  rw [not_le] at hlt
  rw [parse_structural c hs] at h
  simp only [stack_push_ok _ hlt, Bool.not_true, Bool.false_eq_true, if_false] at h
  split_ifs at h <;>
    simp [JSMN_STREAM_ERROR_MAX_DEPTH, JSMN_STREAM_ERROR_INVAL] at h

theorem unicode_loop_ge (js : Nat → Nat) (len : Nat) (n : Nat) :
    ∀ pos pos1, unicode_loop js len n pos = some pos1 → pos ≤ pos1 := by
  induction n with
  | zero => intro pos pos1 h; simp [unicode_loop] at h; omega
  | succ n ih =>
    intro pos pos1 h
    rw [unicode_loop] at h
    split_ifs at h with h1 h2
    · have := ih _ _ h; omega
    · simp at h; omega

/-- The result of the string loop does not depend on the fuel, once the fuel
covers the distance to `len`. -/
theorem string_loop_fuel (js : Nat → Nat) (len : Nat) :
    ∀ f1 f2 pos, len - pos ≤ f1 → len - pos ≤ f2 →
      string_loop js len f1 pos = string_loop js len f2 pos := by
  intro f1
  induction f1 with
  | zero =>
    intro f2 pos h1 _
    cases f2 with
    | zero => rfl
    | succ f2 => rw [string_loop, string_loop, if_neg (by omega)]
  | succ f1 ih =>
    intro f2 pos h1 h2
    cases f2 with
    | zero => rw [string_loop, string_loop, if_neg (by omega)]
    | succ f2 =>
      rw [string_loop, string_loop]
      by_cases hlt : pos < len
      · rw [if_pos hlt, if_pos hlt]
        by_cases hq : js pos = 34
        · rw [if_pos hq, if_pos hq]
        · rw [if_neg hq, if_neg hq]
          by_cases hb : js pos = 92 ∧ pos + 1 < len
          · rw [if_pos hb, if_pos hb]
            by_cases he : is_simple_escape (js (pos + 1)) = true
            · rw [if_pos he, if_pos he]
              exact ih f2 _ (by omega) (by omega)
            · rw [if_neg he, if_neg he]
              by_cases hu : js (pos + 1) = 117
              · rw [if_pos hu, if_pos hu]
                cases hul : unicode_loop js len 4 (pos + 1 + 1) with
                | none => rfl
                | some pos1 =>
                  have := unicode_loop_ge js len 4 _ _ hul
                  exact ih f2 _ (by omega) (by omega)
              · rw [if_neg hu, if_neg hu]
          · rw [if_neg hb, if_neg hb]
            exact ih f2 _ (by omega) (by omega)
      · rw [if_neg hlt, if_neg hlt]

/-- One iteration of the string loop, the fuel kept at the distance to `len`. -/
theorem string_loop_unfold (js : Nat → Nat) (len pos : Nat) (hlt : pos < len) :
    string_loop js len (len - pos) pos =
      if js pos = 34 then scan_exit.found
      else if js pos = 92 ∧ pos + 1 < len then
        if is_simple_escape (js (pos + 1)) then string_loop js len (len - (pos + 2)) (pos + 2)
        else if js (pos + 1) = 117 then
          match unicode_loop js len 4 (pos + 2) with
          | none => scan_exit.inval
          | some pos1 => string_loop js len (len - pos1) pos1
        else scan_exit.inval
      else string_loop js len (len - (pos + 1)) (pos + 1) := by
  obtain ⟨m, hm⟩ : ∃ m, len - pos = m + 1 := ⟨len - pos - 1, by omega⟩
  rw [hm, string_loop, if_pos hlt]
  by_cases hq : js pos = 34
  · rw [if_pos hq, if_pos hq]
  · rw [if_neg hq, if_neg hq]
    by_cases hb : js pos = 92 ∧ pos + 1 < len
    · rw [if_pos hb, if_pos hb]
      by_cases he : is_simple_escape (js (pos + 1)) = true
      · rw [if_pos he, if_pos he]
        exact string_loop_fuel js len _ _ _ (by omega) (by omega)
      · rw [if_neg he, if_neg he]
        by_cases hu : js (pos + 1) = 117
        · rw [if_pos hu, if_pos hu]
          cases hul : unicode_loop js len 4 (pos + 1 + 1) with
          | none => simp only [hul]
          | some pos1 =>
            have := unicode_loop_ge js len 4 _ _ hul
            simp only [hul]
            have e : pos1 - 1 + 1 = pos1 := by omega
            rw [e]
            exact string_loop_fuel js len _ _ _ (by omega) (by omega)
        · rw [if_neg hu, if_neg hu]
    · rw [if_neg hb, if_neg hb]
      exact string_loop_fuel js len _ _ _ (by omega) (by omega)

theorem string_loop_end (js : Nat → Nat) (len pos fuel : Nat) (h : len ≤ pos) :
    string_loop js len fuel pos = scan_exit.part := by
  cases fuel with
  | zero => rfl
  | succ f => rw [string_loop, if_neg (by omega)]

theorem is_hex_ne_zero {c : Nat} (h : is_hex c = true) : c ≠ 0 := by
  intro h0; subst h0; simp [is_hex] at h

/-- The hexadecimal loop over `k` digits, stopped by the count of four or by
the end of the buffer. -/
theorem unicode_loop_hex (js : Nat → Nat) (len : Nat) (n : Nat) :
    ∀ k pos, k ≤ n → (∀ i, i < k → is_hex (js (pos + i)) = true) → pos + k ≤ len →
      (k = n ∨ pos + k = len) → unicode_loop js len n pos = some (pos + k) := by
  induction n with
  | zero => intro k pos hk _ _ _; have : k = 0 := by omega
            subst this; rfl
  | succ n ih =>
    intro k pos hk hall hle hstop
    rw [unicode_loop]
    cases k with
    | zero =>
      have : ¬ (pos < len ∧ js pos ≠ 0) := by omega
      rw [if_neg this]; rfl
    | succ k =>
      have h0 : is_hex (js pos) = true := hall 0 (by omega)
      have hc : pos < len ∧ js pos ≠ 0 := ⟨by omega, is_hex_ne_zero h0⟩
      rw [if_pos hc, if_pos h0]
      rw [ih k (pos + 1) (by omega)
        (fun i hi => by have := hall (i + 1) (by omega); rwa [show pos + 1 + i = pos + (i + 1) by omega])
        (by omega) (by omega)]
      congr 1; omega

theorem getElem?_cons_tail {s : List Nat} {c : Nat} {js : Nat → Nat} {pos : Nat}
    (h : ∀ i, i < (c :: s).length → (c :: s)[i]? = some (js (pos + i))) :
    js pos = c ∧ ∀ i, i < s.length → s[i]? = some (js (pos + 1 + i)) := by
  constructor
  · have := h 0 (by simp)
    simpa using this.symm
  · intro i hi
    have := h (i + 1) (by simp; omega)
    rw [show pos + 1 + i = pos + (i + 1) by omega]
    simpa using this

/-- The string loop walks over string contents without leaving. -/
theorem string_loop_content (js : Nat → Nat) (len : Nat) {s : List Nat}
    (hs : string_content s) :
    ∀ pos, (∀ i, i < s.length → s[i]? = some (js (pos + i))) → pos + s.length ≤ len →
      string_loop js len (len - pos) pos =
        string_loop js len (len - (pos + s.length)) (pos + s.length) := by
  induction hs with
  | nil => intro pos _ _; rfl
  | plain c s h1 h2 _ ih =>
    intro pos hall hle
    obtain ⟨h0, htl⟩ := getElem?_cons_tail hall
    simp only [List.length_cons] at hle ⊢
    rw [string_loop_unfold js len pos (by omega)]
    rw [if_neg (by rw [h0]; exact h1), if_neg (by rw [h0]; exact fun h => h2 h.1)]
    rw [ih (pos + 1) htl (by omega)]
    rw [show pos + 1 + s.length = pos + (s.length + 1) by omega]
  | escape e s he _ ih =>
    intro pos hall hle
    obtain ⟨h0, htl⟩ := getElem?_cons_tail hall
    obtain ⟨h1, htl2⟩ := getElem?_cons_tail htl
    simp only [List.length_cons] at hle ⊢
    rw [string_loop_unfold js len pos (by omega)]
    rw [if_neg (by rw [h0]; decide), if_pos ⟨h0, by omega⟩, h1, if_pos he]
    rw [show pos + 2 = pos + 1 + 1 by omega, ih (pos + 1 + 1) htl2 (by omega)]
    rw [show pos + 1 + 1 + s.length = pos + (s.length + 1 + 1) by omega]
  | unicode a b c d s ha hb hc hd _ ih =>
    intro pos hall hle
    obtain ⟨h0, htl⟩ := getElem?_cons_tail hall
    obtain ⟨h1, htl2⟩ := getElem?_cons_tail htl
    obtain ⟨h2, htl3⟩ := getElem?_cons_tail htl2
    obtain ⟨h3, htl4⟩ := getElem?_cons_tail htl3
    obtain ⟨h4, htl5⟩ := getElem?_cons_tail htl4
    obtain ⟨h5, htl6⟩ := getElem?_cons_tail htl5
    simp only [List.length_cons] at hle ⊢
    rw [string_loop_unfold js len pos (by omega)]
    rw [if_neg (by rw [h0]; decide), if_pos ⟨h0, by omega⟩, h1]
    rw [if_neg (by decide), if_pos rfl]
    have hul : unicode_loop js len 4 (pos + 2) = some (pos + 2 + 4) := by
      apply unicode_loop_hex js len 4 4 (pos + 2) (le_refl _) _ (by omega) (Or.inl rfl)
      intro i hi
      have hi' : i = 0 ∨ i = 1 ∨ i = 2 ∨ i = 3 := by omega
      rcases hi' with h | h | h | h <;> subst h
      · rw [show pos + 2 + 0 = pos + 1 + 1 by omega, h2]; exact ha
      · rw [show pos + 2 + 1 = pos + 1 + 1 + 1 by omega, h3]; exact hb
      · rw [show pos + 2 + 2 = pos + 1 + 1 + 1 + 1 by omega, h4]; exact hc
      · rw [show pos + 2 + 3 = pos + 1 + 1 + 1 + 1 + 1 by omega, h5]; exact hd
    rw [hul]
    simp only
    rw [show pos + 2 + 4 = pos + 1 + 1 + 1 + 1 + 1 + 1 by omega, ih _ htl6 (by omega)]
    rw [show pos + 1 + 1 + 1 + 1 + 1 + 1 + s.length
      = pos + (s.length + 1 + 1 + 1 + 1 + 1 + 1) by omega]

theorem payload_length (js : Nat → Nat) (n : Nat) : (payload js n).length = n := by
  simp [payload]

theorem payload_getElem? (js : Nat → Nat) (n i : Nat) (h : i < n) :
    (payload js n)[i]? = some (js i) := by
  simp [payload, List.getElem?_map, List.getElem?_range h]

theorem payload_succ (js : Nat → Nat) (n c : Nat) :
    payload (Function.update js n c) (n + 1) = payload js n ++ [c] := by
  unfold payload
  rw [List.range_succ, List.map_append]
  congr 1
  · apply List.map_congr_left
    intro i hi
    rw [List.mem_range] at hi
    rw [Function.update_noteq (by omega)]
  · simp

theorem getElem?_of_eq_payload {t : List Nat} {js : Nat → Nat} {n : Nat}
    (h : payload js n = t) : ∀ i, i < t.length → t[i]? = some (js (0 + i)) := by
  intro i hi
  subst h
  rw [payload_length] at hi
  rw [Nat.zero_add]
  exact payload_getElem? js n i hi

theorem getElem?_append_split {s r : List Nat} (js : Nat → Nat)
    (h : ∀ i, i < (s ++ r).length → (s ++ r)[i]? = some (js (0 + i))) :
    (∀ i, i < s.length → s[i]? = some (js (0 + i))) ∧
    (∀ j, j < r.length → r[j]? = some (js (s.length + j))) := by
  constructor
  · intro i hi
    have := h i (by rw [List.length_append]; omega)
    rwa [List.getElem?_append_left hi] at this
  · intro j hj
    have := h (s.length + j) (by rw [List.length_append]; omega)
    rw [List.getElem?_append_right (by omega)] at this
    simpa using this

/-- The scan of a buffer that holds string contents and then a quote. -/
theorem string_loop_closed (js : Nat → Nat) (n : Nat)
    (hs : string_content (payload js n)) (hq : js n = 34) :
    string_loop js (n + 1) (n + 1) 0 = scan_exit.found := by
  have h := string_loop_content js (n + 1) hs 0 (getElem?_of_eq_payload rfl)
    (by rw [payload_length]; omega)
  rw [payload_length, Nat.sub_zero, Nat.zero_add] at h
  rw [h, string_loop_unfold js (n + 1) n (by omega), if_pos hq]

/-- The scan of a buffer that holds string contents and the beginning of an
escape: no end of string, no error. -/
theorem string_loop_open (js : Nat → Nat) (n : Nat) (ho : string_open (payload js n)) :
    string_loop js n n 0 = scan_exit.part := by
  obtain ⟨s, r, ht, hs, hr⟩ := ho
  have hlen : s.length + r.length = n := by
    have := congrArg List.length ht
    rw [payload_length, List.length_append] at this
    omega
  obtain ⟨hsi, hri⟩ := getElem?_append_split js (by rw [← ht]; exact getElem?_of_eq_payload rfl)
  have h := string_loop_content js n hs 0 hsi (by omega)
  rw [Nat.sub_zero, Nat.zero_add] at h
  rw [h]
  rcases hr with hr | hr | ⟨hx, hr, hxl, hxh⟩
  · subst hr
    exact string_loop_end js n _ _ (by simp at hlen; omega)
  · subst hr
    simp only [List.length_singleton] at hlen hri
    have h0 : js s.length = 92 := by
      have := hri 0 (by omega); simpa using this.symm
    rw [string_loop_unfold js n s.length (by omega)]
    rw [if_neg (by rw [h0]; decide), if_neg (by omega)]
    exact string_loop_end js n _ _ (by omega)
  · subst hr
    obtain ⟨h0, htl⟩ := getElem?_cons_tail hri
    simp only [List.length_cons] at hlen
    obtain ⟨h1, htl2⟩ := getElem?_cons_tail htl
    rw [string_loop_unfold js n s.length (by omega)]
    rw [if_neg (by rw [h0]; decide), if_pos ⟨h0, by omega⟩, h1]
    rw [if_neg (by decide), if_pos rfl]
    have hul : unicode_loop js n 4 (s.length + 2) = some (s.length + 2 + hx.length) := by
      apply unicode_loop_hex js n 4 hx.length (s.length + 2) (by omega) _ (by omega)
        (Or.inr (by omega))
      intro i hi
      have := htl2 i hi
      rw [show s.length + 2 + i = s.length + 1 + 1 + i by omega]
      have hm : js (s.length + 1 + 1 + i) ∈ hx := by
        have h' := List.getElem?_eq_some_iff.mp this
        obtain ⟨hlt, heq⟩ := h'
        rw [← heq]; exact List.getElem_mem _
      exact hxh _ hm
    rw [hul]
    simp only
    exact string_loop_end js n _ _ (by omega)

/-- The string accumulator while the string stays open. -/
theorem parse_string_open (p : jsmn_stream_parser_t) (c : Nat) (hlt : p.buffer_size < 255)
    (ho : string_open (live_buffer p ++ [c])) :
    jsmn_stream_parse_string p c =
      ⟨JSMN_STREAM_ERROR_PART,
       { p with buffer := Function.update p.buffer p.buffer_size c
                buffer_size := p.buffer_size + 1 }, []⟩ := by
  unfold jsmn_stream_parse_string
  have hne : p.buffer_size ≠ JSMN_STREAM_BUFFER_SIZE - 1 := by
    simp only [JSMN_STREAM_BUFFER_SIZE]; omega
  rw [if_neg hne]
  simp only
  rw [string_loop_open _ _ (by rw [payload_succ]; exact ho)]

/-- The string accumulator at the closing quote. -/
theorem parse_string_close (p : jsmn_stream_parser_t) (hlt : p.buffer_size < 255)
    (hc : string_content (live_buffer p)) :
    jsmn_stream_parse_string p 34 =
      ⟨0, { p with buffer := Function.update p.buffer p.buffer_size 0
                   buffer_size := 0
                   state := JSMN_STREAM_PARSING },
       JSMN_STREAM_CALLBACK p
         (if jsmn_stream_stack_top p = JSMN_STREAM_KEY
          then JSMN_STREAM_TOKEN_STRING else JSMN_STREAM_TOKEN_KEY)
         (some (live_buffer p)) p.buffer_size⟩ := by
  unfold jsmn_stream_parse_string
  have hne : p.buffer_size ≠ JSMN_STREAM_BUFFER_SIZE - 1 := by
    simp only [JSMN_STREAM_BUFFER_SIZE]; omega
  rw [if_neg hne]
  simp only
  rw [string_loop_closed _ _ (by rw [payload_update _ _ _ _ (le_refl _)]; exact hc)
    (by simp)]
  simp [JSMN_STREAM_CALLBACK, live_buffer, payload_update, jsmn_stream_stack_top]

theorem feed_nil (p : jsmn_stream_parser_t) : feed p [] = ⟨[], p, []⟩ := rfl

theorem feed_cons (p : jsmn_stream_parser_t) (c : Nat) (cs : List Nat) :
    feed p (c :: cs) =
      ⟨(jsmn_stream_parse p c).ret :: (feed (jsmn_stream_parse p c).parser cs).rets,
       (feed (jsmn_stream_parse p c).parser cs).parser,
       (jsmn_stream_parse p c).calls ++ (feed (jsmn_stream_parse p c).parser cs).calls⟩ := rfl

theorem feed_append (a b : List Nat) : ∀ p : jsmn_stream_parser_t,
    feed p (a ++ b) =
      ⟨(feed p a).rets ++ (feed (feed p a).parser b).rets,
       (feed (feed p a).parser b).parser,
       (feed p a).calls ++ (feed (feed p a).parser b).calls⟩ := by
  induction a with
  | nil => intro p; rfl
  | cons c a ih =>
    intro p
    rw [List.cons_append, feed_cons, ih, feed_cons]
    simp

theorem rets_within_refl (a : List Int) : rets_within a a :=
  fun _ hx => Or.inl hx

theorem rets_within_trans {a b c : List Int} (h1 : rets_within a b) (h2 : rets_within b c) :
    rets_within a c := by
  intro x hx
  rcases h1 x hx with h | h
  · exact h2 x h
  · exact Or.inr h

theorem rets_within_append {l a b : List Int}
    (hl : ∀ x ∈ l, x = 0 ∨ x = JSMN_STREAM_ERROR_PART) (h : rets_within a b) :
    rets_within (l ++ a) b := by
  intro x hx
  rcases List.mem_append.mp hx with h1 | h1
  · exact Or.inr (hl x h1)
  · exact h x h1

theorem rets_within_cons_zero {a b : List Int} (h : rets_within a b) :
    rets_within (0 :: a) b :=
  rets_within_append (l := [0]) (fun _ hx => Or.inl (List.mem_singleton.mp hx)) h

theorem parse_string_zero {p : jsmn_stream_parser_t} {c : Nat}
    (h : (jsmn_stream_parse_string p c).ret = 0) :
    (jsmn_stream_parse_string p c).parser =
      { p with buffer := Function.update p.buffer p.buffer_size 0
               buffer_size := 0
               state := JSMN_STREAM_PARSING } := by
  unfold jsmn_stream_parse_string at h ⊢
  split_ifs at h ⊢ with h1
  · simp [JSMN_STREAM_ERROR_NOMEM] at h
  · simp only at h ⊢
    split at h
    · simp [JSMN_STREAM_ERROR_INVAL] at h
    · simp [JSMN_STREAM_ERROR_PART] at h
    · simp

/-- From structural mode with an empty buffer, structural mode is only
reached again with an empty buffer. -/
theorem structural_step_keeps_buffer_empty {p : jsmn_stream_parser_t} (c : Nat)
    (hs : p.state = JSMN_STREAM_PARSING) (hb : p.buffer_size = 0) :
    (jsmn_stream_parse p c).parser.state = JSMN_STREAM_PARSING →
      (jsmn_stream_parse p c).parser.buffer_size = 0 := by
  rw [parse_structural c hs]
  by_cases h1 : c = 123 ∨ c = 91
  · rw [if_pos h1]
    unfold jsmn_stream_stack_push
    split_ifs <;> intro _ <;> exact hb
  rw [if_neg h1]
  by_cases h2 : c = 125 ∨ c = 93
  · rw [if_pos h2]; intro _
    simp only [pop_if_key_buffer_size, stack_pop_buffer_size]; exact hb
  rw [if_neg h2]
  by_cases h3 : c = 34
  · rw [if_pos h3]; intro h; simp at h
  rw [if_neg h3]
  by_cases h4 : c = 9 ∨ c = 13 ∨ c = 10 ∨ c = 32 ∨ c = 44
  · rw [if_pos h4]; intro _; exact hb
  rw [if_neg h4]
  by_cases h5 : c = 58
  · rw [if_pos h5]
    unfold jsmn_stream_stack_push
    split_ifs <;> intro _ <;> exact hb
  rw [if_neg h5]
  by_cases h6 : is_primitive_start c = true
  · rw [if_pos h6]
    by_cases h7 : jsmn_stream_stack_top p = JSMN_STREAM_OBJECT
    · rw [if_pos h7]; intro _; exact hb
    · rw [if_neg h7]
      rw [parse_in_primitive c (p := { p with state := JSMN_STREAM_PARSING_PRIMITIVE }) rfl]
      rw [parse_primitive_first (p := { p with state := JSMN_STREAM_PARSING_PRIMITIVE }) hb h6]
      intro h
      simp [JSMN_STREAM_ERROR_PART] at h
  · rw [if_neg h6]; intro _; exact hb

/-- Whatever the state before, a call that ends in structural mode ends with
an empty buffer, provided structural mode had an empty buffer before. -/
theorem step_keeps_buffer_empty (p : jsmn_stream_parser_t) (c : Nat)
    (hinv : p.state = JSMN_STREAM_PARSING → p.buffer_size = 0) :
    (jsmn_stream_parse p c).parser.state = JSMN_STREAM_PARSING →
      (jsmn_stream_parse p c).parser.buffer_size = 0 := by
  cases hs : p.state
  · exact structural_step_keeps_buffer_empty c hs (hinv hs)
  · rw [parse_in_string c hs]
    by_cases hneg : (jsmn_stream_parse_string p c).ret < 0
    · rw [if_pos hneg]
      intro h
      rw [(parse_string_part (by omega)).2.1, hs] at h
      simp at h
    · rw [if_neg hneg]
      have h0 : (jsmn_stream_parse_string p c).ret = 0 := by
        rcases parse_string_ret p c with h | h | h | h <;>
          simp only [h, JSMN_STREAM_ERROR_NOMEM, JSMN_STREAM_ERROR_INVAL,
            JSMN_STREAM_ERROR_PART] at hneg ⊢ <;> omega
      intro _
      simp only [pop_if_key_buffer_size]
      rw [parse_string_zero h0]
  · rw [parse_in_primitive c hs]
    by_cases h1 : (jsmn_stream_parse_primitive p c).ret < 0
    · rw [if_pos h1]
      intro h
      rw [(parse_primitive_part (by omega)).2.1, hs] at h
      simp at h
    · rw [if_neg h1]
      by_cases h2 : (jsmn_stream_parse_primitive p c).ret = 0
      · rw [if_pos h2]
        exact structural_step_keeps_buffer_empty c (parse_primitive_done_state h2)
          (by rw [pop_if_key_buffer_size, parse_primitive_zero h2])
      · exfalso
        rcases parse_primitive_ret p c with h | h | h | h
        · rw [h] at h1; exact h1 (by decide)
        · rw [h] at h1; exact h1 (by decide)
        · rw [h] at h1; exact h1 (by decide)
        · exact h2 h

theorem feed_keeps_buffer_empty (cs : List Nat) : ∀ p : jsmn_stream_parser_t,
    (p.state = JSMN_STREAM_PARSING → p.buffer_size = 0) →
    (feed p cs).parser.state = JSMN_STREAM_PARSING → (feed p cs).parser.buffer_size = 0 := by
  induction cs with
  | nil => intro p h; exact h
  | cons c cs ih =>
    intro p h
    rw [feed_cons]
    exact ih _ (step_keeps_buffer_empty p c h)

/-- In every reachable state, structural mode goes with an empty buffer. -/
theorem reachable_structural_buffer_empty {p : jsmn_stream_parser_t} (hr : reachable p)
    (hs : p.state = JSMN_STREAM_PARSING) : p.buffer_size = 0 := by
  obtain ⟨p0, cb, cs, rfl⟩ := hr
  exact feed_keeps_buffer_empty cs _ (fun _ => rfl) hs

theorem string_open_of_content {s : List Nat} (h : string_content s) : string_open s :=
  ⟨s, [], (List.append_nil s).symm, h, Or.inl rfl⟩

theorem string_open_plain {c : Nat} {t : List Nat} (h1 : c ≠ 34) (h2 : c ≠ 92)
    (h : string_open t) : string_open (c :: t) := by
  obtain ⟨s, r, ht, hs, hr⟩ := h
  exact ⟨c :: s, r, by rw [ht]; rfl, string_content.plain c s h1 h2 hs, hr⟩

theorem string_open_escape {e : Nat} {t : List Nat} (he : is_simple_escape e = true)
    (h : string_open t) : string_open (92 :: e :: t) := by
  obtain ⟨s, r, ht, hs, hr⟩ := h
  exact ⟨92 :: e :: s, r, by rw [ht]; rfl, string_content.escape e s he hs, hr⟩

theorem string_open_unicode {a b c d : Nat} {t : List Nat} (ha : is_hex a = true)
    (hb : is_hex b = true) (hc : is_hex c = true) (hd : is_hex d = true)
    (h : string_open t) : string_open (92 :: 117 :: a :: b :: c :: d :: t) := by
  obtain ⟨s, r, ht, hs, hr⟩ := h
  exact ⟨92 :: 117 :: a :: b :: c :: d :: s, r, by rw [ht]; rfl,
    string_content.unicode a b c d s ha hb hc hd hs, hr⟩

theorem string_open_start {r : List Nat} (h : escape_start r) : string_open r :=
  ⟨[], r, rfl, string_content.nil, h⟩

/-- Every beginning of string contents is an open string. -/
theorem string_open_take {s : List Nat} (h : string_content s) :
    ∀ k, string_open (s.take k) := by
  induction h with
  | nil => intro k; rw [List.take_nil]; exact string_open_of_content string_content.nil
  | plain c s h1 h2 _ ih =>
    intro k
    cases k with
    | zero => exact string_open_of_content string_content.nil
    | succ k => rw [List.take_succ_cons]; exact string_open_plain h1 h2 (ih k)
  | escape e s he _ ih =>
    intro k
    rcases k with _ | _ | k
    · exact string_open_of_content string_content.nil
    · exact string_open_start (Or.inr (Or.inl rfl))
    · simp only [List.take_succ_cons]; exact string_open_escape he (ih k)
  | unicode a b c d s ha hb hc hd _ ih =>
    intro k
    rcases k with _ | _ | _ | _ | _ | _ | k
    · exact string_open_of_content string_content.nil
    · exact string_open_start (Or.inr (Or.inl rfl))
    · exact string_open_start (Or.inr (Or.inr ⟨[], rfl, by simp, by simp⟩))
    · exact string_open_start (Or.inr (Or.inr ⟨[a], rfl, by simp, by simpa using ha⟩))
    · exact string_open_start (Or.inr (Or.inr ⟨[a, b], rfl, by simp, by simpa using ⟨ha, hb⟩⟩))
    · exact string_open_start
        (Or.inr (Or.inr ⟨[a, b, c], rfl, by simp, by simpa using ⟨ha, hb, hc⟩⟩))
    · simp only [List.take_succ_cons]; exact string_open_unicode ha hb hc hd (ih k)

theorem live_buffer_append (p : jsmn_stream_parser_t) (c : Nat) :
    live_buffer { p with buffer := Function.update p.buffer p.buffer_size c
                         buffer_size := p.buffer_size + 1 } = live_buffer p ++ [c] := by
  unfold live_buffer
  exact payload_succ p.buffer p.buffer_size c

/-- One more character of a string that stays open. -/
theorem parse_open_string_char (p : jsmn_stream_parser_t) (c : Nat)
    (hs : p.state = JSMN_STREAM_PARSING_STRING) (hlt : p.buffer_size < 255)
    (ho : string_open (live_buffer p ++ [c])) :
    jsmn_stream_parse p c =
      ⟨JSMN_STREAM_ERROR_PART,
       { p with buffer := Function.update p.buffer p.buffer_size c
                buffer_size := p.buffer_size + 1 }, []⟩ := by
  rw [parse_in_string c hs, parse_string_open p c hlt ho]
  rfl

/-- The characters of a string that stays open are accumulated one by one:
no callback, every call returns `PART`, the stack is not touched. -/
theorem feed_open_string (t : List Nat) : ∀ p : jsmn_stream_parser_t,
    p.state = JSMN_STREAM_PARSING_STRING → p.buffer_size + t.length ≤ 255 →
    (∀ k, k ≤ t.length → string_open (live_buffer p ++ t.take k)) →
    (feed p t).calls = [] ∧
    (feed p t).rets = List.replicate t.length JSMN_STREAM_ERROR_PART ∧
    (feed p t).parser.state = JSMN_STREAM_PARSING_STRING ∧
    live_buffer (feed p t).parser = live_buffer p ++ t ∧
    (feed p t).parser.buffer_size = p.buffer_size + t.length ∧
    (feed p t).parser.type_stack = p.type_stack ∧
    (feed p t).parser.stack_height = p.stack_height ∧
    (feed p t).parser.callback = p.callback := by
  induction t with
  | nil => intro p hs _ _; simp [feed_nil, hs]
  | cons c t ih =>
    intro p hs hlen hopen
    simp only [List.length_cons] at hlen
    have h1 := hopen 1 (by simp)
    simp only [List.take_succ_cons, List.take_zero] at h1
    rw [feed_cons, parse_open_string_char p c hs (by omega) h1]
    have := ih { p with buffer := Function.update p.buffer p.buffer_size c
                        buffer_size := p.buffer_size + 1 } hs (by simp only; omega)
      (by
        intro k hk
        rw [live_buffer_append]
        have := hopen (k + 1) (by simp; omega)
        simpa using this)
    obtain ⟨a1, a2, a3, a4, a5, a6, a7, a8⟩ := this
    refine ⟨by simp [a1], by simp [a2, List.replicate_succ], a3, ?_, ?_, a6, a7, a8⟩
    · rw [a4, live_buffer_append]; simp
    · rw [a5]; simp only [List.length_cons]; omega

theorem stack_top_congr {a b : jsmn_stream_parser_t} (h1 : a.stack_height = b.stack_height)
    (h2 : a.type_stack = b.type_stack) : jsmn_stream_stack_top a = jsmn_stream_stack_top b := by
  unfold jsmn_stream_stack_top; rw [h1, h2]

/-- The closing quote of a string whose contents are held. -/
theorem parse_closing_quote (r : jsmn_stream_parser_t)
    (hs : r.state = JSMN_STREAM_PARSING_STRING) (hlt : r.buffer_size < 255)
    (hc : string_content (live_buffer r)) :
    jsmn_stream_parse r 34 =
      ⟨0, pop_if_key { r with buffer := Function.update r.buffer r.buffer_size 0
                              buffer_size := 0
                              state := JSMN_STREAM_PARSING },
       JSMN_STREAM_CALLBACK r
         (if jsmn_stream_stack_top r = JSMN_STREAM_KEY
          then JSMN_STREAM_TOKEN_STRING else JSMN_STREAM_TOKEN_KEY)
         (some (live_buffer r)) r.buffer_size⟩ := by
  rw [parse_in_string 34 hs, parse_string_close r hlt hc]
  rfl

theorem live_stack_length (p : jsmn_stream_parser_t) :
    (live_stack p).length = p.stack_height := by
  simp [live_stack]

theorem live_stack_congr {a b : jsmn_stream_parser_t} (h1 : a.stack_height = b.stack_height)
    (h2 : a.type_stack = b.type_stack) : live_stack a = live_stack b := by
  unfold live_stack; rw [h1, h2]

theorem live_stack_succ (ts : Nat → jsmn_streamtype_t) (n : Nat) :
    (List.range (n + 1)).map ts = (List.range n).map ts ++ [ts n] := by
  rw [List.range_succ, List.map_append]; rfl

theorem stack_top_eq (p : jsmn_stream_parser_t) :
    jsmn_stream_stack_top p = list_top (live_stack p) := by
  unfold jsmn_stream_stack_top list_top live_stack
  cases h : p.stack_height with
  | zero => simp
  | succ n => rw [live_stack_succ]; simp

theorem live_stack_pop (p : jsmn_stream_parser_t) :
    live_stack (jsmn_stream_stack_pop p) = (live_stack p).dropLast := by
  unfold jsmn_stream_stack_pop live_stack
  cases h : p.stack_height with
  | zero => simp [h]
  | succ n => simp [h, live_stack_succ]

theorem live_stack_pop_if_key (p : jsmn_stream_parser_t) :
    live_stack (pop_if_key p) = list_pop_if_key (live_stack p) := by
  unfold pop_if_key list_pop_if_key
  rw [stack_top_eq]
  split_ifs
  · exact live_stack_pop p
  · rfl

theorem live_stack_push (p : jsmn_stream_parser_t) (t : jsmn_streamtype_t)
    (h : p.stack_height < JSMN_STREAM_MAX_DEPTH) :
    live_stack (jsmn_stream_stack_push p t).2 = live_stack p ++ [t] := by
  rw [stack_push_ok t h]
  unfold live_stack
  simp only
  rw [live_stack_succ]
  congr 1
  · apply List.map_congr_left
    intro i hi
    rw [List.mem_range] at hi
    rw [Function.update_noteq (by omega)]
  · simp

/-- A whole string, from the opening to the closing quote, fed to a parser in
structural mode with an empty buffer: no callback before the closing quote,
one callback at the closing quote, and the parser is then ready for what
follows. -/
theorem feed_string_value (p : jsmn_stream_parser_t) (s : List Nat)
    (hs : p.state = JSMN_STREAM_PARSING) (hb : p.buffer_size = 0)
    (hc : string_content s) (hlen : s.length ≤ 254) :
    (feed p (34 :: s)).calls = [] ∧
    ∃ p', after_value p p' ∧ ∀ rest,
      (feed p (34 :: (s ++ 34 :: rest))).calls =
        JSMN_STREAM_CALLBACK p
          (if jsmn_stream_stack_top p = JSMN_STREAM_KEY
           then JSMN_STREAM_TOKEN_STRING else JSMN_STREAM_TOKEN_KEY) (some s) s.length ++
        (feed p' rest).calls ∧
      (feed p (34 :: (s ++ 34 :: rest))).parser = (feed p' rest).parser ∧
      rets_within (feed p (34 :: (s ++ 34 :: rest))).rets (feed p' rest).rets := by
  obtain ⟨q, hq, q1, q2, q3, q4, q5⟩ : ∃ q : jsmn_stream_parser_t,
      jsmn_stream_parse p 34 = ⟨0, q, []⟩ ∧ q.state = JSMN_STREAM_PARSING_STRING ∧
      q.buffer_size = 0 ∧ q.callback = p.callback ∧ q.type_stack = p.type_stack ∧
      q.stack_height = p.stack_height :=
    ⟨{ p with state := JSMN_STREAM_PARSING_STRING },
      by rw [parse_structural 34 hs]; simp, rfl, hb, rfl, rfl, rfl⟩
  have hlb : live_buffer q = [] := by simp [live_buffer, payload, q2]
  obtain ⟨a1, a2, a3, a4, a5, a6, a7, a8⟩ :=
    feed_open_string s q q1 (by rw [q2]; omega)
      (by intro k _; rw [hlb, List.nil_append]; exact string_open_take hc k)
  rw [hlb, List.nil_append] at a4
  rw [q2, Nat.zero_add] at a5
  have htop : jsmn_stream_stack_top (feed q s).parser = jsmn_stream_stack_top p :=
    stack_top_congr (a7.trans q5) (a6.trans q4)
  have hclose := parse_closing_quote (feed q s).parser a3 (by omega) (by rw [a4]; exact hc)
  refine ⟨by rw [feed_cons, hq]; simpa using a1, (jsmn_stream_parse (feed q s).parser 34).parser, ?_, ?_⟩
  · rw [hclose]
    refine ⟨by rw [pop_if_key_state], by rw [pop_if_key_buffer_size],
      by rw [pop_if_key_callback]; exact a8.trans q3, ?_⟩
    rw [live_stack_pop_if_key, live_stack_pop_if_key]
    congr 1
    exact live_stack_congr (a7.trans q5) (a6.trans q4)
  · intro rest
    rw [feed_cons, hq, feed_append, feed_cons]
    simp only [a1, List.nil_append]
    rw [hclose]
    refine ⟨by simp only [JSMN_STREAM_CALLBACK, a8, q3, htop, a4, a5], trivial, ?_⟩
    rw [a2]
    exact rets_within_cons_zero (rets_within_append
      (fun x hx => Or.inr (List.eq_of_mem_replicate hx))
      (rets_within_cons_zero (rets_within_refl _)))

theorem is_whitespace_cases {c : Nat} (h : is_whitespace c = true) :
    c = 9 ∨ c = 13 ∨ c = 10 ∨ c = 32 := by
  simpa [is_whitespace, or_assoc] using h

theorem is_delimiter_of_whitespace {c : Nat} (h : is_whitespace c = true) :
    is_delimiter c = true := by
  rcases is_whitespace_cases h with h | h | h | h <;> subst h <;> rfl

theorem parse_whitespace {p : jsmn_stream_parser_t} {c : Nat}
    (hs : p.state = JSMN_STREAM_PARSING) (hc : is_whitespace c = true) :
    jsmn_stream_parse p c = ⟨0, p, []⟩ := by
  rw [parse_structural c hs]
  rcases is_whitespace_cases hc with h | h | h | h <;> subst h <;> simp

theorem parse_comma {p : jsmn_stream_parser_t} (hs : p.state = JSMN_STREAM_PARSING) :
    jsmn_stream_parse p 44 = ⟨0, p, []⟩ := by
  rw [parse_structural 44 hs]; simp

/-- Whitespace between tokens changes neither the parser nor the callbacks,
and is answered with `0`. -/
theorem feed_whitespace (w : List Nat) (rest : List Nat) (p : jsmn_stream_parser_t)
    (hs : p.state = JSMN_STREAM_PARSING) (hw : whitespace w) :
    (feed p (w ++ rest)).calls = (feed p rest).calls ∧
    (feed p (w ++ rest)).parser = (feed p rest).parser ∧
    rets_within (feed p (w ++ rest)).rets (feed p rest).rets := by
  induction w with
  | nil => exact ⟨rfl, rfl, rets_within_refl _⟩
  | cons c w ih =>
    have hc : is_whitespace c = true := hw c (List.mem_cons_self _ _)
    have hw' : whitespace w := fun x hx => hw x (List.mem_cons_of_mem _ hx)
    obtain ⟨i1, i2, i3⟩ := ih hw'
    rw [List.cons_append, feed_cons, parse_whitespace hs hc]
    exact ⟨by simpa using i1, i2, rets_within_cons_zero i3⟩

theorem feed_comma (rest : List Nat) (p : jsmn_stream_parser_t)
    (hs : p.state = JSMN_STREAM_PARSING) :
    (feed p (44 :: rest)).calls = (feed p rest).calls ∧
    (feed p (44 :: rest)).parser = (feed p rest).parser ∧
    rets_within (feed p (44 :: rest)).rets (feed p rest).rets := by
  rw [feed_cons, parse_comma hs]
  exact ⟨by simp, rfl, rets_within_cons_zero (rets_within_refl _)⟩

theorem parse_open_array {p : jsmn_stream_parser_t} (hs : p.state = JSMN_STREAM_PARSING)
    (hcb : p.callback = true) (hh : p.stack_height < JSMN_STREAM_MAX_DEPTH) :
    jsmn_stream_parse p 91 =
      ⟨0, (jsmn_stream_stack_push p JSMN_STREAM_ARRAY).2,
       [⟨JSMN_STREAM_TOKEN_START_ARRAY, none, 0⟩]⟩ := by
  rw [parse_structural 91 hs]
  simp [stack_push_ok _ hh, JSMN_STREAM_CALLBACK_NULL, hcb]

theorem parse_open_object {p : jsmn_stream_parser_t} (hs : p.state = JSMN_STREAM_PARSING)
    (hcb : p.callback = true) (hh : p.stack_height < JSMN_STREAM_MAX_DEPTH) :
    jsmn_stream_parse p 123 =
      ⟨0, (jsmn_stream_stack_push p JSMN_STREAM_OBJECT).2,
       [⟨JSMN_STREAM_TOKEN_START_OBJECT, none, 0⟩]⟩ := by
  rw [parse_structural 123 hs]
  simp [stack_push_ok _ hh, JSMN_STREAM_CALLBACK_NULL, hcb]

theorem parse_close_array {p : jsmn_stream_parser_t} (hs : p.state = JSMN_STREAM_PARSING)
    (hcb : p.callback = true) :
    jsmn_stream_parse p 93 =
      ⟨0, pop_if_key (jsmn_stream_stack_pop p), [⟨JSMN_STREAM_TOKEN_END_ARRAY, none, 0⟩]⟩ := by
  rw [parse_structural 93 hs]
  simp [JSMN_STREAM_CALLBACK_NULL, hcb]

theorem parse_close_object {p : jsmn_stream_parser_t} (hs : p.state = JSMN_STREAM_PARSING)
    (hcb : p.callback = true) :
    jsmn_stream_parse p 125 =
      ⟨0, pop_if_key (jsmn_stream_stack_pop p), [⟨JSMN_STREAM_TOKEN_END_OBJECT, none, 0⟩]⟩ := by
  rw [parse_structural 125 hs]
  simp [JSMN_STREAM_CALLBACK_NULL, hcb]

theorem parse_colon {p : jsmn_stream_parser_t} (hs : p.state = JSMN_STREAM_PARSING)
    (htop : jsmn_stream_stack_top p = JSMN_STREAM_OBJECT)
    (hh : p.stack_height < JSMN_STREAM_MAX_DEPTH) :
    jsmn_stream_parse p 58 = ⟨0, (jsmn_stream_stack_push p JSMN_STREAM_KEY).2, []⟩ := by
  rw [parse_structural 58 hs]
  simp [stack_push_ok _ hh, htop]

/-- The first character of a primitive, met in structural mode. -/
theorem parse_primitive_start {p : jsmn_stream_parser_t} {c : Nat}
    (hs : p.state = JSMN_STREAM_PARSING) (hb : p.buffer_size = 0)
    (htop : jsmn_stream_stack_top p ≠ JSMN_STREAM_OBJECT) (hc : is_primitive_start c = true) :
    jsmn_stream_parse p c =
      ⟨0, { p with state := JSMN_STREAM_PARSING_PRIMITIVE
                   buffer := Function.update p.buffer 0 c
                   buffer_size := 1 }, []⟩ := by
  rw [parse_structural c hs]
  rw [parse_in_primitive c (p := { p with state := JSMN_STREAM_PARSING_PRIMITIVE }) rfl]
  rw [parse_primitive_first (p := { p with state := JSMN_STREAM_PARSING_PRIMITIVE }) hb hc]
  rcases is_primitive_start_cases hc with h | h | h | h | h | h | h | h | h | h | h | h | h | h <;>
    subst h <;> simp [htop, JSMN_STREAM_ERROR_PART, is_primitive_start]

/-- A further character of a primitive. -/
theorem parse_primitive_char {q : jsmn_stream_parser_t} {c : Nat}
    (hs : q.state = JSMN_STREAM_PARSING_PRIMITIVE) (hlt : q.buffer_size < 255)
    (hbuf : ∀ i, i < q.buffer_size → is_primitive_char (q.buffer i) = true)
    (hc : is_primitive_char c = true) :
    jsmn_stream_parse q c =
      ⟨JSMN_STREAM_ERROR_PART,
       { q with buffer := Function.update q.buffer q.buffer_size c
                buffer_size := q.buffer_size + 1 }, []⟩ := by
  obtain ⟨h1, h2, h3⟩ := is_primitive_char_spec hc
  rw [parse_in_primitive c hs, parse_primitive_clean q c hlt hbuf]
  have h0 : c ≠ 0 := by omega
  have hr : ¬ (c < 32 ∨ c ≥ 127) := by omega
  simp [h0, h3, hr, JSMN_STREAM_ERROR_PART]

/-- The delimiter after a primitive: the callback is made, and the delimiter
is handled by a nested call in structural mode. -/
theorem parse_primitive_delimiter {q : jsmn_stream_parser_t} {d : Nat}
    (hs : q.state = JSMN_STREAM_PARSING_PRIMITIVE) (hlt : q.buffer_size < 255)
    (hbuf : ∀ i, i < q.buffer_size → is_primitive_char (q.buffer i) = true)
    (hd : is_delimiter d = true) :
    jsmn_stream_parse q d =
      ⟨(jsmn_stream_parse (pop_if_key { q with buffer := Function.update q.buffer q.buffer_size 0
                                               buffer_size := 0
                                               state := JSMN_STREAM_PARSING }) d).ret,
       (jsmn_stream_parse (pop_if_key { q with buffer := Function.update q.buffer q.buffer_size 0
                                               buffer_size := 0
                                               state := JSMN_STREAM_PARSING }) d).parser,
       JSMN_STREAM_CALLBACK q JSMN_STREAM_TOKEN_PRIMITIVE (some (live_buffer q)) q.buffer_size ++
       (jsmn_stream_parse (pop_if_key { q with buffer := Function.update q.buffer q.buffer_size 0
                                               buffer_size := 0
                                               state := JSMN_STREAM_PARSING }) d).calls⟩ := by
  have hd0 : d ≠ 0 := by
    rcases is_delimiter_cases hd with h | h | h | h | h | h | h <;> omega
  rw [parse_in_primitive d hs, parse_primitive_clean q d hlt hbuf]
  simp [hd0, hd]

/-- The characters of a primitive after the first are accumulated one by one. -/
theorem feed_primitive_chars (t : List Nat) : ∀ q : jsmn_stream_parser_t,
    q.state = JSMN_STREAM_PARSING_PRIMITIVE → q.buffer_size + t.length ≤ 254 →
    (∀ i, i < q.buffer_size → is_primitive_char (q.buffer i) = true) →
    (∀ c ∈ t, is_primitive_char c = true) →
    (feed q t).calls = [] ∧
    (feed q t).parser.state = JSMN_STREAM_PARSING_PRIMITIVE ∧
    live_buffer (feed q t).parser = live_buffer q ++ t ∧
    (feed q t).parser.buffer_size = q.buffer_size + t.length ∧
    (∀ i, i < (feed q t).parser.buffer_size →
      is_primitive_char ((feed q t).parser.buffer i) = true) ∧
    (feed q t).parser.type_stack = q.type_stack ∧
    (feed q t).parser.stack_height = q.stack_height ∧
    (feed q t).parser.callback = q.callback ∧
    (∀ x ∈ (feed q t).rets, x = 0 ∨ x = JSMN_STREAM_ERROR_PART) := by
  induction t with
  | nil => intro q hs _ hbuf _; simp [feed_nil, hs]; exact hbuf
  | cons c t ih =>
    intro q hs hlen hbuf ht
    simp only [List.length_cons] at hlen
    have hc := ht c (List.mem_cons_self _ _)
    rw [feed_cons, parse_primitive_char hs (by omega) hbuf hc]
    obtain ⟨a1, a3, a4, a5, a6, a7, a8, a9, a10⟩ :=
      ih { q with buffer := Function.update q.buffer q.buffer_size c
                  buffer_size := q.buffer_size + 1 } hs (by simp only; omega)
        (by
          intro i hi
          simp only at hi ⊢
          by_cases hiq : i = q.buffer_size
          · subst hiq; rw [Function.update_same]; exact hc
          · rw [Function.update_noteq hiq]; exact hbuf i (by omega))
        (fun x hx => ht x (List.mem_cons_of_mem _ hx))
    refine ⟨by simp [a1], a3, ?_, ?_, a6, a7, a8, a9, ?_⟩
    · rw [a4, live_buffer_append]; simp
    · rw [a5]; simp only [List.length_cons]; omega
    · intro x hx
      rcases List.mem_cons.mp hx with h | h
      · exact Or.inr h
      · exact a10 x h

theorem is_primitive_char_of_start {c : Nat} (h : is_primitive_start c = true) :
    is_primitive_char c = true := by
  rcases is_primitive_start_cases h with h | h | h | h | h | h | h | h | h | h | h | h | h | h <;>
    subst h <;> rfl

/-- A whole primitive and the delimiter after it, fed to a parser in
structural mode with an empty buffer: one callback with the text of the
primitive, and the delimiter is then handled in structural mode. -/
theorem feed_primitive_value (p : jsmn_stream_parser_t) (t rest : List Nat)
    (hs : p.state = JSMN_STREAM_PARSING) (hb : p.buffer_size = 0)
    (htop : jsmn_stream_stack_top p ≠ JSMN_STREAM_OBJECT)
    (ht : primitive_text t) (hrest : ∃ d r, rest = d :: r ∧ is_delimiter d = true) :
    ∃ p', after_value p p' ∧
      (feed p (t ++ rest)).calls =
        JSMN_STREAM_CALLBACK p JSMN_STREAM_TOKEN_PRIMITIVE (some t) t.length ++
          (feed p' rest).calls ∧
      (feed p (t ++ rest)).parser = (feed p' rest).parser ∧
      rets_within (feed p (t ++ rest)).rets (feed p' rest).rets := by
  obtain ⟨⟨c, t', rfl, hc⟩, hall, hlen⟩ := ht
  obtain ⟨d, r, rfl, hd⟩ := hrest
  simp only [List.length_cons] at hlen
  obtain ⟨q, hq, q1, q2, q3, q4, q5, q6, q7⟩ : ∃ q : jsmn_stream_parser_t,
      jsmn_stream_parse p c = ⟨0, q, []⟩ ∧ q.state = JSMN_STREAM_PARSING_PRIMITIVE ∧
      q.buffer_size = 1 ∧ q.callback = p.callback ∧ q.type_stack = p.type_stack ∧
      q.stack_height = p.stack_height ∧ live_buffer q = [c] ∧
      (∀ i, i < q.buffer_size → is_primitive_char (q.buffer i) = true) :=
    ⟨_, parse_primitive_start hs hb htop hc, rfl, rfl, rfl, rfl, rfl,
      by simp [live_buffer, payload, List.range_succ],
      by
        intro i hi
        have : i = 0 := by simp only at hi; omega
        subst this
        simp only [Function.update_same]
        exact is_primitive_char_of_start hc⟩
  obtain ⟨a1, a3, a4, a5, a6, a7, a8, a9, a10⟩ :=
    feed_primitive_chars t' q q1 (by rw [q2]; omega) q7
      (fun x hx => hall x (List.mem_cons_of_mem _ hx))
  rw [q6] at a4
  have hdel := parse_primitive_delimiter (q := (feed q t').parser) a3 (by rw [a5, q2]; omega) a6 hd
  refine ⟨pop_if_key { (feed q t').parser with
      buffer := Function.update (feed q t').parser.buffer (feed q t').parser.buffer_size 0
      buffer_size := 0
      state := JSMN_STREAM_PARSING }, ?_, ?_, ?_, ?_⟩
  · refine ⟨by rw [pop_if_key_state], by rw [pop_if_key_buffer_size],
      by rw [pop_if_key_callback]; exact a9.trans q3, ?_⟩
    rw [live_stack_pop_if_key, live_stack_pop_if_key]
    congr 1
    exact live_stack_congr (a8.trans q5) (a7.trans q4)
  · rw [List.cons_append, feed_cons, hq, feed_append, feed_cons, hdel, feed_cons]
    simp only [a1, List.nil_append, List.append_assoc, JSMN_STREAM_CALLBACK, a9, q3, a4, a5, q2]
    simp [Nat.add_comm]
  · rw [List.cons_append, feed_cons, hq, feed_append, feed_cons, hdel, feed_cons]
  · rw [List.cons_append, feed_cons, hq, feed_append, feed_cons, hdel, feed_cons]
    exact rets_within_cons_zero (rets_within_append a10 (rets_within_refl _))

theorem list_top_append (S : List jsmn_streamtype_t) (t : jsmn_streamtype_t) :
    list_top (S ++ [t]) = t := by
  simp [list_top]

theorem list_pop_if_key_of_ne {S : List jsmn_streamtype_t}
    (h : list_top S ≠ JSMN_STREAM_KEY) : list_pop_if_key S = S := by
  unfold list_pop_if_key; rw [if_neg h]

theorem list_pop_if_key_append_key (S : List jsmn_streamtype_t) :
    list_pop_if_key (S ++ [JSMN_STREAM_KEY]) = S := by
  unfold list_pop_if_key; rw [list_top_append, if_pos rfl, List.dropLast_concat]

theorem ready_after_value {p p' : jsmn_stream_parser_t} (hp : ready p)
    (h : after_value p p') : ready p' :=
  ⟨h.1, h.2.1, h.2.2.1.trans hp.2.2⟩

theorem live_stack_after_value {p p' : jsmn_stream_parser_t} (h : after_value p p') :
    live_stack p' = list_pop_if_key (live_stack p) := by
  rw [h.2.2.2, live_stack_pop_if_key]

theorem stack_push_ready {p : jsmn_stream_parser_t} (t : jsmn_streamtype_t) (hp : ready p)
    (hh : p.stack_height < JSMN_STREAM_MAX_DEPTH) :
    ready (jsmn_stream_stack_push p t).2 ∧
    (jsmn_stream_stack_push p t).2.stack_height = p.stack_height + 1 := by
  rw [stack_push_ok t hh]
  exact ⟨⟨hp.1, hp.2.1, hp.2.2⟩, rfl⟩

/-- The parser after the closing bracket of a container that was opened in
the ready parser `p`. -/
theorem after_value_close {p p2 : jsmn_stream_parser_t} (t : jsmn_streamtype_t)
    (hp : ready p) (hp2 : ready p2) (hl : live_stack p2 = live_stack p ++ [t]) :
    after_value p (pop_if_key (jsmn_stream_stack_pop p2)) := by
  refine ⟨by rw [pop_if_key_state, stack_pop_state]; exact hp2.1,
    by rw [pop_if_key_buffer_size, stack_pop_buffer_size]; exact hp2.2.1,
    by rw [pop_if_key_callback, stack_pop_callback, hp2.2.2, hp.2.2], ?_⟩
  rw [live_stack_pop_if_key, live_stack_pop_if_key, live_stack_pop, hl, List.dropLast_concat]

/-- Whitespace followed by a delimiter begins with a delimiter. -/
theorem delimiter_head {w : List Nat} (hw : whitespace w) (x : Nat) (hx : is_delimiter x = true)
    (rest : List Nat) : ∃ d r, w ++ x :: rest = d :: r ∧ is_delimiter d = true := by
  cases w with
  | nil => exact ⟨x, rest, rfl, hx⟩
  | cons c w => exact ⟨c, w ++ x :: rest, rfl, is_delimiter_of_whitespace (hw c (List.mem_cons_self _ _))⟩

theorem value_end_of_delimiter (v : json_value) {rest : List Nat}
    (h : ∃ d r, rest = d :: r ∧ is_delimiter d = true) : value_end v rest := by
  cases v with
  | primitive t => exact h
  | string s => trivial
  | array es => trivial
  | object ms => trivial

mutual
/-- A serialised value fed to a ready parser: the callbacks are the events
of the value, the values returned are `0` and `PART`, and the parser is then
ready for what follows. -/
theorem feed_value : ∀ (v : json_value) (cs rest : List Nat) (p : jsmn_stream_parser_t),
    serializes v cs → v.ok → ready p →
    list_top (live_stack p) ≠ JSMN_STREAM_OBJECT →
    p.stack_height + v.stack_need ≤ 32 → value_end v rest →
    ∃ p', after_value p p' ∧
      (feed p (cs ++ rest)).calls =
        v.events (decide (list_top (live_stack p) = JSMN_STREAM_KEY)) ++ (feed p' rest).calls ∧
      (feed p (cs ++ rest)).parser = (feed p' rest).parser ∧
      rets_within (feed p (cs ++ rest)).rets (feed p' rest).rets
  | .primitive t, cs, rest, p, hser, hok, hp, htop, _, hend => by
    cases hser
    obtain ⟨p', h1, h2, h3, h4⟩ := feed_primitive_value p t rest hp.1 hp.2.1
      (by rw [stack_top_eq]; exact htop) hok hend
    refine ⟨p', h1, ?_, h3, h4⟩
    rw [h2]
    simp [JSMN_STREAM_CALLBACK, hp.2.2, json_value.events]
  | .string s, cs, rest, p, hser, hok, hp, _, _, _ => by
    cases hser
    obtain ⟨_, p', h1, h2⟩ := feed_string_value p s hp.1 hp.2.1 hok.1 hok.2
    have e : (34 :: (s ++ [34])) ++ rest = 34 :: (s ++ 34 :: rest) := by simp
    refine ⟨p', h1, ?_, ?_, ?_⟩
    · rw [e, (h2 rest).1, stack_top_eq]
      by_cases hk : list_top (live_stack p) = JSMN_STREAM_KEY <;>
        simp [JSMN_STREAM_CALLBACK, hp.2.2, json_value.events, hk]
    · rw [e, (h2 rest).2.1]
    · rw [e]; exact (h2 rest).2.2
  | .array es, cs, rest, p, hser, hok, hp, _, hneed, _ => by
    cases hser with
    | array _ w body hw hbody =>
      simp only [json_value.stack_need] at hneed
      have hh : p.stack_height < JSMN_STREAM_MAX_DEPTH := by
        simp only [JSMN_STREAM_MAX_DEPTH]; omega
      obtain ⟨hp1, hh1⟩ := stack_push_ready JSMN_STREAM_ARRAY hp hh
      have hl1 := live_stack_push p JSMN_STREAM_ARRAY hh
      obtain ⟨p2, hp2, hl2, hc2, hq2, hr2⟩ := feed_elements es body rest
        (jsmn_stream_stack_push p JSMN_STREAM_ARRAY).2 hbody hok hp1
        (by rw [hl1, list_top_append]) (by rw [hh1]; omega)
      have e : (91 :: (w ++ (body ++ [93]))) ++ rest = 91 :: (w ++ (body ++ 93 :: rest)) := by
        simp
      obtain ⟨hw1, hw2, hw3⟩ := feed_whitespace w (body ++ 93 :: rest) _ hp1.1 hw
      refine ⟨pop_if_key (jsmn_stream_stack_pop p2),
        after_value_close JSMN_STREAM_ARRAY hp hp2 (hl2.trans hl1), ?_, ?_, ?_⟩
      · rw [e, feed_cons, parse_open_array hp.1 hp.2.2 hh]
        simp only
        rw [hw1, hc2, feed_cons, parse_close_array hp2.1 hp2.2.2]
        simp [json_value.events]
      · rw [e, feed_cons, parse_open_array hp.1 hp.2.2 hh]
        simp only
        rw [hw2, hq2, feed_cons, parse_close_array hp2.1 hp2.2.2]
      · rw [e, feed_cons, parse_open_array hp.1 hp.2.2 hh]
        refine rets_within_cons_zero (rets_within_trans hw3 (rets_within_trans hr2 ?_))
        rw [feed_cons, parse_close_array hp2.1 hp2.2.2]
        exact rets_within_cons_zero (rets_within_refl _)
  | .object ms, cs, rest, p, hser, hok, hp, _, hneed, _ => by
    cases hser with
    | object _ w body hw hbody =>
      simp only [json_value.stack_need] at hneed
      have hh : p.stack_height < JSMN_STREAM_MAX_DEPTH := by
        simp only [JSMN_STREAM_MAX_DEPTH]; omega
      obtain ⟨hp1, hh1⟩ := stack_push_ready JSMN_STREAM_OBJECT hp hh
      have hl1 := live_stack_push p JSMN_STREAM_OBJECT hh
      obtain ⟨p2, hp2, hl2, hc2, hq2, hr2⟩ := feed_members ms body rest
        (jsmn_stream_stack_push p JSMN_STREAM_OBJECT).2 hbody hok hp1
        (by rw [hl1, list_top_append]) (by rw [hh1]; omega)
      have e : (123 :: (w ++ (body ++ [125]))) ++ rest = 123 :: (w ++ (body ++ 125 :: rest)) := by
        simp
      obtain ⟨hw1, hw2, hw3⟩ := feed_whitespace w (body ++ 125 :: rest) _ hp1.1 hw
      refine ⟨pop_if_key (jsmn_stream_stack_pop p2),
        after_value_close JSMN_STREAM_OBJECT hp hp2 (hl2.trans hl1), ?_, ?_, ?_⟩
      · rw [e, feed_cons, parse_open_object hp.1 hp.2.2 hh]
        simp only
        rw [hw1, hc2, feed_cons, parse_close_object hp2.1 hp2.2.2]
        simp [json_value.events]
      · rw [e, feed_cons, parse_open_object hp.1 hp.2.2 hh]
        simp only
        rw [hw2, hq2, feed_cons, parse_close_object hp2.1 hp2.2.2]
      · rw [e, feed_cons, parse_open_object hp.1 hp.2.2 hh]
        refine rets_within_cons_zero (rets_within_trans hw3 (rets_within_trans hr2 ?_))
        rw [feed_cons, parse_close_object hp2.1 hp2.2.2]
        exact rets_within_cons_zero (rets_within_refl _)
/-- The text between `[` and `]` fed to a ready parser with an array on top
of the stack. -/
theorem feed_elements : ∀ (es : json_elements) (body rest : List Nat)
    (p : jsmn_stream_parser_t),
    serializes_elements es body → es.ok → ready p →
    list_top (live_stack p) = JSMN_STREAM_ARRAY →
    p.stack_height + es.stack_need ≤ 32 →
    ∃ p', ready p' ∧ live_stack p' = live_stack p ∧
      (feed p (body ++ 93 :: rest)).calls = es.events ++ (feed p' (93 :: rest)).calls ∧
      (feed p (body ++ 93 :: rest)).parser = (feed p' (93 :: rest)).parser ∧
      rets_within (feed p (body ++ 93 :: rest)).rets (feed p' (93 :: rest)).rets
  | .nil, body, rest, p, hser, _, hp, _, _ => by
    cases hser
    exact ⟨p, hp, rfl, by simp [json_elements.events], rfl, rets_within_refl _⟩
  | .cons v es, body, rest, p, hser, hok, hp, htop, hneed => by
    simp only [json_elements.stack_need] at hneed
    have hk : list_top (live_stack p) ≠ JSMN_STREAM_KEY := by rw [htop]; decide
    have ho : list_top (live_stack p) ≠ JSMN_STREAM_OBJECT := by rw [htop]; decide
    cases hser with
    | last _ cs w hcs hw =>
      obtain ⟨p1, ha, hc1, hq1, hr1⟩ := feed_value v cs (w ++ 93 :: rest) p hcs hok.1 hp ho
        (by omega) (value_end_of_delimiter v (delimiter_head hw 93 rfl rest))
      have hp1 := ready_after_value hp ha
      have hl1 : live_stack p1 = live_stack p := by
        rw [live_stack_after_value ha, list_pop_if_key_of_ne hk]
      obtain ⟨hw1, hw2, hw3⟩ := feed_whitespace w (93 :: rest) p1 hp1.1 hw
      have e : (cs ++ w) ++ 93 :: rest = cs ++ (w ++ 93 :: rest) := by simp
      refine ⟨p1, hp1, hl1, ?_, ?_, ?_⟩
      · rw [e, hc1, hw1]
        simp [json_elements.events, hk]
      · rw [e, hq1, hw2]
      · rw [e]; exact rets_within_trans hr1 hw3
    | cons _ v' es' cs w1 w2 body' hcs hw1 hw2 hbody' =>
      obtain ⟨p1, ha, hc1, hq1, hr1⟩ := feed_value v cs
        (w1 ++ 44 :: (w2 ++ (body' ++ 93 :: rest))) p
        hcs hok.1 hp ho (by omega) (value_end_of_delimiter v (delimiter_head hw1 44 rfl _))
      have hp1 := ready_after_value hp ha
      have hl1 : live_stack p1 = live_stack p := by
        rw [live_stack_after_value ha, list_pop_if_key_of_ne hk]
      obtain ⟨p2, hp2, hl2, hc2, hq2, hr2⟩ := feed_elements (.cons v' es') body' rest p1 hbody'
        hok.2 hp1 (by rw [hl1]; exact htop)
        (by have := congrArg List.length hl1
            rw [live_stack_length, live_stack_length] at this
            rw [this]; omega)
      obtain ⟨ha1, ha2, ha3⟩ := feed_whitespace w1 (44 :: (w2 ++ (body' ++ 93 :: rest))) p1
        hp1.1 hw1
      obtain ⟨hb1, hb2, hb3⟩ := feed_comma (w2 ++ (body' ++ 93 :: rest)) p1 hp1.1
      obtain ⟨hd1, hd2, hd3⟩ := feed_whitespace w2 (body' ++ 93 :: rest) p1 hp1.1 hw2
      have e : (cs ++ (w1 ++ 44 :: (w2 ++ body'))) ++ 93 :: rest
          = cs ++ (w1 ++ 44 :: (w2 ++ (body' ++ 93 :: rest))) := by simp
      refine ⟨p2, hp2, hl2.trans hl1, ?_, ?_, ?_⟩
      · rw [e, hc1, ha1, hb1, hd1, hc2]
        simp [json_elements.events, hk]
      · rw [e, hq1, ha2, hb2, hd2, hq2]
      · rw [e]
        exact rets_within_trans hr1 (rets_within_trans ha3 (rets_within_trans hb3
          (rets_within_trans hd3 hr2)))
/-- The text between `{` and `}` fed to a ready parser with an object on
top of the stack. -/
theorem feed_members : ∀ (ms : json_members) (body rest : List Nat)
    (p : jsmn_stream_parser_t),
    serializes_members ms body → ms.ok → ready p →
    list_top (live_stack p) = JSMN_STREAM_OBJECT →
    p.stack_height + ms.stack_need ≤ 32 →
    ∃ p', ready p' ∧ live_stack p' = live_stack p ∧
      (feed p (body ++ 125 :: rest)).calls = ms.events ++ (feed p' (125 :: rest)).calls ∧
      (feed p (body ++ 125 :: rest)).parser = (feed p' (125 :: rest)).parser ∧
      rets_within (feed p (body ++ 125 :: rest)).rets (feed p' (125 :: rest)).rets
  | .nil, body, rest, p, hser, _, hp, _, _ => by
    cases hser
    exact ⟨p, hp, rfl, by simp [json_members.events], rfl, rets_within_refl _⟩
  | .cons k v ms, body, rest, p, hser, hok, hp, htop, hneed => by
    simp only [json_members.stack_need] at hneed
    have hk : list_top (live_stack p) ≠ JSMN_STREAM_KEY := by rw [htop]; decide
    -- the key
    obtain ⟨_, p1, ha, hkey⟩ := feed_string_value p k hp.1 hp.2.1 hok.1.1 hok.1.2
    have hp1 := ready_after_value hp ha
    have hl1 : live_stack p1 = live_stack p := by
      rw [live_stack_after_value ha, list_pop_if_key_of_ne hk]
    have hh1 : p1.stack_height = p.stack_height := by
      have := congrArg List.length hl1
      rwa [live_stack_length, live_stack_length] at this
    have hkind : JSMN_STREAM_CALLBACK p
        (if jsmn_stream_stack_top p = JSMN_STREAM_KEY
         then JSMN_STREAM_TOKEN_STRING else JSMN_STREAM_TOKEN_KEY) (some k) k.length
        = [⟨JSMN_STREAM_TOKEN_KEY, some k, k.length⟩] := by
      rw [stack_top_eq, if_neg hk]
      simp [JSMN_STREAM_CALLBACK, hp.2.2]
    -- the colon
    have hh : p1.stack_height < JSMN_STREAM_MAX_DEPTH := by
      simp only [JSMN_STREAM_MAX_DEPTH]; omega
    have hcolon := parse_colon hp1.1 (by rw [stack_top_eq, hl1]; exact htop) hh
    obtain ⟨hp2, hh2⟩ := stack_push_ready JSMN_STREAM_KEY hp1 hh
    have hl2 := live_stack_push p1 JSMN_STREAM_KEY hh
    have htop2 : list_top (live_stack (jsmn_stream_stack_push p1 JSMN_STREAM_KEY).2)
        = JSMN_STREAM_KEY := by rw [hl2, list_top_append]
    have ho2 : list_top (live_stack (jsmn_stream_stack_push p1 JSMN_STREAM_KEY).2)
        ≠ JSMN_STREAM_OBJECT := by rw [htop2]; decide
    cases hser with
    | last _ _ w1 w2 cs w3 hw1 hw2 hcs hw3 =>
      obtain ⟨p3, ha3, hc3, hq3, hr3⟩ := feed_value v cs (w3 ++ 125 :: rest)
        (jsmn_stream_stack_push p1 JSMN_STREAM_KEY).2 hcs hok.2.1 hp2 ho2
        (by rw [hh2, hh1]; omega) (value_end_of_delimiter v (delimiter_head hw3 125 rfl rest))
      have hp3 := ready_after_value hp2 ha3
      have hl3 : live_stack p3 = live_stack p := by
        rw [live_stack_after_value ha3, hl2, list_pop_if_key_append_key, hl1]
      obtain ⟨ha1, ha2, ha3'⟩ := feed_whitespace w1 (58 :: (w2 ++ (cs ++ (w3 ++ 125 :: rest)))) p1
        hp1.1 hw1
      obtain ⟨hb1, hb2, hb3⟩ := feed_whitespace w2 (cs ++ (w3 ++ 125 :: rest)) _ hp2.1 hw2
      obtain ⟨hd1, hd2, hd3⟩ := feed_whitespace w3 (125 :: rest) p3 hp3.1 hw3
      have e : (34 :: (k ++ 34 :: (w1 ++ 58 :: (w2 ++ (cs ++ w3))))) ++ 125 :: rest
          = 34 :: (k ++ 34 :: (w1 ++ 58 :: (w2 ++ (cs ++ (w3 ++ 125 :: rest))))) := by simp
      refine ⟨p3, hp3, hl3, ?_, ?_, ?_⟩
      · rw [e, (hkey _).1, hkind, ha1, feed_cons, hcolon]
        simp only
        rw [hb1, hc3, hd1, htop2]
        simp [json_members.events]
      · rw [e, (hkey _).2.1, ha2, feed_cons, hcolon]
        simp only
        rw [hb2, hq3, hd2]
      · rw [e]
        refine rets_within_trans (hkey _).2.2 (rets_within_trans ha3' ?_)
        rw [feed_cons, hcolon]
        exact rets_within_cons_zero (rets_within_trans hb3 (rets_within_trans hr3 hd3))
    | cons _ _ k' v' ms' w1 w2 cs w3 w4 body' hw1 hw2 hcs hw3 hw4 hbody' =>
      obtain ⟨p3, ha3, hc3, hq3, hr3⟩ := feed_value v cs
        (w3 ++ 44 :: (w4 ++ (body' ++ 125 :: rest)))
        (jsmn_stream_stack_push p1 JSMN_STREAM_KEY).2 hcs hok.2.1 hp2 ho2
        (by rw [hh2, hh1]; omega) (value_end_of_delimiter v (delimiter_head hw3 44 rfl _))
      have hp3 := ready_after_value hp2 ha3
      have hl3 : live_stack p3 = live_stack p := by
        rw [live_stack_after_value ha3, hl2, list_pop_if_key_append_key, hl1]
      obtain ⟨p4, hp4, hl4, hc4, hq4, hr4⟩ := feed_members (.cons k' v' ms') body' rest p3 hbody'
        hok.2.2 hp3 (by rw [hl3]; exact htop)
        (by have := congrArg List.length hl3
            rw [live_stack_length, live_stack_length] at this
            rw [this]; omega)
      obtain ⟨ha1, ha2, ha3'⟩ := feed_whitespace w1
        (58 :: (w2 ++ (cs ++ (w3 ++ 44 :: (w4 ++ (body' ++ 125 :: rest)))))) p1 hp1.1 hw1
      obtain ⟨hb1, hb2, hb3⟩ := feed_whitespace w2
        (cs ++ (w3 ++ 44 :: (w4 ++ (body' ++ 125 :: rest)))) _ hp2.1 hw2
      obtain ⟨hd1, hd2, hd3⟩ := feed_whitespace w3 (44 :: (w4 ++ (body' ++ 125 :: rest))) p3
        hp3.1 hw3
      obtain ⟨he1, he2, he3⟩ := feed_comma (w4 ++ (body' ++ 125 :: rest)) p3 hp3.1
      obtain ⟨hf1, hf2, hf3⟩ := feed_whitespace w4 (body' ++ 125 :: rest) p3 hp3.1 hw4
      have e : (34 :: (k ++ 34 :: (w1 ++ 58 :: (w2 ++ (cs ++ (w3 ++ 44 :: (w4 ++ body')))))))
            ++ 125 :: rest
          = 34 :: (k ++ 34 :: (w1 ++ 58 :: (w2 ++ (cs ++ (w3 ++ 44 ::
              (w4 ++ (body' ++ 125 :: rest))))))) := by simp
      refine ⟨p4, hp4, hl4.trans hl3, ?_, ?_, ?_⟩
      · rw [e, (hkey _).1, hkind, ha1, feed_cons, hcolon]
        simp only
        rw [hb1, hc3, hd1, he1, hf1, hc4, htop2]
        simp [json_members.events]
      · rw [e, (hkey _).2.1, ha2, feed_cons, hcolon]
        simp only
        rw [hb2, hq3, hd2, he2, hf2, hq4]
      · rw [e]
        refine rets_within_trans (hkey _).2.2 (rets_within_trans ha3' ?_)
        rw [feed_cons, hcolon]
        exact rets_within_cons_zero (rets_within_trans hb3 (rets_within_trans hr3
          (rets_within_trans hd3 (rets_within_trans he3 (rets_within_trans hf3 hr4)))))
end

mutual
theorem nesting_matched_value : ∀ (v : json_value) (m : Bool) (rest : List callback_call)
    (expected : List jsmn_stream_token_t),
    nesting_matched (v.events m ++ rest) expected = nesting_matched rest expected
  | .primitive t, m, rest, expected => by simp [json_value.events, nesting_matched]
  | .string s, m, rest, expected => by
    cases m <;> simp [json_value.events, nesting_matched]
  | .array es, m, rest, expected => by
    simp only [json_value.events, List.cons_append, nesting_matched, List.append_eq,
      List.append_assoc]
    rw [nesting_matched_elements es]
    simp [nesting_matched]
  | .object ms, m, rest, expected => by
    simp only [json_value.events, List.cons_append, nesting_matched, List.append_eq,
      List.append_assoc]
    rw [nesting_matched_members ms]
    simp [nesting_matched]
theorem nesting_matched_elements : ∀ (es : json_elements) (rest : List callback_call)
    (expected : List jsmn_stream_token_t),
    nesting_matched (es.events ++ rest) expected = nesting_matched rest expected
  | .nil, rest, expected => by simp [json_elements.events]
  | .cons v es, rest, expected => by
    simp only [json_elements.events, List.append_assoc]
    rw [nesting_matched_value v, nesting_matched_elements es]
theorem nesting_matched_members : ∀ (ms : json_members) (rest : List callback_call)
    (expected : List jsmn_stream_token_t),
    nesting_matched (ms.events ++ rest) expected = nesting_matched rest expected
  | .nil, rest, expected => by simp [json_members.events]
  | .cons k v ms, rest, expected => by
    simp only [json_members.events, List.cons_append, nesting_matched, List.append_eq,
      List.append_assoc]
    rw [nesting_matched_value v, nesting_matched_members ms]
end

theorem whitespace_nil : whitespace [] := fun _ h => absurd h (List.not_mem_nil _)

theorem primitive_text_digit (c : Nat) (hc : is_primitive_start c = true) :
    primitive_text [c] :=
  ⟨⟨c, [], rfl, hc⟩,
   fun x hx => by
     rw [List.mem_singleton] at hx; subst hx; exact is_primitive_char_of_start hc,
   by simp⟩

theorem string_text_letter (c : Nat) (h1 : c ≠ 34) (h2 : c ≠ 92) : string_text [c] :=
  ⟨string_content.plain c [] h1 h2 string_content.nil, by simp⟩

theorem whitespace_space : whitespace [32] :=
  fun x hx => by rw [List.mem_singleton] at hx; subst hx; rfl

/-- The hexadecimal loop at a byte that is neither NUL nor a digit. -/
theorem unicode_loop_bad (js : Nat → Nat) (len : Nat) (n : Nat) :
    ∀ k pos, k < n → (∀ i, i < k → is_hex (js (pos + i)) = true) → pos + k < len →
      js (pos + k) ≠ 0 → is_hex (js (pos + k)) = false → unicode_loop js len n pos = none := by
  induction n with
  | zero => intro k pos hk; omega
  | succ n ih =>
    intro k pos hk hall hle h0 hbad
    rw [unicode_loop]
    cases k with
    | zero =>
      rw [Nat.add_zero] at h0 hbad hle
      rw [if_pos ⟨hle, h0⟩, hbad]
      rfl
    | succ k =>
      have hh : is_hex (js pos) = true := hall 0 (by omega)
      rw [if_pos ⟨by omega, is_hex_ne_zero hh⟩, if_pos hh]
      apply ih k (pos + 1) (by omega)
        (fun i hi => by have := hall (i + 1) (by omega); rwa [show pos + 1 + i = pos + (i + 1) by omega])
        (by omega)
      · rwa [show pos + 1 + k = pos + (k + 1) by omega]
      · rwa [show pos + 1 + k = pos + (k + 1) by omega]

/-- The hexadecimal loop at a NUL byte: the loop is left without an error. -/
theorem unicode_loop_nul (js : Nat → Nat) (len : Nat) (n : Nat) :
    ∀ k pos, k < n → (∀ i, i < k → is_hex (js (pos + i)) = true) → pos + k < len →
      js (pos + k) = 0 → unicode_loop js len n pos = some (pos + k) := by
  induction n with
  | zero => intro k pos hk; omega
  | succ n ih =>
    intro k pos hk hall hle h0
    rw [unicode_loop]
    cases k with
    | zero =>
      rw [Nat.add_zero] at h0
      rw [if_neg (by rw [h0]; simp)]
      rfl
    | succ k =>
      have hh : is_hex (js pos) = true := hall 0 (by omega)
      rw [if_pos ⟨by omega, is_hex_ne_zero hh⟩, if_pos hh]
      rw [ih k (pos + 1) (by omega)
        (fun i hi => by have := hall (i + 1) (by omega); rwa [show pos + 1 + i = pos + (i + 1) by omega])
        (by omega) (by rwa [show pos + 1 + k = pos + (k + 1) by omega])]
      congr 1; omega

theorem getElem?_hex_run {hx : List Nat} {c : Nat} {js : Nat → Nat} {pos : Nat}
    (h : ∀ i, i < (hx ++ [c]).length → (hx ++ [c])[i]? = some (js (pos + i)))
    (hxh : ∀ h ∈ hx, is_hex h = true) :
    (∀ i, i < hx.length → is_hex (js (pos + i)) = true) ∧ js (pos + hx.length) = c := by
  constructor
  · intro i hi
    have := h i (by rw [List.length_append]; omega)
    rw [List.getElem?_append_left hi] at this
    obtain ⟨hlt, heq⟩ := List.getElem?_eq_some_iff.mp this
    rw [← heq]; exact hxh _ (List.getElem_mem _)
  · have := h hx.length (by rw [List.length_append]; simp)
    rw [List.getElem?_append_right (le_refl _)] at this
    simpa using this.symm

/-- The scan of a buffer that ends in `\` and a character that starts no
escape. -/
theorem string_loop_bad_escape (js : Nat → Nat) (n : Nat) (s : List Nat) (c : Nat)
    (ht : payload js n = s ++ [92, c]) (hs : string_content s)
    (h1 : is_simple_escape c = false) (h2 : c ≠ 117) :
    string_loop js n n 0 = scan_exit.inval := by
  have hlen : s.length + 2 = n := by
    have := congrArg List.length ht
    rw [payload_length, List.length_append] at this
    simp at this; omega
  obtain ⟨hsi, hri⟩ := getElem?_append_split js (by rw [← ht]; exact getElem?_of_eq_payload rfl)
  have h := string_loop_content js n hs 0 hsi (by omega)
  rw [Nat.sub_zero, Nat.zero_add] at h
  obtain ⟨h0, htl⟩ := getElem?_cons_tail hri
  obtain ⟨hc, _⟩ := getElem?_cons_tail htl
  rw [h, string_loop_unfold js n s.length (by omega)]
  rw [if_neg (by rw [h0]; decide), if_pos ⟨h0, by omega⟩, hc, h1]
  simp [h2]

/-- The scan of a buffer that ends in `\u`, fewer than four hexadecimal digits
and a byte that is no hexadecimal digit: an error, unless the byte is NUL. -/
theorem string_loop_after_unicode (js : Nat → Nat) (n : Nat) (s hx : List Nat) (c : Nat)
    (ht : payload js n = s ++ 92 :: 117 :: (hx ++ [c])) (hs : string_content s)
    (hxl : hx.length < 4) (hxh : ∀ h ∈ hx, is_hex h = true) (hc : is_hex c = false) :
    string_loop js n n 0 = if c = 0 then scan_exit.part else scan_exit.inval := by
  have hlen : s.length + (hx.length + 3) = n := by
    have := congrArg List.length ht
    rw [payload_length, List.length_append] at this
    simp at this; omega
  obtain ⟨hsi, hri⟩ := getElem?_append_split js (by rw [← ht]; exact getElem?_of_eq_payload rfl)
  have h := string_loop_content js n hs 0 hsi (by omega)
  rw [Nat.sub_zero, Nat.zero_add] at h
  obtain ⟨h0, htl⟩ := getElem?_cons_tail hri
  obtain ⟨h1, htl2⟩ := getElem?_cons_tail htl
  obtain ⟨hhex, hlast⟩ := getElem?_hex_run htl2 hxh
  rw [h, string_loop_unfold js n s.length (by omega)]
  rw [if_neg (by rw [h0]; decide), if_pos ⟨h0, by omega⟩, h1]
  rw [if_neg (by decide), if_pos rfl]
  by_cases hz : c = 0
  · rw [if_pos hz]
    have hul : unicode_loop js n 4 (s.length + 2) = some (s.length + 2 + hx.length) := by
      apply unicode_loop_nul js n 4 hx.length (s.length + 2) hxl _ (by omega)
      · rw [show s.length + 2 + hx.length = s.length + 1 + 1 + hx.length by omega, hlast, hz]
      · intro i hi
        rw [show s.length + 2 + i = s.length + 1 + 1 + i by omega]; exact hhex i hi
    rw [hul]
    simp only
    have hz' : js (s.length + 2 + hx.length) = 0 := by
      rw [show s.length + 2 + hx.length = s.length + 1 + 1 + hx.length by omega, hlast, hz]
    rw [string_loop_unfold js n _ (by omega), hz']
    rw [if_neg (by decide), if_neg (by simp)]
    exact string_loop_end js n _ _ (by omega)
  · rw [if_neg hz]
    have hul : unicode_loop js n 4 (s.length + 2) = none := by
      apply unicode_loop_bad js n 4 hx.length (s.length + 2) hxl _ (by omega)
      · rw [show s.length + 2 + hx.length = s.length + 1 + 1 + hx.length by omega, hlast]
        exact hz
      · rw [show s.length + 2 + hx.length = s.length + 1 + 1 + hx.length by omega, hlast]
        exact hc
      · intro i hi
        rw [show s.length + 2 + i = s.length + 1 + 1 + i by omega]; exact hhex i hi
    rw [hul]

/-- The callback made by `jsmn_stream_parse_string` when it returns `0`. -/
theorem parse_string_zero_calls {p : jsmn_stream_parser_t} {c : Nat}
    (h : (jsmn_stream_parse_string p c).ret = 0) :
    (jsmn_stream_parse_string p c).calls =
      JSMN_STREAM_CALLBACK p
        (if jsmn_stream_stack_top p = JSMN_STREAM_KEY
         then JSMN_STREAM_TOKEN_STRING else JSMN_STREAM_TOKEN_KEY)
        (some (live_buffer p)) p.buffer_size := by
  unfold jsmn_stream_parse_string at h ⊢
  by_cases h1 : p.buffer_size = JSMN_STREAM_BUFFER_SIZE - 1
  · rw [if_pos h1] at h; simp [JSMN_STREAM_ERROR_NOMEM] at h
  · rw [if_neg h1] at h ⊢
    simp only at h ⊢
    cases hl : string_loop (Function.update p.buffer p.buffer_size c) (p.buffer_size + 1)
        (p.buffer_size + 1) 0 <;> simp only [hl] at h ⊢
    · simp only [Nat.add_sub_cancel]
      unfold JSMN_STREAM_CALLBACK live_buffer
      rw [payload_update _ _ _ _ (le_refl _), payload_update _ _ _ _ (le_refl _)]
      rfl
    · exact absurd h (by decide)
    · exact absurd h (by decide)

/-- The callback made by `jsmn_stream_parse_primitive` when it returns `0`. -/
theorem parse_primitive_zero_calls {p : jsmn_stream_parser_t} {c : Nat}
    (h : (jsmn_stream_parse_primitive p c).ret = 0) :
    (jsmn_stream_parse_primitive p c).calls =
      JSMN_STREAM_CALLBACK p JSMN_STREAM_TOKEN_PRIMITIVE (some (live_buffer p)) p.buffer_size := by
  unfold jsmn_stream_parse_primitive at h ⊢
  by_cases h1 : p.buffer_size = JSMN_STREAM_BUFFER_SIZE - 1
  · rw [if_pos h1] at h; simp [JSMN_STREAM_ERROR_NOMEM] at h
  · rw [if_neg h1] at h ⊢
    simp only at h ⊢
    cases hl : primitive_loop (Function.update p.buffer p.buffer_size c) (p.buffer_size + 1)
        (p.buffer_size + 1) 0 <;> simp only [hl] at h ⊢
    · simp only [Nat.add_sub_cancel]
      unfold JSMN_STREAM_CALLBACK live_buffer
      rw [payload_update _ _ _ _ (le_refl _), payload_update _ _ _ _ (le_refl _)]
    · exact absurd h (by decide)
    · exact absurd h (by decide)

/-- In string mode the dispatcher returns `0` only when the accumulator does. -/
theorem parse_in_string_zero {p : jsmn_stream_parser_t} {c : Nat}
    (hs : p.state = JSMN_STREAM_PARSING_STRING) (h : (jsmn_stream_parse p c).ret = 0) :
    (jsmn_stream_parse_string p c).ret = 0 := by
  rw [parse_in_string c hs] at h
  by_cases hneg : (jsmn_stream_parse_string p c).ret < 0
  · rw [if_pos hneg] at h; omega
  · rcases parse_string_ret p c with h1 | h1 | h1 | h1 <;>
      simp only [h1, JSMN_STREAM_ERROR_NOMEM, JSMN_STREAM_ERROR_INVAL,
        JSMN_STREAM_ERROR_PART] at hneg ⊢ <;> omega

theorem primitive_loop_congr {js js' : Nat → Nat} {len : Nat}
    (h : ∀ i, i < len → js i = js' i) :
    ∀ fuel pos, primitive_loop js len fuel pos = primitive_loop js' len fuel pos := by
  intro fuel
  induction fuel with
  | zero => intro pos; rfl
  | succ n ih =>
    intro pos
    unfold primitive_loop
    by_cases hp : pos < len
    · rw [← h pos hp, ih (pos + 1)]
    · rw [if_neg (fun hh => hp hh.1), if_neg (fun hh => hp hh.1)]

theorem unicode_loop_congr {js js' : Nat → Nat} {len : Nat}
    (h : ∀ i, i < len → js i = js' i) :
    ∀ n pos, unicode_loop js len n pos = unicode_loop js' len n pos := by
  intro n
  induction n with
  | zero => intro pos; rfl
  | succ n ih =>
    intro pos
    unfold unicode_loop
    by_cases hp : pos < len
    · rw [← h pos hp, ih (pos + 1)]
    · rw [if_neg (fun hh => hp hh.1), if_neg (fun hh => hp hh.1)]

theorem string_loop_congr {js js' : Nat → Nat} {len : Nat}
    (h : ∀ i, i < len → js i = js' i) :
    ∀ fuel pos, string_loop js len fuel pos = string_loop js' len fuel pos := by
  intro fuel
  induction fuel with
  | zero => intro pos; rfl
  | succ n ih =>
    intro pos
    unfold string_loop
    by_cases hp : pos < len
    · rw [if_pos hp, if_pos hp, ← h pos hp]
      by_cases hq : js pos = 34
      · rw [if_pos hq, if_pos hq]
      rw [if_neg hq, if_neg hq]
      by_cases he : js pos = 92 ∧ pos + 1 < len
      · rw [if_pos he, if_pos he, ← h (pos + 1) he.2, ih, unicode_loop_congr h]
        simp only [ih]
      · rw [if_neg he, if_neg he, ih]
    · rw [if_neg hp, if_neg hp]

theorem same_live_refl (p : jsmn_stream_parser_t) : same_live p p :=
  ⟨rfl, rfl, rfl, fun _ _ => rfl, fun _ _ => rfl⟩

theorem same_live_symm {p q : jsmn_stream_parser_t} (h : same_live p q) : same_live q p :=
  ⟨h.1.symm, h.2.1.symm, h.2.2.1.symm,
    fun i hi => (h.2.2.2.1 i (by rw [h.2.1]; exact hi)).symm,
    fun i hi => (h.2.2.2.2 i (by rw [h.2.2.1]; exact hi)).symm⟩

theorem same_live_top {p q : jsmn_stream_parser_t} (h : same_live p q) :
    jsmn_stream_stack_top p = jsmn_stream_stack_top q := by
  obtain ⟨_, h2, _, h4, _⟩ := h
  unfold jsmn_stream_stack_top
  rw [← h2]
  by_cases hz : p.stack_height = 0
  · rw [if_pos hz, if_pos hz]
  · rw [if_neg hz, if_neg hz]
    exact h4 _ (by omega)

theorem same_live_push {p q : jsmn_stream_parser_t} (h : same_live p q) (t : jsmn_streamtype_t) :
    (jsmn_stream_stack_push p t).1 = (jsmn_stream_stack_push q t).1 ∧
    same_live (jsmn_stream_stack_push p t).2 (jsmn_stream_stack_push q t).2 := by
  obtain ⟨h1, h2, h3, h4, h5⟩ := h
  unfold jsmn_stream_stack_push
  rw [← h2]
  by_cases hf : p.stack_height ≥ JSMN_STREAM_MAX_DEPTH
  · rw [if_pos hf, if_pos hf]
    exact ⟨rfl, h1, h2, h3, h4, h5⟩
  · rw [if_neg hf, if_neg hf]
    refine ⟨rfl, h1, by simp only [h2], h3, ?_, h5⟩
    intro i hi
    simp only at hi ⊢
    by_cases hi2 : i = p.stack_height
    · rw [hi2, Function.update_same, Function.update_same]
    · rw [Function.update_noteq hi2, Function.update_noteq hi2]
      exact h4 i (by omega)

theorem same_live_pop {p q : jsmn_stream_parser_t} (h : same_live p q) :
    same_live (jsmn_stream_stack_pop p) (jsmn_stream_stack_pop q) := by
  obtain ⟨h1, h2, h3, h4, h5⟩ := h
  unfold jsmn_stream_stack_pop
  rw [← h2]
  by_cases hf : p.stack_height > 0
  · rw [if_pos hf, if_pos hf]
    exact ⟨h1, by simp only [h2], h3, fun i hi => h4 i (by simp only at hi; omega), h5⟩
  · rw [if_neg hf, if_neg hf]
    exact ⟨h1, h2, h3, h4, h5⟩

theorem same_live_pop_if_key {p q : jsmn_stream_parser_t} (h : same_live p q) :
    same_live (pop_if_key p) (pop_if_key q) := by
  unfold pop_if_key
  rw [← same_live_top h]
  by_cases hk : jsmn_stream_stack_top p = JSMN_STREAM_KEY
  · rw [if_pos hk, if_pos hk]; exact same_live_pop h
  · rw [if_neg hk, if_neg hk]; exact h

theorem same_live_state {p q : jsmn_stream_parser_t} (h : same_live p q)
    (s : jsmn_streamstate_t) :
    same_live { p with state := s } { q with state := s } :=
  ⟨rfl, h.2.1, h.2.2.1, h.2.2.2.1, h.2.2.2.2⟩

theorem same_live_payload {p q : jsmn_stream_parser_t} (h : same_live p q) :
    live_buffer p = live_buffer q := by
  unfold live_buffer payload
  rw [← h.2.2.1]
  apply List.map_congr_left
  intro i hi
  exact h.2.2.2.2 i (List.mem_range.mp hi)

theorem same_live_stack {p q : jsmn_stream_parser_t} (h : same_live p q) :
    live_stack p = live_stack q := by
  unfold live_stack
  rw [← h.2.1]
  apply List.map_congr_left
  intro i hi
  exact h.2.2.2.1 i (List.mem_range.mp hi)

theorem same_live_append {p q : jsmn_stream_parser_t} (h : same_live p q) (c : Nat) :
    ∀ i, i < p.buffer_size + 1 →
      Function.update p.buffer p.buffer_size c i = Function.update q.buffer p.buffer_size c i := by
  intro i hi
  by_cases hi2 : i = p.buffer_size
  · rw [hi2, Function.update_same, Function.update_same]
  · rw [Function.update_noteq hi2, Function.update_noteq hi2]
    exact h.2.2.2.2 i (by omega)

theorem same_live_payload_done {p q : jsmn_stream_parser_t} (h : same_live p q) (c : Nat) :
    payload (Function.update (Function.update p.buffer p.buffer_size c) p.buffer_size 0)
        p.buffer_size =
      payload (Function.update (Function.update q.buffer p.buffer_size c) p.buffer_size 0)
        p.buffer_size := by
  rw [payload_update _ _ _ _ (le_refl _), payload_update _ _ _ _ (le_refl _),
    payload_update _ _ _ _ (le_refl _), payload_update _ _ _ _ (le_refl _)]
  have := same_live_payload h
  unfold live_buffer at this
  rw [← h.2.2.1] at this
  exact this

/-- The primitive accumulator reads nothing but the live cells. -/
theorem parse_primitive_same {p q : jsmn_stream_parser_t} (h : same_live p q) (c : Nat) :
    (jsmn_stream_parse_primitive p c).ret = (jsmn_stream_parse_primitive q c).ret ∧
    same_live (jsmn_stream_parse_primitive p c).parser (jsmn_stream_parse_primitive q c).parser ∧
    (p.callback = q.callback →
      (jsmn_stream_parse_primitive p c).calls = (jsmn_stream_parse_primitive q c).calls) := by
  have hb := same_live_append h c
  have hpay := same_live_payload_done h c
  obtain ⟨h1, h2, h3, h4, h5⟩ := h
  unfold jsmn_stream_parse_primitive
  rw [← h3]
  by_cases hf : p.buffer_size = JSMN_STREAM_BUFFER_SIZE - 1
  · rw [if_pos hf, if_pos hf]; exact ⟨rfl, ⟨h1, h2, h3, h4, h5⟩, fun _ => rfl⟩
  · rw [if_neg hf, if_neg hf]
    simp only
    rw [← primitive_loop_congr hb]
    cases primitive_loop (Function.update p.buffer p.buffer_size c) (p.buffer_size + 1)
        (p.buffer_size + 1) 0
    · refine ⟨rfl, ⟨rfl, h2, rfl, h4, fun i hi => absurd hi (Nat.not_lt_zero _)⟩, ?_⟩
      intro hcb
      unfold JSMN_STREAM_CALLBACK
      simp only [hcb, Nat.add_sub_cancel, hpay]
    · exact ⟨rfl, ⟨h1, h2, rfl, h4, hb⟩, fun _ => rfl⟩
    · exact ⟨rfl, ⟨h1, h2, rfl, h4, hb⟩, fun _ => rfl⟩

/-- The string accumulator reads nothing but the live cells. -/
theorem parse_string_same {p q : jsmn_stream_parser_t} (h : same_live p q) (c : Nat) :
    (jsmn_stream_parse_string p c).ret = (jsmn_stream_parse_string q c).ret ∧
    same_live (jsmn_stream_parse_string p c).parser (jsmn_stream_parse_string q c).parser ∧
    (p.callback = q.callback →
      (jsmn_stream_parse_string p c).calls = (jsmn_stream_parse_string q c).calls) := by
  have hb := same_live_append h c
  have hpay := same_live_payload_done h c
  have htop := same_live_top h
  obtain ⟨h1, h2, h3, h4, h5⟩ := h
  unfold jsmn_stream_parse_string
  rw [← h3]
  by_cases hf : p.buffer_size = JSMN_STREAM_BUFFER_SIZE - 1
  · rw [if_pos hf, if_pos hf]; exact ⟨rfl, ⟨h1, h2, h3, h4, h5⟩, fun _ => rfl⟩
  · rw [if_neg hf, if_neg hf]
    simp only
    rw [← string_loop_congr hb]
    cases string_loop (Function.update p.buffer p.buffer_size c) (p.buffer_size + 1)
        (p.buffer_size + 1) 0
    · refine ⟨rfl, ⟨rfl, h2, rfl, h4, fun i hi => absurd hi (Nat.not_lt_zero _)⟩, ?_⟩
      intro hcb
      unfold jsmn_stream_stack_top at htop ⊢
      unfold JSMN_STREAM_CALLBACK
      simp only [hcb, Nat.add_sub_cancel, hpay, htop]
    · exact ⟨rfl, ⟨h1, h2, rfl, h4, hb⟩, fun _ => rfl⟩
    · exact ⟨rfl, ⟨h1, h2, rfl, h4, hb⟩, fun _ => rfl⟩

theorem callback_null_congr {p q : jsmn_stream_parser_t} (h : p.callback = q.callback)
    (t : jsmn_stream_token_t) :
    JSMN_STREAM_CALLBACK_NULL p t = JSMN_STREAM_CALLBACK_NULL q t := by
  unfold JSMN_STREAM_CALLBACK_NULL; rw [h]

theorem parse_primitive_callback (p : jsmn_stream_parser_t) (c : Nat) :
    (jsmn_stream_parse_primitive p c).parser.callback = p.callback := by
  unfold jsmn_stream_parse_primitive
  split_ifs
  · rfl
  · simp only
    split <;> rfl

/-- The dispatcher reads nothing but the live cells: on two parsers that agree
there it needs the same number of activations, returns the same value, leaves
parsers that agree there again, and makes the same callbacks if both have a
callback or both have none. -/
theorem parse_fuel_same (n : Nat) : ∀ (p q : jsmn_stream_parser_t) (c : Nat), same_live p q →
    (jsmn_stream_parse_fuel n p c = none ∧ jsmn_stream_parse_fuel n q c = none) ∨
    ∃ r r', jsmn_stream_parse_fuel n p c = some r ∧ jsmn_stream_parse_fuel n q c = some r' ∧
      r.ret = r'.ret ∧ same_live r.parser r'.parser ∧
      (p.callback = q.callback → r.calls = r'.calls) := by
  induction n with
  | zero => intro p q c _; left; exact ⟨rfl, rfl⟩
  | succ n ih =>
    intro p q c h
    have htop := same_live_top h
    have hst := h.1
    simp only [jsmn_stream_parse_fuel]
    rw [← hst]
    cases hs : p.state with
    | JSMN_STREAM_PARSING =>
      simp only
      rw [← htop]
      by_cases h1 : c = 123 ∨ c = 91
      · rw [if_pos h1, if_pos h1]
        have hp := same_live_push h (if c = 123 then JSMN_STREAM_OBJECT else JSMN_STREAM_ARRAY)
        rw [← hp.1]
        right
        by_cases hb : (!(jsmn_stream_stack_push p
            (if c = 123 then JSMN_STREAM_OBJECT else JSMN_STREAM_ARRAY)).1) = true
        · rw [if_pos hb, if_pos hb]
          refine ⟨_, _, rfl, rfl, rfl, hp.2, fun hcb => ?_⟩
          simp only [callback_null_congr hcb]
        · rw [if_neg hb, if_neg hb]
          refine ⟨_, _, rfl, rfl, rfl, hp.2, fun hcb => ?_⟩
          simp only [callback_null_congr hcb]
      rw [if_neg h1, if_neg h1]
      by_cases h2 : c = 125 ∨ c = 93
      · rw [if_pos h2, if_pos h2]
        right
        refine ⟨_, _, rfl, rfl, rfl, same_live_pop_if_key (same_live_pop h), fun hcb => ?_⟩
        simp only [callback_null_congr hcb]
      rw [if_neg h2, if_neg h2]
      by_cases h3 : c = 34
      · rw [if_pos h3, if_pos h3]
        right
        exact ⟨_, _, rfl, rfl, rfl, same_live_state h _, fun _ => rfl⟩
      rw [if_neg h3, if_neg h3]
      by_cases h4 : c = 9 ∨ c = 13 ∨ c = 10 ∨ c = 32 ∨ c = 44
      · rw [if_pos h4, if_pos h4]
        right
        exact ⟨_, _, rfl, rfl, rfl, h, fun _ => rfl⟩
      rw [if_neg h4, if_neg h4]
      by_cases h5 : c = 58
      · rw [if_pos h5, if_pos h5]
        right
        by_cases ho : jsmn_stream_stack_top p = JSMN_STREAM_OBJECT
        · rw [if_pos ho, if_pos ho]
          have hp := same_live_push h JSMN_STREAM_KEY
          rw [← hp.1]
          by_cases hb : (!(jsmn_stream_stack_push p JSMN_STREAM_KEY).1) = true
          · rw [if_pos hb, if_pos hb]
            exact ⟨_, _, rfl, rfl, rfl, hp.2, fun _ => rfl⟩
          · rw [if_neg hb, if_neg hb]
            exact ⟨_, _, rfl, rfl, rfl, hp.2, fun _ => rfl⟩
        · rw [if_neg ho, if_neg ho]
          exact ⟨_, _, rfl, rfl, rfl, h, fun _ => rfl⟩
      rw [if_neg h5, if_neg h5]
      by_cases h6 : is_primitive_start c = true
      · rw [if_pos h6, if_pos h6]
        by_cases ho : jsmn_stream_stack_top p = JSMN_STREAM_OBJECT
        · rw [if_pos ho, if_pos ho]
          right
          exact ⟨_, _, rfl, rfl, rfl, h, fun _ => rfl⟩
        · rw [if_neg ho, if_neg ho]
          rcases ih { p with state := JSMN_STREAM_PARSING_PRIMITIVE }
              { q with state := JSMN_STREAM_PARSING_PRIMITIVE } c (same_live_state h _) with
            ⟨e1, e2⟩ | ⟨r, r', e1, e2, _, e4, e5⟩
          · left; rw [e1, e2]; exact ⟨rfl, rfl⟩
          · right; rw [e1, e2]
            exact ⟨_, _, rfl, rfl, rfl, e4, e5⟩
      · rw [if_neg h6, if_neg h6]
        right
        exact ⟨_, _, rfl, rfl, rfl, h, fun _ => rfl⟩
    | JSMN_STREAM_PARSING_STRING =>
      simp only
      obtain ⟨s1, s2, s3⟩ := parse_string_same h c
      rw [← s1]
      right
      by_cases hneg : (jsmn_stream_parse_string p c).ret < 0
      · rw [if_pos hneg, if_pos hneg]
        exact ⟨_, _, rfl, rfl, s1, s2, s3⟩
      · rw [if_neg hneg, if_neg hneg]
        exact ⟨_, _, rfl, rfl, rfl, same_live_pop_if_key s2, s3⟩
    | JSMN_STREAM_PARSING_PRIMITIVE =>
      simp only
      obtain ⟨s1, s2, s3⟩ := parse_primitive_same h c
      rw [← s1]
      by_cases hneg : (jsmn_stream_parse_primitive p c).ret < 0
      · rw [if_pos hneg, if_pos hneg]
        right
        exact ⟨_, _, rfl, rfl, s1, s2, s3⟩
      rw [if_neg hneg, if_neg hneg]
      by_cases hz : (jsmn_stream_parse_primitive p c).ret = 0
      · rw [if_pos hz, if_pos hz]
        rcases ih _ _ c (same_live_pop_if_key s2) with ⟨e1, e2⟩ | ⟨r, r', e1, e2, e3, e4, e5⟩
        · left; rw [e1, e2]; exact ⟨rfl, rfl⟩
        · right; rw [e1, e2]
          refine ⟨_, _, rfl, rfl, e3, e4, fun hcb => ?_⟩
          have hcb2 : (pop_if_key (jsmn_stream_parse_primitive p c).parser).callback =
              (pop_if_key (jsmn_stream_parse_primitive q c).parser).callback := by
            rw [pop_if_key_callback, pop_if_key_callback, parse_primitive_callback,
              parse_primitive_callback, hcb]
          show _ ++ _ = _ ++ _
          rw [s3 hcb, e5 hcb2]
      · rw [if_neg hz, if_neg hz]
        right
        exact ⟨_, _, rfl, rfl, rfl, s2, s3⟩

/-- The dispatcher on two parsers that agree on the live cells. -/
theorem parse_same {p q : jsmn_stream_parser_t} (h : same_live p q) (c : Nat) :
    (jsmn_stream_parse p c).ret = (jsmn_stream_parse q c).ret ∧
    same_live (jsmn_stream_parse p c).parser (jsmn_stream_parse q c).parser ∧
    (p.callback = q.callback → (jsmn_stream_parse p c).calls = (jsmn_stream_parse q c).calls) := by
  rcases parse_fuel_same 4 p q c h with ⟨e1, _⟩ | ⟨r, r', e1, e2, e3⟩
  · rw [jsmn_stream_parse_fuel_enough 4 (le_refl _)] at e1
    exact absurd e1 (by simp)
  · rw [jsmn_stream_parse_fuel_enough 4 (le_refl _)] at e1 e2
    cases e1; cases e2
    exact e3

theorem stack_push_frame (p : jsmn_stream_parser_t) (t : jsmn_streamtype_t) :
    (jsmn_stream_stack_push p t).2.callback = p.callback ∧
    (jsmn_stream_stack_push p t).2.state = p.state ∧
    (jsmn_stream_stack_push p t).2.buffer = p.buffer ∧
    (jsmn_stream_stack_push p t).2.buffer_size = p.buffer_size ∧
    (∀ i, JSMN_STREAM_MAX_DEPTH ≤ i →
      (jsmn_stream_stack_push p t).2.type_stack i = p.type_stack i) ∧
    (p.stack_height ≤ JSMN_STREAM_MAX_DEPTH →
      (jsmn_stream_stack_push p t).2.stack_height ≤ JSMN_STREAM_MAX_DEPTH) := by
  unfold jsmn_stream_stack_push
  by_cases hf : p.stack_height ≥ JSMN_STREAM_MAX_DEPTH
  · rw [if_pos hf]; exact ⟨rfl, rfl, rfl, rfl, fun _ _ => rfl, fun h => h⟩
  · rw [if_neg hf]
    refine ⟨rfl, rfl, rfl, rfl, fun i hi => ?_, fun _ => ?_⟩
    · exact Function.update_noteq (by omega) _ _
    · show p.stack_height + 1 ≤ _
      omega

theorem parse_primitive_frame (p : jsmn_stream_parser_t) (c : Nat) :
    (jsmn_stream_parse_primitive p c).parser.type_stack = p.type_stack ∧
    (jsmn_stream_parse_primitive p c).parser.stack_height = p.stack_height ∧
    (p.buffer_size ≤ JSMN_STREAM_BUFFER_SIZE - 1 →
      (jsmn_stream_parse_primitive p c).parser.buffer_size ≤ JSMN_STREAM_BUFFER_SIZE - 1 ∧
      ∀ i, JSMN_STREAM_BUFFER_SIZE - 1 ≤ i →
        (jsmn_stream_parse_primitive p c).parser.buffer i = p.buffer i) := by
  unfold jsmn_stream_parse_primitive
  by_cases hf : p.buffer_size = JSMN_STREAM_BUFFER_SIZE - 1
  · rw [if_pos hf]; exact ⟨rfl, rfl, fun h => ⟨h, fun _ _ => rfl⟩⟩
  · rw [if_neg hf]
    simp only
    cases primitive_loop (Function.update p.buffer p.buffer_size c) (p.buffer_size + 1)
        (p.buffer_size + 1) 0
    · refine ⟨rfl, rfl, fun h => ⟨Nat.zero_le _, fun i hi => ?_⟩⟩
      show Function.update (Function.update p.buffer p.buffer_size c)
        (p.buffer_size + 1 - 1) 0 i = _
      rw [Nat.add_sub_cancel, Function.update_noteq (by omega), Function.update_noteq (by omega)]
    · refine ⟨rfl, rfl, fun h => ⟨?_, fun i hi => ?_⟩⟩
      · show p.buffer_size + 1 ≤ _
        omega
      · exact Function.update_noteq (by omega) _ _
    · refine ⟨rfl, rfl, fun h => ⟨?_, fun i hi => ?_⟩⟩
      · show p.buffer_size + 1 ≤ _
        omega
      · exact Function.update_noteq (by omega) _ _

theorem parse_string_callback (p : jsmn_stream_parser_t) (c : Nat) :
    (jsmn_stream_parse_string p c).parser.callback = p.callback := by
  unfold jsmn_stream_parse_string
  split_ifs
  · rfl
  · simp only
    split <;> rfl

theorem parse_string_frame (p : jsmn_stream_parser_t) (c : Nat) :
    (jsmn_stream_parse_string p c).parser.type_stack = p.type_stack ∧
    (jsmn_stream_parse_string p c).parser.stack_height = p.stack_height ∧
    (p.buffer_size ≤ JSMN_STREAM_BUFFER_SIZE - 1 →
      (jsmn_stream_parse_string p c).parser.buffer_size ≤ JSMN_STREAM_BUFFER_SIZE - 1 ∧
      ∀ i, JSMN_STREAM_BUFFER_SIZE - 1 ≤ i →
        (jsmn_stream_parse_string p c).parser.buffer i = p.buffer i) := by
  unfold jsmn_stream_parse_string
  by_cases hf : p.buffer_size = JSMN_STREAM_BUFFER_SIZE - 1
  · rw [if_pos hf]; exact ⟨rfl, rfl, fun h => ⟨h, fun _ _ => rfl⟩⟩
  · rw [if_neg hf]
    simp only
    cases string_loop (Function.update p.buffer p.buffer_size c) (p.buffer_size + 1)
        (p.buffer_size + 1) 0
    · refine ⟨rfl, rfl, fun h => ⟨Nat.zero_le _, fun i hi => ?_⟩⟩
      show Function.update (Function.update p.buffer p.buffer_size c)
        (p.buffer_size + 1 - 1) 0 i = _
      rw [Nat.add_sub_cancel, Function.update_noteq (by omega), Function.update_noteq (by omega)]
    · refine ⟨rfl, rfl, fun h => ⟨?_, fun i hi => ?_⟩⟩
      · show p.buffer_size + 1 ≤ _
        omega
      · exact Function.update_noteq (by omega) _ _
    · refine ⟨rfl, rfl, fun h => ⟨?_, fun i hi => ?_⟩⟩
      · show p.buffer_size + 1 ≤ _
        omega
      · exact Function.update_noteq (by omega) _ _

theorem keeps_frame_refl (p : jsmn_stream_parser_t) : keeps_frame p p :=
  ⟨rfl, fun _ _ => rfl, fun h => h, fun h => ⟨h, fun _ _ => rfl⟩⟩

theorem keeps_frame_trans {p q r : jsmn_stream_parser_t} (h1 : keeps_frame p q)
    (h2 : keeps_frame q r) : keeps_frame p r :=
  ⟨h2.1.trans h1.1, fun i hi => (h2.2.1 i hi).trans (h1.2.1 i hi),
    fun h => h2.2.2.1 (h1.2.2.1 h),
    fun h => ⟨(h2.2.2.2 (h1.2.2.2 h).1).1,
      fun i hi => ((h2.2.2.2 (h1.2.2.2 h).1).2 i hi).trans ((h1.2.2.2 h).2 i hi)⟩⟩

theorem keeps_frame_push (p : jsmn_stream_parser_t) (t : jsmn_streamtype_t) :
    keeps_frame p (jsmn_stream_stack_push p t).2 := by
  obtain ⟨h1, _, h3, h4, h5, h6⟩ := stack_push_frame p t
  exact ⟨h1, h5, h6, fun h => ⟨by rw [h4]; exact h, fun i _ => by rw [h3]⟩⟩

theorem keeps_frame_pop (p : jsmn_stream_parser_t) : keeps_frame p (jsmn_stream_stack_pop p) :=
  ⟨stack_pop_callback p, fun i _ => by rw [stack_pop_type_stack],
    fun h => by rw [stack_pop_height]; omega,
    fun h => ⟨by rw [stack_pop_buffer_size]; exact h, fun i _ => by rw [stack_pop_buffer]⟩⟩

theorem keeps_frame_pop_if_key (p : jsmn_stream_parser_t) : keeps_frame p (pop_if_key p) := by
  unfold pop_if_key
  split_ifs
  · exact keeps_frame_pop p
  · exact keeps_frame_refl p

theorem keeps_frame_state (p : jsmn_stream_parser_t) (s : jsmn_streamstate_t) :
    keeps_frame p { p with state := s } :=
  ⟨rfl, fun _ _ => rfl, fun h => h, fun h => ⟨h, fun _ _ => rfl⟩⟩

theorem keeps_frame_primitive (p : jsmn_stream_parser_t) (c : Nat) :
    keeps_frame p (jsmn_stream_parse_primitive p c).parser := by
  obtain ⟨h1, h2, h3⟩ := parse_primitive_frame p c
  exact ⟨parse_primitive_callback p c, fun i _ => by rw [h1], fun h => by rw [h2]; exact h, h3⟩

theorem keeps_frame_string (p : jsmn_stream_parser_t) (c : Nat) :
    keeps_frame p (jsmn_stream_parse_string p c).parser := by
  obtain ⟨h1, h2, h3⟩ := parse_string_frame p c
  exact ⟨parse_string_callback p c, fun i _ => by rw [h1], fun h => by rw [h2]; exact h, h3⟩

theorem parse_fuel_frame (n : Nat) : ∀ (p : jsmn_stream_parser_t) (c : Nat) (r : step_result),
    jsmn_stream_parse_fuel n p c = some r → keeps_frame p r.parser := by
  induction n with
  | zero => intro p c r h; exact absurd h (by simp [jsmn_stream_parse_fuel])
  | succ n ih =>
    intro p c r h
    rw [jsmn_stream_parse_fuel] at h
    cases hs : p.state with
    | JSMN_STREAM_PARSING =>
      simp only [hs] at h
      split_ifs at h
      all_goals first
        | (cases h; first
            | exact keeps_frame_push p _
            | exact keeps_frame_refl p
            | exact keeps_frame_state p _
            | exact keeps_frame_trans (keeps_frame_pop p) (keeps_frame_pop_if_key _))
        | skip
      cases h2 : jsmn_stream_parse_fuel n { p with state := JSMN_STREAM_PARSING_PRIMITIVE } c with
      | none => rw [h2] at h; exact absurd h (by simp)
      | some r2 =>
        rw [h2] at h
        cases h
        exact keeps_frame_trans (keeps_frame_state p _) (ih _ _ r2 h2)
    | JSMN_STREAM_PARSING_STRING =>
      simp only [hs] at h
      split_ifs at h
      · cases h; exact keeps_frame_string p c
      · cases h
        exact keeps_frame_trans (keeps_frame_string p c) (keeps_frame_pop_if_key _)
    | JSMN_STREAM_PARSING_PRIMITIVE =>
      simp only [hs] at h
      split_ifs at h
      · cases h; exact keeps_frame_primitive p c
      · cases h2 : jsmn_stream_parse_fuel n
            (pop_if_key (jsmn_stream_parse_primitive p c).parser) c with
        | none => rw [h2] at h; exact absurd h (by simp)
        | some r2 =>
          rw [h2] at h
          cases h
          exact keeps_frame_trans (keeps_frame_primitive p c)
            (keeps_frame_trans (keeps_frame_pop_if_key _) (ih _ _ r2 h2))
      · cases h; exact keeps_frame_primitive p c

/-- Every call keeps the frame. -/
theorem parse_frame (p : jsmn_stream_parser_t) (c : Nat) :
    keeps_frame p (jsmn_stream_parse p c).parser :=
  parse_fuel_frame 4 p c _ (jsmn_stream_parse_fuel_enough 4 (le_refl _) p c)

theorem feed_frame (cs : List Nat) : ∀ p : jsmn_stream_parser_t,
    keeps_frame p (feed p cs).parser := by
  induction cs with
  | nil => intro p; exact keeps_frame_refl p
  | cons c cs ih =>
    intro p
    rw [feed_cons]
    exact keeps_frame_trans (parse_frame p c) (ih _)

theorem feed_same (cs : List Nat) : ∀ {p q : jsmn_stream_parser_t}, same_live p q →
    (feed p cs).rets = (feed q cs).rets ∧ same_live (feed p cs).parser (feed q cs).parser ∧
    (p.callback = q.callback → (feed p cs).calls = (feed q cs).calls) := by
  induction cs with
  | nil => intro p q h; exact ⟨rfl, h, fun _ => rfl⟩
  | cons c cs ih =>
    intro p q h
    obtain ⟨s1, s2, s3⟩ := parse_same h c
    obtain ⟨t1, t2, t3⟩ := ih s2
    rw [feed_cons, feed_cons]
    refine ⟨by simp only [s1, t1], t2, fun hcb => ?_⟩
    have hcb2 : (jsmn_stream_parse p c).parser.callback =
        (jsmn_stream_parse q c).parser.callback := by
      rw [(parse_frame p c).1, (parse_frame q c).1, hcb]
    simp only [s3 hcb, t3 hcb2]

theorem reachable_within_bounds {p : jsmn_stream_parser_t} (hr : reachable p) :
    within_bounds p := by
  obtain ⟨p0, cb, cs, rfl⟩ := hr
  have h := feed_frame cs (jsmn_stream_init p0 cb)
  exact ⟨h.2.2.1 (Nat.zero_le _), (h.2.2.2 (Nat.zero_le _)).1⟩

theorem clean_or_first_dirty (js : Nat → Nat) (n : Nat) :
    (∀ i, i < n → is_primitive_char (js i) = true) ∨ ∃ k, first_dirty js n k := by
  induction n with
  | zero => left; intro i hi; exact absurd hi (Nat.not_lt_zero _)
  | succ n ih =>
    rcases ih with h | ⟨k, h1, h2, h3⟩
    · by_cases hn : is_primitive_char (js n) = true
      · left
        intro i hi
        by_cases hin : i = n
        · rw [hin]; exact hn
        · exact h i (by omega)
      · right
        exact ⟨n, by omega, by simpa using hn, h⟩
    · right
      exact ⟨k, by omega, h2, h3⟩

/-- The scan of a buffer that holds a byte other than a primitive character:
the first such byte decides. -/
theorem primitive_loop_first_dirty {js : Nat → Nat} {n k : Nat} (h : first_dirty js n k) :
    primitive_loop js n n 0 =
      if js k = 0 then scan_exit.part
      else if is_delimiter (js k) then scan_exit.found
      else scan_exit.inval := by
  obtain ⟨h1, h2, h3⟩ := h
  have hs := primitive_loop_skip js n k (n - k) 0 (fun i _ hi => h3 i (by omega)) (by omega)
  have e1 : n - k + k = n := by omega
  rw [e1, Nat.zero_add] at hs
  rw [hs]
  obtain ⟨m, hm⟩ : ∃ m, n - k = m + 1 := ⟨n - k - 1, by omega⟩
  rw [hm, primitive_loop]
  by_cases h0 : js k = 0
  · rw [if_neg (fun hh => hh.2 h0), if_pos h0]
  · rw [if_pos ⟨h1, h0⟩, if_neg h0]
    by_cases hd : is_delimiter (js k) = true
    · rw [if_pos hd, if_pos hd]
    · rw [if_neg hd, if_neg hd]
      have hr : js k < 32 ∨ js k ≥ 127 := by
        by_contra hc
        have hd2 : is_delimiter (js k) = false := by simpa using hd
        have hpc : is_primitive_char (js k) = true := by
          simp only [is_primitive_char, hd2]
          simp
          omega
        rw [hpc] at h2
        exact absurd h2 (by decide)
      rw [if_pos hr]

theorem first_dirty_update {js : Nat → Nat} {n k : Nat} (h : first_dirty js n k) (c : Nat) :
    first_dirty (Function.update js n c) (n + 1) k := by
  obtain ⟨h1, h2, h3⟩ := h
  refine ⟨by omega, ?_, fun i hi => ?_⟩
  · rw [Function.update_noteq (by omega)]; exact h2
  · rw [Function.update_noteq (by omega)]; exact h3 i hi

theorem is_delimiter_zero : is_delimiter 0 = false := by decide

/-- After a call of the primitive accumulator that did not return `0`, the
first byte of the buffer that is not a primitive character is no delimiter. -/
theorem parse_primitive_keeps_pending {p : jsmn_stream_parser_t} {c : Nat}
    (hp : ∀ k, first_dirty p.buffer p.buffer_size k → is_delimiter (p.buffer k) = false)
    (hret : (jsmn_stream_parse_primitive p c).ret ≠ 0) :
    ∀ k, first_dirty (jsmn_stream_parse_primitive p c).parser.buffer
        (jsmn_stream_parse_primitive p c).parser.buffer_size k →
      is_delimiter ((jsmn_stream_parse_primitive p c).parser.buffer k) = false := by
  unfold jsmn_stream_parse_primitive at hret ⊢
  by_cases hf : p.buffer_size = JSMN_STREAM_BUFFER_SIZE - 1
  · rw [if_pos hf]; exact hp
  · rw [if_neg hf] at hret ⊢
    simp only at hret ⊢
    intro k
    cases hl : primitive_loop (Function.update p.buffer p.buffer_size c) (p.buffer_size + 1)
        (p.buffer_size + 1) 0 <;> simp only [hl] at hret ⊢
    · exact absurd rfl hret
    all_goals
      intro hk
      rw [primitive_loop_first_dirty hk] at hl
      by_cases h0 : Function.update p.buffer p.buffer_size c k = 0
      · rw [h0]; exact is_delimiter_zero
      · rw [if_neg h0] at hl
        by_cases hd : is_delimiter (Function.update p.buffer p.buffer_size c k) = true
        · rw [if_pos hd] at hl; exact absurd hl (by decide)
        · simpa using hd

/-- When the first byte that is not a primitive character is no delimiter, the
primitive accumulator returns `0` only on a clean buffer and a delimiter. -/
theorem parse_primitive_zero_clean {p : jsmn_stream_parser_t} {c : Nat}
    (hp : ∀ k, first_dirty p.buffer p.buffer_size k → is_delimiter (p.buffer k) = false)
    (hret : (jsmn_stream_parse_primitive p c).ret = 0) :
    clean_buffer p ∧ is_delimiter c = true ∧ p.buffer_size ≠ JSMN_STREAM_BUFFER_SIZE - 1 := by
  unfold jsmn_stream_parse_primitive at hret
  by_cases hf : p.buffer_size = JSMN_STREAM_BUFFER_SIZE - 1
  · rw [if_pos hf] at hret; simp [JSMN_STREAM_ERROR_NOMEM] at hret
  · rw [if_neg hf] at hret
    simp only at hret
    cases hl : primitive_loop (Function.update p.buffer p.buffer_size c) (p.buffer_size + 1)
        (p.buffer_size + 1) 0 <;> simp only [hl] at hret
    · rcases clean_or_first_dirty p.buffer p.buffer_size with hc | ⟨k, hk⟩
      · refine ⟨hc, ?_, hf⟩
        rw [primitive_loop_last _ _ (update_held p.buffer p.buffer_size c
          (fun x => is_primitive_char x = true) hc), Function.update_same] at hl
        by_cases h0 : c = 0
        · rw [if_pos h0] at hl; exact absurd hl (by decide)
        · rw [if_neg h0] at hl
          by_cases hd : is_delimiter c = true
          · exact hd
          · rw [if_neg hd] at hl
            split_ifs at hl
      · exfalso
        have hk2 := first_dirty_update hk c
        rw [primitive_loop_first_dirty hk2, Function.update_noteq (by have := hk.1; omega)] at hl
        rw [hp k hk] at hl
        by_cases h0 : p.buffer k = 0
        · rw [if_pos h0] at hl; exact absurd hl (by decide)
        · rw [if_neg h0, if_neg (by decide)] at hl; exact absurd hl (by decide)
    · exact absurd hret (by decide)
    · exact absurd hret (by decide)

theorem is_primitive_start_of_delimiter {d : Nat} (hd : is_delimiter d = true) :
    is_primitive_start d = false := by
  rcases is_delimiter_cases hd with rfl | rfl | rfl | rfl | rfl | rfl | rfl <;> rfl

/-- A delimiter in structural mode: one activation is enough, `0` is
returned, the mode and the buffer size stay, and the only possible callback
is the end of an object or array. -/
theorem parse_structural_delimiter {q : jsmn_stream_parser_t} {d : Nat}
    (hs : q.state = JSMN_STREAM_PARSING) (hd : is_delimiter d = true) :
    jsmn_stream_parse_fuel 1 q d = some (jsmn_stream_parse q d) ∧
    (jsmn_stream_parse q d).ret = 0 ∧
    (jsmn_stream_parse q d).parser.state = JSMN_STREAM_PARSING ∧
    (jsmn_stream_parse q d).parser.buffer_size = q.buffer_size ∧
    (∀ e, e ∈ (jsmn_stream_parse q d).calls →
      e.token = JSMN_STREAM_TOKEN_END_OBJECT ∨ e.token = JSMN_STREAM_TOKEN_END_ARRAY) := by
  have n1 : ¬ (d = 123 ∨ d = 91) := by
    rcases is_delimiter_cases hd with h | h | h | h | h | h | h <;> omega
  have hw : (d = 125 ∨ d = 93) ∨ (d = 9 ∨ d = 13 ∨ d = 10 ∨ d = 32 ∨ d = 44) := by
    rcases is_delimiter_cases hd with h | h | h | h | h | h | h <;> omega
  have h1 : jsmn_stream_parse_fuel 1 q d = some (jsmn_stream_parse q d) := by
    have h4 := jsmn_stream_parse_fuel_enough 4 (le_refl _) q d
    rw [← h4]
    simp only [jsmn_stream_parse_fuel, hs]
    rcases hw with h | h
    · simp only [if_neg n1, if_pos h]
    · have n2 : ¬ (d = 125 ∨ d = 93) := by omega
      have n3 : ¬ d = 34 := by omega
      simp only [if_neg n1, if_neg n2, if_neg n3, if_pos h]
  refine ⟨h1, ?_⟩
  rw [parse_structural d hs, if_neg n1]
  rcases hw with h | h
  · rw [if_pos h]
    refine ⟨rfl, ?_, ?_, ?_⟩
    · show (pop_if_key _).state = _
      rw [pop_if_key_state, stack_pop_state]; exact hs
    · show (pop_if_key _).buffer_size = _
      rw [pop_if_key_buffer_size, stack_pop_buffer_size]
    · intro e he
      simp only [JSMN_STREAM_CALLBACK_NULL] at he
      split_ifs at he
      · left; rw [List.mem_singleton.mp he]
      · exact absurd he (List.not_mem_nil _)
      · right; rw [List.mem_singleton.mp he]
      · exact absurd he (List.not_mem_nil _)
  · have n2 : ¬ (d = 125 ∨ d = 93) := by omega
    have n3 : ¬ d = 34 := by omega
    rw [if_neg n2, if_neg n3, if_pos h]
    exact ⟨rfl, hs, rfl, fun e he => absurd he (List.not_mem_nil _)⟩

/-- What the primitive accumulator does when it does not return `0`. -/
theorem parse_primitive_nonzero {p : jsmn_stream_parser_t} {c : Nat}
    (h : (jsmn_stream_parse_primitive p c).ret ≠ 0) :
    (jsmn_stream_parse_primitive p c).ret < 0 ∧
    (jsmn_stream_parse_primitive p c).calls = [] ∧
    ((p.buffer_size = JSMN_STREAM_BUFFER_SIZE - 1 ∧
        (jsmn_stream_parse_primitive p c).ret = JSMN_STREAM_ERROR_NOMEM ∧
        (jsmn_stream_parse_primitive p c).parser = p) ∨
      (p.buffer_size ≠ JSMN_STREAM_BUFFER_SIZE - 1 ∧
        ((jsmn_stream_parse_primitive p c).ret = JSMN_STREAM_ERROR_INVAL ∨
          (jsmn_stream_parse_primitive p c).ret = JSMN_STREAM_ERROR_PART) ∧
        (jsmn_stream_parse_primitive p c).parser =
          { p with buffer := Function.update p.buffer p.buffer_size c
                   buffer_size := p.buffer_size + 1 })) := by
  unfold jsmn_stream_parse_primitive at h ⊢
  by_cases hf : p.buffer_size = JSMN_STREAM_BUFFER_SIZE - 1
  · rw [if_pos hf]
    exact ⟨show JSMN_STREAM_ERROR_NOMEM < 0 by decide, rfl, Or.inl ⟨hf, rfl, rfl⟩⟩
  · rw [if_neg hf] at h ⊢
    simp only at h ⊢
    cases hl : primitive_loop (Function.update p.buffer p.buffer_size c) (p.buffer_size + 1)
        (p.buffer_size + 1) 0 <;> simp only [hl] at h ⊢
    · exact absurd rfl h
    · exact ⟨by decide, trivial, Or.inr ⟨hf, Or.inl trivial, trivial⟩⟩
    · exact ⟨by decide, trivial, Or.inr ⟨hf, Or.inr trivial, trivial⟩⟩

/-- In primitive mode the dispatcher hands on what the accumulator returns
unless that is `0`. -/
theorem parse_in_primitive_nonzero {p : jsmn_stream_parser_t} {c : Nat}
    (hs : p.state = JSMN_STREAM_PARSING_PRIMITIVE)
    (h : (jsmn_stream_parse_primitive p c).ret ≠ 0) :
    jsmn_stream_parse p c = jsmn_stream_parse_primitive p c := by
  rw [parse_in_primitive c hs, if_pos (parse_primitive_nonzero h).1]

/-- A call in primitive mode, from a state in which the first byte that is no
primitive character is no delimiter, when the accumulator returns `0`: the
buffer is clean, the character is a delimiter, the primitive is reported, and
the delimiter is handled in structural mode by the one nested activation. -/
theorem parse_in_primitive_zero {p : jsmn_stream_parser_t} {c : Nat}
    (hs : p.state = JSMN_STREAM_PARSING_PRIMITIVE)
    (hp : ∀ k, first_dirty p.buffer p.buffer_size k → is_delimiter (p.buffer k) = false)
    (h : (jsmn_stream_parse_primitive p c).ret = 0) :
    clean_buffer p ∧ is_delimiter c = true ∧
    (jsmn_stream_parse p c).ret = 0 ∧
    (jsmn_stream_parse p c).parser.state = JSMN_STREAM_PARSING ∧
    (jsmn_stream_parse p c).parser.buffer_size = 0 ∧
    jsmn_stream_parse_fuel 2 p c = some (jsmn_stream_parse p c) ∧
    ∃ rest, (jsmn_stream_parse p c).calls =
        JSMN_STREAM_CALLBACK p JSMN_STREAM_TOKEN_PRIMITIVE (some (live_buffer p)) p.buffer_size ++
          rest ∧
      ∀ e, e ∈ rest →
        e.token = JSMN_STREAM_TOKEN_END_OBJECT ∨ e.token = JSMN_STREAM_TOKEN_END_ARRAY := by
  obtain ⟨hc, hd, _⟩ := parse_primitive_zero_clean hp h
  have hq : (pop_if_key (jsmn_stream_parse_primitive p c).parser).state = JSMN_STREAM_PARSING :=
    parse_primitive_done_state h
  obtain ⟨d1, d2, d3, d4, d5⟩ := parse_structural_delimiter hq hd
  have hneg : ¬ (jsmn_stream_parse_primitive p c).ret < 0 := by omega
  rw [parse_in_primitive c hs, if_neg hneg, if_pos h]
  have hfuel : jsmn_stream_parse_fuel 2 p c = some
      ⟨(jsmn_stream_parse (pop_if_key (jsmn_stream_parse_primitive p c).parser) c).ret,
       (jsmn_stream_parse (pop_if_key (jsmn_stream_parse_primitive p c).parser) c).parser,
       (jsmn_stream_parse_primitive p c).calls ++
       (jsmn_stream_parse (pop_if_key (jsmn_stream_parse_primitive p c).parser) c).calls⟩ := by
    rw [jsmn_stream_parse_fuel]
    simp only [hs, if_neg hneg, if_pos h, d1]
  refine ⟨hc, hd, d2, d3, ?_, hfuel, _, ?_, d5⟩
  · show (jsmn_stream_parse _ c).parser.buffer_size = 0
    rw [d4, pop_if_key_buffer_size, parse_primitive_zero h]
  · show _ ++ _ = _ ++ _
    rw [parse_primitive_zero_calls h]

theorem callback_null_token {p : jsmn_stream_parser_t} {t : jsmn_stream_token_t}
    {e : callback_call} (he : e ∈ JSMN_STREAM_CALLBACK_NULL p t) : e.token = t := by
  unfold JSMN_STREAM_CALLBACK_NULL at he
  split_ifs at he
  · rw [List.mem_singleton.mp he]
  · exact absurd he (List.not_mem_nil _)

theorem callback_token {p : jsmn_stream_parser_t} {t : jsmn_stream_token_t}
    {b : Option (List Nat)} {n : Nat}
    {e : callback_call} (he : e ∈ JSMN_STREAM_CALLBACK p t b n) : e = ⟨t, b, n⟩ := by
  unfold JSMN_STREAM_CALLBACK at he
  split_ifs at he
  · exact List.mem_singleton.mp he
  · exact absurd he (List.not_mem_nil _)

theorem parse_fuel_structural_none (n : Nat) {p : jsmn_stream_parser_t} (c : Nat)
    (hs : p.state = JSMN_STREAM_PARSING) :
    jsmn_stream_parse_fuel (n + 1) p c = none →
      is_primitive_start c = true ∧ jsmn_stream_stack_top p ≠ JSMN_STREAM_OBJECT := by
  rw [jsmn_stream_parse_fuel]
  simp only [hs]
  intro h
  split_ifs at h with a1 a2 a3 a4 a5 a6 a7 a8 a9 a10
  all_goals first
    | exact absurd h (by simp)
    | exact ⟨by assumption, by assumption⟩

/-- A call in structural mode with an empty buffer: two activations are
enough, and the second is needed only for a character that starts a
primitive; the callbacks are starts and ends of objects and arrays; and
primitive mode is entered only by a character that starts a primitive, which
becomes the one byte of the buffer. -/
theorem parse_structural_facts {p : jsmn_stream_parser_t} (c : Nat)
    (hs : p.state = JSMN_STREAM_PARSING) (hb : p.buffer_size = 0) :
    jsmn_stream_parse_fuel 2 p c = some (jsmn_stream_parse p c) ∧
    (jsmn_stream_parse_fuel 1 p c = none →
      is_primitive_start c = true ∧ jsmn_stream_stack_top p ≠ JSMN_STREAM_OBJECT) ∧
    (∀ e, e ∈ (jsmn_stream_parse p c).calls →
      e.token = JSMN_STREAM_TOKEN_START_OBJECT ∨ e.token = JSMN_STREAM_TOKEN_START_ARRAY ∨
      e.token = JSMN_STREAM_TOKEN_END_OBJECT ∨ e.token = JSMN_STREAM_TOKEN_END_ARRAY) ∧
    ((jsmn_stream_parse p c).parser.state = JSMN_STREAM_PARSING_PRIMITIVE →
      is_primitive_start c = true ∧ jsmn_stream_stack_top p ≠ JSMN_STREAM_OBJECT ∧
      jsmn_stream_parse p c =
        ⟨0, { p with state := JSMN_STREAM_PARSING_PRIMITIVE
                     buffer := Function.update p.buffer 0 c
                     buffer_size := 1 }, []⟩) := by
  have h2 : jsmn_stream_parse_fuel 2 p c = some (jsmn_stream_parse p c) := by
    obtain ⟨r, hr⟩ := parse_fuel_structural_empty 0 c hs hb
    have h4 := parse_fuel_mono_le 2 4 (by omega) p c r hr
    rw [jsmn_stream_parse_fuel_enough 4 (le_refl _)] at h4
    rw [Option.some.inj h4]
    exact hr
  have h1 : jsmn_stream_parse_fuel 1 p c = none →
      is_primitive_start c = true ∧ jsmn_stream_stack_top p ≠ JSMN_STREAM_OBJECT :=
    parse_fuel_structural_none 0 c hs
  refine ⟨h2, h1, ?_, ?_⟩
  · intro e he
    by_cases hx : is_primitive_start c = true ∧ jsmn_stream_stack_top p ≠ JSMN_STREAM_OBJECT
    · rw [parse_primitive_start hs hb hx.2 hx.1] at he
      exact absurd he (List.not_mem_nil _)
    · rw [parse_structural c hs] at he
      split_ifs at he
      all_goals first
        | exact absurd he (List.not_mem_nil _)
        | (left; exact callback_null_token he)
        | (right; left; exact callback_null_token he)
        | (right; right; left; exact callback_null_token he)
        | (right; right; right; exact callback_null_token he)
        | (exfalso; apply hx; constructor <;> assumption)
  · intro hst
    by_cases h6 : is_primitive_start c = true
    · by_cases h7 : jsmn_stream_stack_top p = JSMN_STREAM_OBJECT
      · exfalso
        rw [parse_structural c hs] at hst
        have n1 : ¬ (c = 123 ∨ c = 91) := by
          rintro (rfl | rfl) <;> exact absurd h6 (by decide)
        have n2 : ¬ (c = 125 ∨ c = 93) := by
          rintro (rfl | rfl) <;> exact absurd h6 (by decide)
        have n3 : ¬ c = 34 := by rintro rfl; exact absurd h6 (by decide)
        have n4 : ¬ (c = 9 ∨ c = 13 ∨ c = 10 ∨ c = 32 ∨ c = 44) := by
          rintro (rfl | rfl | rfl | rfl | rfl) <;> exact absurd h6 (by decide)
        have n5 : ¬ c = 58 := by rintro rfl; exact absurd h6 (by decide)
        rw [if_neg n1, if_neg n2, if_neg n3, if_neg n4, if_neg n5, if_pos h6, if_pos h7] at hst
        rw [hs] at hst
        exact absurd hst (by decide)
      · exact ⟨h6, h7, parse_primitive_start hs hb h7 h6⟩
    · exfalso
      rw [parse_structural c hs] at hst
      have hpush : ∀ t, (jsmn_stream_stack_push p t).2.state = JSMN_STREAM_PARSING :=
        fun t => (stack_push_frame p t).2.1.trans hs
      have hpop : (pop_if_key (jsmn_stream_stack_pop p)).state = JSMN_STREAM_PARSING := by
        rw [pop_if_key_state, stack_pop_state]; exact hs
      split_ifs at hst
      all_goals first
        | (rw [hpush] at hst; exact absurd hst (by decide))
        | (rw [hpop] at hst; exact absurd hst (by decide))
        | (rw [hs] at hst; exact absurd hst (by decide))

/-- A call in string mode: one activation is enough, primitive mode is not
entered, the callbacks are keys and string values, and a call that makes a
callback ends in structural mode with an empty buffer. -/
theorem parse_in_string_facts {p : jsmn_stream_parser_t} (c : Nat)
    (hs : p.state = JSMN_STREAM_PARSING_STRING) :
    jsmn_stream_parse_fuel 1 p c = some (jsmn_stream_parse p c) ∧
    (jsmn_stream_parse p c).parser.state ≠ JSMN_STREAM_PARSING_PRIMITIVE ∧
    (∀ e, e ∈ (jsmn_stream_parse p c).calls →
      (e.token = JSMN_STREAM_TOKEN_KEY ∨ e.token = JSMN_STREAM_TOKEN_STRING) ∧
      (jsmn_stream_parse p c).parser.state = JSMN_STREAM_PARSING ∧
      (jsmn_stream_parse p c).parser.buffer_size = 0) := by
  have h1 : jsmn_stream_parse_fuel 1 p c = some (jsmn_stream_parse p c) := by
    rw [parse_in_string c hs, jsmn_stream_parse_fuel]
    simp only [hs]
    split_ifs <;> rfl
  refine ⟨h1, ?_⟩
  rw [parse_in_string c hs]
  by_cases hneg : (jsmn_stream_parse_string p c).ret < 0
  · rw [if_pos hneg]
    have hp := parse_string_part (p := p) (c := c) (by omega)
    refine ⟨by rw [hp.2.1, hs]; decide, fun e he => ?_⟩
    rw [hp.1] at he
    exact absurd he (List.not_mem_nil _)
  · rw [if_neg hneg]
    have h0 : (jsmn_stream_parse_string p c).ret = 0 := by
      rcases parse_string_ret p c with h | h | h | h <;>
        simp only [h, JSMN_STREAM_ERROR_NOMEM, JSMN_STREAM_ERROR_INVAL,
          JSMN_STREAM_ERROR_PART] at hneg ⊢ <;> omega
    have hst : (pop_if_key (jsmn_stream_parse_string p c).parser).state =
        JSMN_STREAM_PARSING := by
      rw [pop_if_key_state, parse_string_zero h0]
    have hbs : (pop_if_key (jsmn_stream_parse_string p c).parser).buffer_size = 0 := by
      rw [pop_if_key_buffer_size, parse_string_zero h0]
    refine ⟨?_, fun e he => ⟨?_, hst, hbs⟩⟩
    · show (pop_if_key _).state ≠ _
      rw [hst]; decide
    · have he2 : e ∈ (jsmn_stream_parse_string p c).calls := he
      rw [parse_string_zero_calls h0] at he2
      rw [callback_token he2]
      show (if _ then _ else _) = _ ∨ (if _ then _ else _) = _
      split_ifs
      · right; rfl
      · left; rfl

theorem sound_init (p0 : jsmn_stream_parser_t) (callback : Bool) :
    sound (jsmn_stream_init p0 callback) :=
  ⟨⟨Nat.zero_le _, Nat.zero_le _⟩, fun _ => rfl,
    fun h => absurd (show JSMN_STREAM_PARSING = JSMN_STREAM_PARSING_PRIMITIVE from h) (by decide)⟩

/-- Every call keeps the facts of `sound`. -/
theorem sound_step {p : jsmn_stream_parser_t} (h : sound p) (c : Nat) :
    sound (jsmn_stream_parse p c).parser := by
  obtain ⟨⟨hb1, hb2⟩, hemp, hpend⟩ := h
  have hfr := parse_frame p c
  refine ⟨⟨hfr.2.2.1 hb1, (hfr.2.2.2 hb2).1⟩, step_keeps_buffer_empty p c hemp, ?_⟩
  intro hst
  cases hs : p.state with
  | JSMN_STREAM_PARSING =>
    obtain ⟨h6, _, heq⟩ := (parse_structural_facts c hs (hemp hs)).2.2.2 hst
    rw [heq]
    refine ⟨Nat.one_pos, ?_, fun k hk => ?_⟩
    · show is_primitive_start (Function.update p.buffer 0 c 0) = true
      rw [Function.update_same]; exact h6
    · exfalso
      obtain ⟨k1, k2, _⟩ := hk
      have hk0 : k = 0 := by
        have : k < 1 := k1
        omega
      rw [hk0] at k2
      have : is_primitive_char (Function.update p.buffer 0 c 0) = true := by
        rw [Function.update_same]; exact is_primitive_char_of_start h6
      rw [this] at k2
      exact absurd k2 (by decide)
  | JSMN_STREAM_PARSING_STRING =>
    exact absurd hst (parse_in_string_facts c hs).2.1
  | JSMN_STREAM_PARSING_PRIMITIVE =>
    obtain ⟨hpos, hstart, hnd⟩ := hpend hs
    by_cases h0 : (jsmn_stream_parse_primitive p c).ret = 0
    · have := (parse_in_primitive_zero hs hnd h0).2.2.2.1
      rw [this] at hst
      exact absurd hst (by decide)
    · rw [parse_in_primitive_nonzero hs h0]
      refine ⟨?_, ?_, parse_primitive_keeps_pending hnd h0⟩
      · rcases (parse_primitive_nonzero h0).2.2 with ⟨_, _, e⟩ | ⟨_, _, e⟩
        · rw [e]; exact hpos
        · rw [e]; exact Nat.succ_pos _
      · rcases (parse_primitive_nonzero h0).2.2 with ⟨_, _, e⟩ | ⟨_, _, e⟩
        · rw [e]; exact hstart
        · rw [e]
          show is_primitive_start (Function.update p.buffer p.buffer_size c 0) = true
          rw [Function.update_noteq (by omega)]
          exact hstart

theorem sound_feed (cs : List Nat) : ∀ {p : jsmn_stream_parser_t}, sound p →
    sound (feed p cs).parser := by
  induction cs with
  | nil => intro p h; exact h
  | cons c cs ih =>
    intro p h
    rw [feed_cons]
    exact ih (sound_step h c)

theorem reachable_sound {p : jsmn_stream_parser_t} (hr : reachable p) : sound p := by
  obtain ⟨p0, cb, cs, rfl⟩ := hr
  exact sound_feed cs (sound_init p0 cb)

theorem reachable_step {p : jsmn_stream_parser_t} (hr : reachable p) (c : Nat) :
    reachable (jsmn_stream_parse p c).parser := by
  obtain ⟨p0, cb, cs, rfl⟩ := hr
  refine ⟨p0, cb, cs ++ [c], ?_⟩
  rw [feed_append, feed_cons, feed_nil]

theorem key_on_object_congr {p q : jsmn_stream_parser_t} (h : key_on_object p)
    (hh : q.stack_height ≤ p.stack_height)
    (ht : ∀ i, i < q.stack_height → q.type_stack i = p.type_stack i) : key_on_object q := by
  intro i hi
  obtain ⟨h1, h2⟩ := h i (by omega)
  rw [ht i hi]
  refine ⟨h1, fun hk => ?_⟩
  obtain ⟨h3, h4⟩ := h2 hk
  exact ⟨h3, by rw [ht (i - 1) (by omega)]; exact h4⟩

theorem key_on_object_push {p : jsmn_stream_parser_t} (h : key_on_object p)
    {t : jsmn_streamtype_t}
    (ht : t = JSMN_STREAM_OBJECT ∨ t = JSMN_STREAM_ARRAY ∨
      (t = JSMN_STREAM_KEY ∧ jsmn_stream_stack_top p = JSMN_STREAM_OBJECT)) :
    key_on_object (jsmn_stream_stack_push p t).2 := by
  unfold jsmn_stream_stack_push
  by_cases hf : p.stack_height ≥ JSMN_STREAM_MAX_DEPTH
  · rw [if_pos hf]; exact h
  · rw [if_neg hf]
    show key_on_object { p with
      type_stack := Function.update p.type_stack p.stack_height t
      stack_height := p.stack_height + 1 }
    intro i hi
    simp only at hi ⊢
    by_cases hin : i = p.stack_height
    · rw [hin, Function.update_same]
      constructor
      · rcases ht with ht | ht | ht
        · left; exact ht
        · right; left; exact ht
        · right; right; exact ht.1
      · intro hk
        rcases ht with ht | ht | ht
        · rw [ht] at hk; exact absurd hk (by decide)
        · rw [ht] at hk; exact absurd hk (by decide)
        · have htop := ht.2
          unfold jsmn_stream_stack_top at htop
          by_cases hz : p.stack_height = 0
          · rw [if_pos hz] at htop; exact absurd htop (by decide)
          · rw [if_neg hz] at htop
            refine ⟨by omega, ?_⟩
            rw [Function.update_noteq (by omega)]
            exact htop
    · obtain ⟨h1, h2⟩ := h i (by omega)
      rw [Function.update_noteq hin]
      refine ⟨h1, fun hk => ?_⟩
      obtain ⟨h3, h4⟩ := h2 hk
      exact ⟨h3, by rw [Function.update_noteq (by omega)]; exact h4⟩

theorem key_on_object_pop {p : jsmn_stream_parser_t} (h : key_on_object p) :
    key_on_object (jsmn_stream_stack_pop p) :=
  key_on_object_congr h (by rw [stack_pop_height]; omega)
    (fun i _ => by rw [stack_pop_type_stack])

theorem key_on_object_pop_if_key {p : jsmn_stream_parser_t} (h : key_on_object p) :
    key_on_object (pop_if_key p) :=
  key_on_object_congr h (pop_if_key_height_le p) (fun i _ => by rw [pop_if_key_type_stack])

theorem key_on_object_primitive {p : jsmn_stream_parser_t} (h : key_on_object p) (c : Nat) :
    key_on_object (jsmn_stream_parse_primitive p c).parser :=
  key_on_object_congr h (le_of_eq (parse_primitive_frame p c).2.1)
    (fun i _ => by rw [(parse_primitive_frame p c).1])

theorem key_on_object_string {p : jsmn_stream_parser_t} (h : key_on_object p) (c : Nat) :
    key_on_object (jsmn_stream_parse_string p c).parser :=
  key_on_object_congr h (le_of_eq (parse_string_frame p c).2.1)
    (fun i _ => by rw [(parse_string_frame p c).1])

theorem parse_fuel_key_on_object (n : Nat) :
    ∀ (p : jsmn_stream_parser_t) (c : Nat) (r : step_result),
      jsmn_stream_parse_fuel n p c = some r → key_on_object p → key_on_object r.parser := by
  induction n with
  | zero => intro p c r h; exact absurd h (by simp [jsmn_stream_parse_fuel])
  | succ n ih =>
    intro p c r h hp
    rw [jsmn_stream_parse_fuel] at h
    cases hs : p.state with
    | JSMN_STREAM_PARSING =>
      simp only [hs] at h
      split_ifs at h
      all_goals first
        | (cases h; first
            | exact hp
            | exact key_on_object_push hp (Or.inl rfl)
            | exact key_on_object_push hp (Or.inr (Or.inl rfl))
            | exact key_on_object_push hp (Or.inr (Or.inr ⟨rfl, by assumption⟩))
            | exact key_on_object_pop_if_key (key_on_object_pop hp))
        | skip
      cases h2 : jsmn_stream_parse_fuel n { p with state := JSMN_STREAM_PARSING_PRIMITIVE } c with
      | none => rw [h2] at h; exact absurd h (by simp)
      | some r2 =>
        rw [h2] at h
        cases h
        exact ih _ _ r2 h2 (key_on_object_congr hp (le_refl _) (fun _ _ => rfl))
    | JSMN_STREAM_PARSING_STRING =>
      simp only [hs] at h
      split_ifs at h
      · cases h; exact key_on_object_string hp c
      · cases h; exact key_on_object_pop_if_key (key_on_object_string hp c)
    | JSMN_STREAM_PARSING_PRIMITIVE =>
      simp only [hs] at h
      split_ifs at h
      · cases h; exact key_on_object_primitive hp c
      · cases h2 : jsmn_stream_parse_fuel n
            (pop_if_key (jsmn_stream_parse_primitive p c).parser) c with
        | none => rw [h2] at h; exact absurd h (by simp)
        | some r2 =>
          rw [h2] at h
          cases h
          exact ih _ _ r2 h2 (key_on_object_pop_if_key (key_on_object_primitive hp c))
      · cases h; exact key_on_object_primitive hp c

theorem key_on_object_step {p : jsmn_stream_parser_t} (h : key_on_object p) (c : Nat) :
    key_on_object (jsmn_stream_parse p c).parser :=
  parse_fuel_key_on_object 4 p c _ (jsmn_stream_parse_fuel_enough 4 (le_refl _) p c) h

theorem key_on_object_feed (cs : List Nat) : ∀ {p : jsmn_stream_parser_t}, key_on_object p →
    key_on_object (feed p cs).parser := by
  induction cs with
  | nil => intro p h; exact h
  | cons c cs ih =>
    intro p h
    rw [feed_cons]
    exact ih (key_on_object_step h c)

theorem reachable_key_on_object {p : jsmn_stream_parser_t} (hr : reachable p) :
    key_on_object p := by
  obtain ⟨p0, cb, cs, rfl⟩ := hr
  exact key_on_object_feed cs (fun i hi => absurd hi (Nat.not_lt_zero _))

theorem primitive_loop_fuel (js : Nat → Nat) (len : Nat) :
    ∀ f1 f2 pos, len - pos ≤ f1 → len - pos ≤ f2 →
      primitive_loop js len f1 pos = primitive_loop js len f2 pos := by
  intro f1
  induction f1 with
  | zero =>
    intro f2 pos h1 _
    cases f2 with
    | zero => rfl
    | succ f2 => rw [primitive_loop, primitive_loop, if_neg (by omega)]
  | succ f1 ih =>
    intro f2 pos h1 h2
    cases f2 with
    | zero => rw [primitive_loop, primitive_loop, if_neg (by omega)]
    | succ f2 =>
      rw [primitive_loop, primitive_loop, ih f2 (pos + 1) (by omega) (by omega)]

/-- In primitive mode one activation is enough unless the accumulator
returns `0`. -/
theorem parse_fuel_primitive_nonzero (n : Nat) {p : jsmn_stream_parser_t} {c : Nat}
    (hs : p.state = JSMN_STREAM_PARSING_PRIMITIVE)
    (h : (jsmn_stream_parse_primitive p c).ret ≠ 0) :
    jsmn_stream_parse_fuel (n + 1) p c = some (jsmn_stream_parse p c) := by
  rw [parse_in_primitive_nonzero hs h, jsmn_stream_parse_fuel]
  simp only [hs, if_pos (parse_primitive_nonzero h).1]

/-- The first character of a primitive, in the nested activation. -/
theorem parse_fuel_primitive_entry (n : Nat) {p : jsmn_stream_parser_t} {c : Nat}
    (hb : p.buffer_size = 0) (hc : is_primitive_start c = true) :
    jsmn_stream_parse_fuel (n + 1) { p with state := JSMN_STREAM_PARSING_PRIMITIVE } c =
      some (jsmn_stream_parse { p with state := JSMN_STREAM_PARSING_PRIMITIVE } c) := by
  rw [← jsmn_stream_parse_fuel_enough 4 (le_refl _),
    parse_fuel_primitive_first n (p := { p with state := JSMN_STREAM_PARSING_PRIMITIVE })
      rfl hb hc,
    parse_fuel_primitive_first 3 (p := { p with state := JSMN_STREAM_PARSING_PRIMITIVE })
      rfl hb hc]

/-- Every callback of a run is made by one of its calls. -/
theorem mem_feed_calls {e : callback_call} (cs : List Nat) : ∀ (p : jsmn_stream_parser_t),
    e ∈ (feed p cs).calls →
    ∃ a c b, cs = a ++ c :: b ∧ e ∈ (jsmn_stream_parse (feed p a).parser c).calls := by
  induction cs with
  | nil => intro p h; exact absurd h (List.not_mem_nil _)
  | cons c cs ih =>
    intro p h
    rw [feed_cons] at h
    rcases List.mem_append.mp h with h | h
    · exact ⟨[], c, cs, rfl, h⟩
    · obtain ⟨a, d, b, e1, e2⟩ := ih _ h
      refine ⟨c :: a, d, b, by rw [e1]; rfl, ?_⟩
      rw [feed_cons]
      exact e2

theorem feed_snoc (p : jsmn_stream_parser_t) (cs : List Nat) (c : Nat) :
    (feed p (cs ++ [c])).parser = (jsmn_stream_parse (feed p cs).parser c).parser := by
  rw [feed_append, feed_cons, feed_nil]

/-- While a primitive is accumulated, the buffer is clean and below its bound,
the buffer holds exactly the characters fed since the parser left structural
mode. -/
theorem primitive_buffer_is_input (p0 : jsmn_stream_parser_t) (cb : Bool) (cs : List Nat) :
    (feed (jsmn_stream_init p0 cb) cs).parser.state = JSMN_STREAM_PARSING_PRIMITIVE →
    (feed (jsmn_stream_init p0 cb) cs).parser.buffer_size ≠ JSMN_STREAM_BUFFER_SIZE - 1 →
    clean_buffer (feed (jsmn_stream_init p0 cb) cs).parser →
    ∃ pre, cs = pre ++ live_buffer (feed (jsmn_stream_init p0 cb) cs).parser ∧
      (feed (jsmn_stream_init p0 cb) pre).parser.state = JSMN_STREAM_PARSING := by
  induction cs using List.reverseRecOn with
  | nil =>
    intro h
    exact absurd (show JSMN_STREAM_PARSING = JSMN_STREAM_PARSING_PRIMITIVE from h) (by decide)
  | append_singleton cs c ih =>
    have hr : reachable (feed (jsmn_stream_init p0 cb) cs).parser := ⟨p0, cb, cs, rfl⟩
    obtain ⟨_, hemp, hpend⟩ := reachable_sound hr
    rw [feed_snoc]
    intro hst hsz hcl
    cases hs : (feed (jsmn_stream_init p0 cb) cs).parser.state with
    | JSMN_STREAM_PARSING =>
      obtain ⟨_, _, heq⟩ := (parse_structural_facts c hs (hemp hs)).2.2.2 hst
      refine ⟨cs, ?_, hs⟩
      rw [heq]
      simp [live_buffer, payload, List.range_succ]
    | JSMN_STREAM_PARSING_STRING =>
      exact absurd hst (parse_in_string_facts c hs).2.1
    | JSMN_STREAM_PARSING_PRIMITIVE =>
      by_cases h0 : (jsmn_stream_parse_primitive (feed (jsmn_stream_init p0 cb) cs).parser c).ret
          = 0
      · have := (parse_in_primitive_zero hs (hpend hs).2.2 h0).2.2.2.1
        rw [this] at hst
        exact absurd hst (by decide)
      · rw [parse_in_primitive_nonzero hs h0] at hst hsz hcl ⊢
        rcases (parse_primitive_nonzero h0).2.2 with ⟨f, _, e⟩ | ⟨f, _, e⟩
        · rw [e] at hsz
          exact absurd f hsz
        · rw [e] at hcl ⊢
          have hclean : clean_buffer (feed (jsmn_stream_init p0 cb) cs).parser := by
            intro i hi
            have := hcl i (Nat.lt_succ_of_lt hi)
            simp only at this
            rw [Function.update_noteq (by omega)] at this
            exact this
          obtain ⟨pre, e1, e2⟩ := ih hs f hclean
          refine ⟨pre, ?_, e2⟩
          rw [live_buffer_append, ← List.append_assoc, ← e1]

/-- The call that reports a primitive, in a run from a freshly initialised
parser: the payload is the run of characters fed since the parser left
structural mode, the character of the call is a delimiter. -/
theorem primitive_event_of_call (p0 : jsmn_stream_parser_t) (cb : Bool) (cs : List Nat)
    (c : Nat) (e : callback_call)
    (he : e ∈ (jsmn_stream_parse (feed (jsmn_stream_init p0 cb) cs).parser c).calls)
    (ht : e.token = JSMN_STREAM_TOKEN_PRIMITIVE) :
    ∃ pre first rest, cs = pre ++ first :: rest ∧
      e = ⟨JSMN_STREAM_TOKEN_PRIMITIVE, some (first :: rest), rest.length + 1⟩ ∧
      is_primitive_start first = true ∧
      (∀ x, x ∈ first :: rest → is_primitive_char x = true) ∧
      is_delimiter c = true ∧
      (feed (jsmn_stream_init p0 cb) pre).parser.state = JSMN_STREAM_PARSING := by
  have hr : reachable (feed (jsmn_stream_init p0 cb) cs).parser := ⟨p0, cb, cs, rfl⟩
  obtain ⟨_, hemp, hpend⟩ := reachable_sound hr
  cases hs : (feed (jsmn_stream_init p0 cb) cs).parser.state with
  | JSMN_STREAM_PARSING =>
    exfalso
    rcases (parse_structural_facts c hs (hemp hs)).2.2.1 e he with h | h | h | h <;>
      rw [h] at ht <;> exact absurd ht (by decide)
  | JSMN_STREAM_PARSING_STRING =>
    exfalso
    rcases ((parse_in_string_facts c hs).2.2 e he).1 with h | h <;>
      rw [h] at ht <;> exact absurd ht (by decide)
  | JSMN_STREAM_PARSING_PRIMITIVE =>
    obtain ⟨hpos, hstart, hnd⟩ := hpend hs
    by_cases h0 : (jsmn_stream_parse_primitive (feed (jsmn_stream_init p0 cb) cs).parser c).ret
        = 0
    · obtain ⟨hcl, hd, _, _, _, _, tail, hcalls, htail⟩ := parse_in_primitive_zero hs hnd h0
      have hne := (parse_primitive_zero_clean hnd h0).2.2
      obtain ⟨pre, e1, e2⟩ := primitive_buffer_is_input p0 cb cs hs hne hcl
      rw [hcalls] at he
      rcases List.mem_append.mp he with he | he
      · have hev := callback_token he
        have hlen := payload_length (feed (jsmn_stream_init p0 cb) cs).parser.buffer
          (feed (jsmn_stream_init p0 cb) cs).parser.buffer_size
        have hget := payload_getElem? (feed (jsmn_stream_init p0 cb) cs).parser.buffer
          (feed (jsmn_stream_init p0 cb) cs).parser.buffer_size 0 hpos
        have hmem : ∀ x, x ∈ live_buffer (feed (jsmn_stream_init p0 cb) cs).parser →
            is_primitive_char x = true := by
          intro x hx
          unfold live_buffer payload at hx
          obtain ⟨i, hi, rfl⟩ := List.mem_map.mp hx
          exact hcl i (List.mem_range.mp hi)
        cases hw : live_buffer (feed (jsmn_stream_init p0 cb) cs).parser with
        | nil =>
          exfalso
          unfold live_buffer at hw
          rw [hw] at hlen
          simp at hlen
          omega
        | cons first rest =>
          have hw2 : payload (feed (jsmn_stream_init p0 cb) cs).parser.buffer
              (feed (jsmn_stream_init p0 cb) cs).parser.buffer_size = first :: rest := hw
          rw [hw2] at hlen hget
          simp only [List.length_cons] at hlen
          simp only [List.getElem?_cons_zero, Option.some.injEq] at hget
          rw [hw] at e1 hev hmem
          refine ⟨pre, first, rest, e1, ?_, ?_, hmem, hd, e2⟩
          · rw [hev, hlen]
          · rw [hget]; exact hstart
      · exfalso
        rcases htail e he with h | h <;> rw [h] at ht <;> exact absurd ht (by decide)
    · exfalso
      rw [parse_in_primitive_nonzero hs h0, (parse_primitive_nonzero h0).2.1] at he
      exact absurd he (List.not_mem_nil _)

/-- The primitive accumulator when, after the new byte is stored, the first
byte that is not a primitive character is a NUL. -/
theorem parse_primitive_stuck {p : jsmn_stream_parser_t} {c k : Nat}
    (hf : p.buffer_size ≠ JSMN_STREAM_BUFFER_SIZE - 1)
    (hk : first_dirty (Function.update p.buffer p.buffer_size c) (p.buffer_size + 1) k)
    (h0 : Function.update p.buffer p.buffer_size c k = 0) :
    jsmn_stream_parse_primitive p c =
      ⟨JSMN_STREAM_ERROR_PART,
       { p with buffer := Function.update p.buffer p.buffer_size c
                buffer_size := p.buffer_size + 1 }, []⟩ := by
  unfold jsmn_stream_parse_primitive
  rw [if_neg hf]
  simp only
  rw [primitive_loop_first_dirty hk, if_pos h0]

theorem parse_in_primitive_full {p : jsmn_stream_parser_t} (c : Nat)
    (hs : p.state = JSMN_STREAM_PARSING_PRIMITIVE)
    (hf : p.buffer_size = JSMN_STREAM_BUFFER_SIZE - 1) :
    jsmn_stream_parse p c = ⟨JSMN_STREAM_ERROR_NOMEM, p, []⟩ := by
  have e := parse_primitive_full c hf
  rw [parse_in_primitive_nonzero hs (by rw [e]; simp [JSMN_STREAM_ERROR_NOMEM]), e]

/-- A call on a parser whose primitive can no longer end. -/
theorem nul_stuck_step {p : jsmn_stream_parser_t} (h : nul_stuck p) (c : Nat) :
    (p.buffer_size ≠ JSMN_STREAM_BUFFER_SIZE - 1 →
      jsmn_stream_parse p c =
        ⟨JSMN_STREAM_ERROR_PART,
         { p with buffer := Function.update p.buffer p.buffer_size c
                  buffer_size := p.buffer_size + 1 }, []⟩) ∧
    (p.buffer_size = JSMN_STREAM_BUFFER_SIZE - 1 →
      jsmn_stream_parse p c = ⟨JSMN_STREAM_ERROR_NOMEM, p, []⟩) ∧
    nul_stuck (jsmn_stream_parse p c).parser := by
  obtain ⟨hs, k, hk, h0⟩ := h
  have hk2 := first_dirty_update hk c
  have h02 : Function.update p.buffer p.buffer_size c k = 0 := by
    rw [Function.update_noteq (by have := hk.1; omega)]; exact h0
  have hpart : p.buffer_size ≠ JSMN_STREAM_BUFFER_SIZE - 1 →
      jsmn_stream_parse p c =
        ⟨JSMN_STREAM_ERROR_PART,
         { p with buffer := Function.update p.buffer p.buffer_size c
                  buffer_size := p.buffer_size + 1 }, []⟩ := by
    intro hf
    have e := parse_primitive_stuck hf hk2 h02
    rw [parse_in_primitive_nonzero hs (by rw [e]; simp [JSMN_STREAM_ERROR_PART]), e]
  refine ⟨hpart, parse_in_primitive_full c hs, ?_⟩
  by_cases hf : p.buffer_size = JSMN_STREAM_BUFFER_SIZE - 1
  · rw [parse_in_primitive_full c hs hf]
    exact ⟨hs, k, hk, h0⟩
  · rw [hpart hf]
    exact ⟨hs, k, hk2, h02⟩

/-- Whatever is fed to a parser whose primitive can no longer end: no
callback, no change of mode, only `PART` and `NOMEM` are returned, and the
buffer grows by one byte per call up to 255 bytes. -/
theorem nul_stuck_feed (cs : List Nat) : ∀ {p : jsmn_stream_parser_t}, nul_stuck p →
    p.buffer_size ≤ JSMN_STREAM_BUFFER_SIZE - 1 →
    nul_stuck (feed p cs).parser ∧ (feed p cs).calls = [] ∧
    (feed p cs).parser.buffer_size = min (p.buffer_size + cs.length) (JSMN_STREAM_BUFFER_SIZE - 1) ∧
    ∀ x, x ∈ (feed p cs).rets → x = JSMN_STREAM_ERROR_PART ∨ x = JSMN_STREAM_ERROR_NOMEM := by
  induction cs with
  | nil =>
    intro p h hle
    exact ⟨h, rfl, by simp only [feed_nil, List.length_nil, Nat.add_zero]; omega,
      fun x hx => absurd hx (List.not_mem_nil _)⟩
  | cons c cs ih =>
    intro p h hle
    have hB : JSMN_STREAM_BUFFER_SIZE - 1 = 255 := rfl
    obtain ⟨s1, s2, s3⟩ := nul_stuck_step h c
    rw [feed_cons]
    by_cases hf : p.buffer_size = JSMN_STREAM_BUFFER_SIZE - 1
    · have e := s2 hf
      rw [e] at s3 ⊢
      obtain ⟨i1, i2, i3, i4⟩ := ih s3 hle
      refine ⟨i1, by simp only [i2, List.append_nil], ?_, ?_⟩
      · simp only [i3, List.length_cons]
        rw [hB] at hf ⊢
        omega
      · intro x hx
        rcases List.mem_cons.mp hx with hx | hx
        · right; exact hx
        · exact i4 x hx
    · have e := s1 hf
      rw [e] at s3 ⊢
      obtain ⟨i1, i2, i3, i4⟩ := ih s3 (by show p.buffer_size + 1 ≤ _; omega)
      refine ⟨i1, by simp only [i2, List.append_nil], ?_, ?_⟩
      · simp only [i3, List.length_cons]
        omega
      · intro x hx
        rcases List.mem_cons.mp hx with hx | hx
        · left; exact hx
        · exact i4 x hx

theorem is_primitive_char_zero : is_primitive_char 0 = false := by decide

/-- A NUL fed in primitive mode, when the first byte of the buffer that is not
a primitive character, if there is one, is a NUL: the call returns `PART`
and the primitive can no longer end. -/
theorem parse_nul_in_primitive {p : jsmn_stream_parser_t}
    (hs : p.state = JSMN_STREAM_PARSING_PRIMITIVE)
    (hf : p.buffer_size ≠ JSMN_STREAM_BUFFER_SIZE - 1)
    (hq : ∀ k, first_dirty p.buffer p.buffer_size k → p.buffer k = 0) :
    jsmn_stream_parse p 0 =
      ⟨JSMN_STREAM_ERROR_PART,
       { p with buffer := Function.update p.buffer p.buffer_size 0
                buffer_size := p.buffer_size + 1 }, []⟩ ∧
    nul_stuck (jsmn_stream_parse p 0).parser := by
  have hex : ∃ k, first_dirty (Function.update p.buffer p.buffer_size 0) (p.buffer_size + 1) k ∧
      Function.update p.buffer p.buffer_size 0 k = 0 := by
    rcases clean_or_first_dirty p.buffer p.buffer_size with hc | ⟨k, hk⟩
    · refine ⟨p.buffer_size, ⟨Nat.lt_succ_self _, ?_, fun i hi => ?_⟩, Function.update_same _ _ _⟩
      · rw [Function.update_same]; exact is_primitive_char_zero
      · rw [Function.update_noteq (by omega)]; exact hc i hi
    · refine ⟨k, first_dirty_update hk 0, ?_⟩
      rw [Function.update_noteq (by have := hk.1; omega)]
      exact hq k hk
  obtain ⟨k, hk, h0⟩ := hex
  have e := parse_primitive_stuck hf hk h0
  have e2 : jsmn_stream_parse p 0 = _ :=
    (parse_in_primitive_nonzero hs (by rw [e]; simp [JSMN_STREAM_ERROR_PART])).trans e
  refine ⟨e2, ?_⟩
  rw [e2]
  exact ⟨hs, k, hk, h0⟩

/-- After a call that did not return `INVAL` and left the parser in primitive
mode below the buffer bound, the first byte of the buffer that is not a
primitive character, if there is one, is a NUL. -/
theorem not_invalid_first_dirty_nul {q : jsmn_stream_parser_t} (hq : sound q) (c : Nat)
    (hret : (jsmn_stream_parse q c).ret ≠ JSMN_STREAM_ERROR_INVAL)
    (hst : (jsmn_stream_parse q c).parser.state = JSMN_STREAM_PARSING_PRIMITIVE)
    (hsz : (jsmn_stream_parse q c).parser.buffer_size ≠ JSMN_STREAM_BUFFER_SIZE - 1) :
    ∀ k, first_dirty (jsmn_stream_parse q c).parser.buffer
        (jsmn_stream_parse q c).parser.buffer_size k →
      (jsmn_stream_parse q c).parser.buffer k = 0 := by
  obtain ⟨_, hemp, hpend⟩ := hq
  cases hs : q.state with
  | JSMN_STREAM_PARSING =>
    obtain ⟨h6, _, heq⟩ := (parse_structural_facts c hs (hemp hs)).2.2.2 hst
    rw [heq]
    intro k hk
    exfalso
    obtain ⟨k1, k2, _⟩ := hk
    have hk0 : k = 0 := by
      have : k < 1 := k1
      omega
    rw [hk0] at k2
    have : is_primitive_char (Function.update q.buffer 0 c 0) = true := by
      rw [Function.update_same]; exact is_primitive_char_of_start h6
    rw [this] at k2
    exact absurd k2 (by decide)
  | JSMN_STREAM_PARSING_STRING =>
    exact absurd hst (parse_in_string_facts c hs).2.1
  | JSMN_STREAM_PARSING_PRIMITIVE =>
    by_cases h0 : (jsmn_stream_parse_primitive q c).ret = 0
    · have := (parse_in_primitive_zero hs (hpend hs).2.2 h0).2.2.2.1
      rw [this] at hst
      exact absurd hst (by decide)
    · rw [parse_in_primitive_nonzero hs h0] at hret hsz ⊢
      rcases (parse_primitive_nonzero h0).2.2 with ⟨f, _, e⟩ | ⟨f, hr, e⟩
      · rw [e] at hsz
        exact absurd f hsz
      · have hpart : (jsmn_stream_parse_primitive q c).ret = JSMN_STREAM_ERROR_PART := by
          rcases hr with hr | hr
          · exact absurd hr hret
          · exact hr
        intro k hk
        rw [e] at hk ⊢
        by_contra hne
        have hl := primitive_loop_first_dirty hk
        simp only at hl hne
        rw [if_neg hne] at hl
        unfold jsmn_stream_parse_primitive at hpart
        rw [if_neg f] at hpart
        simp only at hpart
        rw [hl] at hpart
        by_cases hd : is_delimiter (Function.update q.buffer q.buffer_size c k) = true
        · rw [if_pos hd] at hpart
          simp [JSMN_STREAM_ERROR_PART] at hpart
        · rw [if_neg hd] at hpart
          simp [JSMN_STREAM_ERROR_PART, JSMN_STREAM_ERROR_INVAL] at hpart

/-- A primitive text with nothing after it, fed to a parser in structural
mode with an empty buffer: no callback is made and the parser is left in
primitive mode, holding the text. -/
theorem feed_bare_primitive (p : jsmn_stream_parser_t) (t : List Nat)
    (hs : p.state = JSMN_STREAM_PARSING) (hb : p.buffer_size = 0)
    (htop : jsmn_stream_stack_top p ≠ JSMN_STREAM_OBJECT) (ht : primitive_text t) :
    (feed p t).calls = [] ∧
    (feed p t).parser.state = JSMN_STREAM_PARSING_PRIMITIVE ∧
    live_buffer (feed p t).parser = t := by
  obtain ⟨⟨c, t', rfl, hc⟩, hall, hlen⟩ := ht
  simp only [List.length_cons] at hlen
  obtain ⟨q, hq, q1, q2, q6, q7⟩ : ∃ q : jsmn_stream_parser_t,
      jsmn_stream_parse p c = ⟨0, q, []⟩ ∧ q.state = JSMN_STREAM_PARSING_PRIMITIVE ∧
      q.buffer_size = 1 ∧ live_buffer q = [c] ∧
      (∀ i, i < q.buffer_size → is_primitive_char (q.buffer i) = true) :=
    ⟨_, parse_primitive_start hs hb htop hc, rfl, rfl,
      by simp [live_buffer, payload, List.range_succ],
      by
        intro i hi
        have : i = 0 := by simp only at hi; omega
        subst this
        simp only [Function.update_same]
        exact is_primitive_char_of_start hc⟩
  obtain ⟨a1, a3, a4, _⟩ :=
    feed_primitive_chars t' q q1 (by rw [q2]; omega) q7
      (fun x hx => hall x (List.mem_cons_of_mem _ hx))
  rw [feed_cons, hq]
  refine ⟨by simp only [a1, List.append_nil], a3, ?_⟩
  show live_buffer (feed q t').parser = c :: t'
  rw [a4, q6]
  rfl

/-! ## Claim C1: documents: standard events, array strings apart -/

/-- C1, as the code has it: for every JSON document (any value at the top
level, any whitespace before it, after it and between tokens) whose strings,
keys and primitives are well formed and at most 254 bytes long and whose
parse needs at most 32 stack entries, the characters fed in order to a
freshly initialised parser produce exactly the in-order events of the
document: each object key as `KEY` before the events of its value, each
string that is the value of an object member as `STRING`, every other string
(an array element, a string at the top level) as `KEY`, each number, boolean
and `null` as `PRIMITIVE`, and `START_*` / `END_*` events matched and
correctly nested.  The one proviso is for a document that is a bare number,
boolean or `null`: its event is made by the call for the whitespace character
that follows it, and with nothing after it no event is made at all. -/
theorem document_events_standard_except_array_strings (p0 : jsmn_stream_parser_t)
    (v : json_value) (lead cs trail : List Nat) (hok : v.ok)
    (hneed : v.stack_need ≤ JSMN_STREAM_MAX_DEPTH) (hser : serializes v cs)
    (hlead : whitespace lead) (htrail : whitespace trail) :
    (((∀ t, v ≠ .primitive t) ∨ trail ≠ []) →
      (feed (jsmn_stream_init p0 true) (lead ++ (cs ++ trail))).calls = v.events false ∧
      nesting_matched (feed (jsmn_stream_init p0 true) (lead ++ (cs ++ trail))).calls [] =
        true) ∧
    ((∃ t, v = .primitive t) → (feed (jsmn_stream_init p0 true) (lead ++ cs)).calls = []) := by
  have hl : live_stack (jsmn_stream_init p0 true) = [] := by
    simp [live_stack, jsmn_stream_init]
  constructor
  · intro hcase
    have hend : value_end v trail := by
      cases v with
      | primitive t =>
        have hne : trail ≠ [] := by
          rcases hcase with h | h
          · exact absurd rfl (h t)
          · exact h
        cases trail with
        | nil => exact absurd rfl hne
        | cons d r =>
          exact ⟨d, r, rfl, is_delimiter_of_whitespace (htrail d (List.mem_cons_self _ _))⟩
      | string s => trivial
      | array es => trivial
      | object ms => trivial
    obtain ⟨p', ha, hc, _, _⟩ := feed_value v cs trail (jsmn_stream_init p0 true) hser hok
      ⟨rfl, rfl, rfl⟩ (by rw [hl]; decide)
      (by simpa [jsmn_stream_init, JSMN_STREAM_MAX_DEPTH] using hneed) hend
    have htr := (feed_whitespace trail [] p' ha.1 htrail).1
    rw [List.append_nil, feed_nil] at htr
    have h : (feed (jsmn_stream_init p0 true) (lead ++ (cs ++ trail))).calls =
        v.events false := by
      rw [(feed_whitespace lead (cs ++ trail) (jsmn_stream_init p0 true) rfl hlead).1, hc, hl,
        htr]
      simp [list_top]
    refine ⟨h, ?_⟩
    rw [h]
    have := nesting_matched_value v false [] []
    rw [List.append_nil] at this
    rw [this]
    rfl
  · rintro ⟨t, rfl⟩
    have hcs : cs = t := by cases hser; rfl
    subst hcs
    rw [(feed_whitespace lead cs (jsmn_stream_init p0 true) rfl hlead).1]
    exact (feed_bare_primitive (jsmn_stream_init p0 true) cs rfl rfl
      (by rw [stack_top_eq, hl]; decide) hok).1

/-- C1, refuted as written, at three documents.  In `["a"]` the string `a`
is a value (an array element) and is reported as `KEY`, no `STRING` event is
made; the document `"a"` is reported as `KEY` as well; and the document `42`
produces no event at all. -/
theorem array_string_and_bare_values_counterexample :
    ((feed (jsmn_stream_init blank true) [91, 34, 97, 34, 93]).calls =
      [⟨JSMN_STREAM_TOKEN_START_ARRAY, none, 0⟩, ⟨JSMN_STREAM_TOKEN_KEY, some [97], 1⟩,
       ⟨JSMN_STREAM_TOKEN_END_ARRAY, none, 0⟩] ∧
    ∀ e ∈ (feed (jsmn_stream_init blank true) [91, 34, 97, 34, 93]).calls,
      e.token ≠ JSMN_STREAM_TOKEN_STRING) ∧
    (feed (jsmn_stream_init blank true) [34, 97, 34]).calls =
      [⟨JSMN_STREAM_TOKEN_KEY, some [97], 1⟩] ∧
    (feed (jsmn_stream_init blank true) [52, 50]).calls = [] := by
  decide

/-- C1 at concrete inputs: the document `{"k": ["a"], "s": "b"}`, with a
space after the colons and the comma, and the document `42` followed by a
line feed. -/
theorem document_events_standard_except_array_strings_witness :
    (feed (jsmn_stream_init blank true)
      [123, 34, 107, 34, 58, 32, 91, 34, 97, 34, 93, 44, 32, 34, 115, 34, 58, 32, 34, 98, 34,
        125]).calls =
      [⟨JSMN_STREAM_TOKEN_START_OBJECT, none, 0⟩, ⟨JSMN_STREAM_TOKEN_KEY, some [107], 1⟩,
       ⟨JSMN_STREAM_TOKEN_START_ARRAY, none, 0⟩, ⟨JSMN_STREAM_TOKEN_KEY, some [97], 1⟩,
       ⟨JSMN_STREAM_TOKEN_END_ARRAY, none, 0⟩, ⟨JSMN_STREAM_TOKEN_KEY, some [115], 1⟩,
       ⟨JSMN_STREAM_TOKEN_STRING, some [98], 1⟩, ⟨JSMN_STREAM_TOKEN_END_OBJECT, none, 0⟩] ∧
    (feed (jsmn_stream_init blank true) [52, 50, 10]).calls =
      [⟨JSMN_STREAM_TOKEN_PRIMITIVE, some [52, 50], 2⟩] :=
  ⟨((document_events_standard_except_array_strings blank mixed_strings []
      [123, 34, 107, 34, 58, 32, 91, 34, 97, 34, 93, 44, 32, 34, 115, 34, 58, 32, 34, 98, 34, 125]
      []
      ⟨string_text_letter 107 (by decide) (by decide),
        ⟨string_text_letter 97 (by decide) (by decide), trivial⟩,
        string_text_letter 115 (by decide) (by decide),
        string_text_letter 98 (by decide) (by decide), trivial⟩
      (by decide)
      (serializes.object _ [] _ whitespace_nil
        (serializes_members.cons [107] _ [115] _ _ [] [32] [91, 34, 97, 34, 93] [] [32]
          [34, 115, 34, 58, 32, 34, 98, 34]
          whitespace_nil whitespace_space
          (serializes.array _ [] [34, 97, 34] whitespace_nil
            (serializes_elements.last _ [34, 97, 34] [] (serializes.string [97]) whitespace_nil))
          whitespace_nil whitespace_space
          (serializes_members.last [115] _ [] [32] [34, 98, 34] []
            whitespace_nil whitespace_space (serializes.string [98]) whitespace_nil)))
      whitespace_nil whitespace_nil).1 (Or.inl (fun _ h => nomatch h))).1,
   ((document_events_standard_except_array_strings blank (.primitive [52, 50]) [] [52, 50] [10]
      ⟨⟨52, [50], rfl, rfl⟩, by decide, by decide⟩ (by decide) (serializes.primitive [52, 50])
      whitespace_nil (fun c hc => by rw [List.mem_singleton.mp hc]; rfl)).1
      (Or.inr (by decide))).1⟩

/-! ## Claim C2: value trees and their event lists -/

/-- C2: for every JSON value tree whose top level is an object or an array,
whose strings and primitives are at most 254 bytes and whose parse needs at
most 32 stack entries, every serialisation of the tree (with or without
whitespace between tokens) fed to a freshly initialised parser produces
exactly the in-order event list of the tree, in which a string is `STRING`
when it is the direct value of an object member and `KEY` otherwise. -/
theorem serialised_tree_gives_event_list (p0 : jsmn_stream_parser_t)
    (v : json_value) (cs : List Nat)
    (htop : (∃ es, v = .array es) ∨ (∃ ms, v = .object ms)) (hok : v.ok)
    (hneed : v.stack_need ≤ JSMN_STREAM_MAX_DEPTH) (hser : serializes v cs) :
    (feed (jsmn_stream_init p0 true) cs).calls = v.events false := by
  have hend : value_end v [] := by
    rcases htop with ⟨es, rfl⟩ | ⟨ms, rfl⟩ <;> trivial
  have hl : live_stack (jsmn_stream_init p0 true) = [] := by
    simp [live_stack, jsmn_stream_init]
  obtain ⟨p', _, hc, _, _⟩ := feed_value v cs [] (jsmn_stream_init p0 true) hser hok
    ⟨rfl, rfl, rfl⟩ (by rw [hl]; decide)
    (by simpa [jsmn_stream_init, JSMN_STREAM_MAX_DEPTH] using hneed) hend
  rw [List.append_nil] at hc
  rw [hc, hl, feed_nil]
  simp [list_top]

/-- C2 at the inputs of the claim: `[1,2,3]` and `{"a":1}`. -/
theorem serialised_tree_gives_event_list_witness :
    (feed (jsmn_stream_init blank true) [91, 49, 44, 50, 44, 51, 93]).calls =
      [⟨JSMN_STREAM_TOKEN_START_ARRAY, none, 0⟩, ⟨JSMN_STREAM_TOKEN_PRIMITIVE, some [49], 1⟩,
       ⟨JSMN_STREAM_TOKEN_PRIMITIVE, some [50], 1⟩, ⟨JSMN_STREAM_TOKEN_PRIMITIVE, some [51], 1⟩,
       ⟨JSMN_STREAM_TOKEN_END_ARRAY, none, 0⟩] ∧
    (feed (jsmn_stream_init blank true) [123, 34, 97, 34, 58, 49, 125]).calls =
      [⟨JSMN_STREAM_TOKEN_START_OBJECT, none, 0⟩, ⟨JSMN_STREAM_TOKEN_KEY, some [97], 1⟩,
       ⟨JSMN_STREAM_TOKEN_PRIMITIVE, some [49], 1⟩, ⟨JSMN_STREAM_TOKEN_END_OBJECT, none, 0⟩] :=
  ⟨serialised_tree_gives_event_list blank one_two_three [91, 49, 44, 50, 44, 51, 93]
      (Or.inl ⟨_, rfl⟩)
      ⟨primitive_text_digit 49 rfl, primitive_text_digit 50 rfl, primitive_text_digit 51 rfl,
        trivial⟩
      (by decide)
      (serializes.array _ [] [49, 44, 50, 44, 51] whitespace_nil
        (serializes_elements.cons _ _ _ [49] [] [] [50, 44, 51]
          (serializes.primitive [49]) whitespace_nil whitespace_nil
          (serializes_elements.cons _ _ _ [50] [] [] [51]
            (serializes.primitive [50]) whitespace_nil whitespace_nil
            (serializes_elements.last _ [51] [] (serializes.primitive [51]) whitespace_nil)))),
   serialised_tree_gives_event_list blank a_is_one [123, 34, 97, 34, 58, 49, 125]
      (Or.inr ⟨_, rfl⟩)
      ⟨string_text_letter 97 (by decide) (by decide), primitive_text_digit 49 rfl, trivial⟩
      (by decide)
      (serializes.object _ [] [34, 97, 34, 58, 49] whitespace_nil
        (serializes_members.last [97] _ [] [] [49] []
          whitespace_nil whitespace_nil (serializes.primitive [49]) whitespace_nil))⟩

/-! ## Claim C3: unfinished tokens -/

/-- C3, as the code has it: when the character leaves the string or primitive
unfinished (the accumulator answers `JSMN_STREAM_ERROR_PART`),
`jsmn_stream_parse` hands that code `-3` to its caller, makes no callback and
keeps the mode; and the values `jsmn_stream_parse` returns are `0`, `NOMEM`,
`INVAL`, `PART` and `MAX_DEPTH`. -/
theorem incomplete_token_returns_part (p : jsmn_stream_parser_t) (c : Nat) :
    ((p.state = JSMN_STREAM_PARSING_STRING ∧
        (jsmn_stream_parse_string p c).ret = JSMN_STREAM_ERROR_PART ∨
      p.state = JSMN_STREAM_PARSING_PRIMITIVE ∧
        (jsmn_stream_parse_primitive p c).ret = JSMN_STREAM_ERROR_PART) →
      (jsmn_stream_parse p c).ret = JSMN_STREAM_ERROR_PART ∧
      (jsmn_stream_parse p c).ret = -3 ∧
      (jsmn_stream_parse p c).calls = [] ∧
      (jsmn_stream_parse p c).parser.state = p.state) ∧
    ((jsmn_stream_parse p c).ret = 0 ∨
      (jsmn_stream_parse p c).ret = JSMN_STREAM_ERROR_NOMEM ∨
      (jsmn_stream_parse p c).ret = JSMN_STREAM_ERROR_INVAL ∨
      (jsmn_stream_parse p c).ret = JSMN_STREAM_ERROR_PART ∨
      (jsmn_stream_parse p c).ret = JSMN_STREAM_ERROR_MAX_DEPTH) := by
  refine ⟨?_, parse_ret_range p c⟩
  rintro (⟨hs, hr⟩ | ⟨hs, hr⟩)
  · rw [parse_in_string c hs]
    have hneg : (jsmn_stream_parse_string p c).ret < 0 := by rw [hr]; decide
    have hne : (jsmn_stream_parse_string p c).ret ≠ 0 := by rw [hr]; decide
    rw [if_pos hneg]
    exact ⟨hr, by rw [hr]; rfl, (parse_string_part hne).1, (parse_string_part hne).2.1⟩
  · rw [parse_in_primitive c hs]
    have hneg : (jsmn_stream_parse_primitive p c).ret < 0 := by rw [hr]; decide
    have hne : (jsmn_stream_parse_primitive p c).ret ≠ 0 := by rw [hr]; decide
    rw [if_pos hneg]
    exact ⟨hr, by rw [hr]; rfl, (parse_primitive_part hne).1, (parse_primitive_part hne).2.1⟩

/-- C3, refuted as written: after `"` the parser is in string mode, the
character `a` leaves the string unfinished, and the call returns `-3`, not `0`. -/
theorem incomplete_token_returns_zero_counterexample :
    (feed (jsmn_stream_init blank true) [34]).parser.state = JSMN_STREAM_PARSING_STRING ∧
    (jsmn_stream_parse_string (feed (jsmn_stream_init blank true) [34]).parser 97).ret =
      JSMN_STREAM_ERROR_PART ∧
    (jsmn_stream_parse (feed (jsmn_stream_init blank true) [34]).parser 97).ret = -3 ∧
    (jsmn_stream_parse (feed (jsmn_stream_init blank true) [34]).parser 97).ret ≠ 0 := by
  decide

/-- C3, the amended statement at a concrete input: in `[1` the character `2`
leaves the primitive unfinished and the call returns `-3` without a callback. -/
theorem incomplete_token_returns_part_witness :
    (jsmn_stream_parse (feed (jsmn_stream_init blank true) [91, 49]).parser 50).ret = -3 ∧
    (jsmn_stream_parse (feed (jsmn_stream_init blank true) [91, 49]).parser 50).calls = [] :=
  have h := (incomplete_token_returns_part
    (feed (jsmn_stream_init blank true) [91, 49]).parser 50).1 (Or.inr (by decide))
  ⟨h.2.1, h.2.2.1⟩

/-! ## Claim C4: strings with escapes -/

/-- C4: for string contents `s` of at most 254 bytes made of plain characters
and valid escapes, feeding `"`, the bytes of `s` and `"` to a reachable parser
in structural mode makes no callback before the final quote and exactly one
callback at the final quote: `STRING` when a `KEY` marker is on top of the
stack and `KEY` otherwise, with the bytes of `s` unchanged (escapes not
decoded) and length `|s|`. -/
theorem string_reported_once_at_closing_quote (p : jsmn_stream_parser_t) (s : List Nat)
    (hr : reachable p) (hs : p.state = JSMN_STREAM_PARSING) (hcb : p.callback = true)
    (hc : string_content s) (hlen : s.length ≤ 254) :
    (feed p (34 :: s)).calls = [] ∧
    (feed p (34 :: (s ++ [34]))).calls =
      [⟨if jsmn_stream_stack_top p = JSMN_STREAM_KEY
        then JSMN_STREAM_TOKEN_STRING else JSMN_STREAM_TOKEN_KEY, some s, s.length⟩] := by
  obtain ⟨h1, p', _, h2⟩ :=
    feed_string_value p s hs (reachable_structural_buffer_empty hr hs) hc hlen
  refine ⟨h1, ?_⟩
  rw [(h2 []).1, feed_nil]
  simp [JSMN_STREAM_CALLBACK, hcb]

/-- C4 at the input of the claim: `"a\"b"` gives one callback, with the four
bytes `a\"b`. -/
theorem string_reported_once_at_closing_quote_witness :
    (feed (jsmn_stream_init blank true) [34, 97, 92, 34, 98]).calls = [] ∧
    (feed (jsmn_stream_init blank true) [34, 97, 92, 34, 98, 34]).calls =
      [⟨JSMN_STREAM_TOKEN_KEY, some [97, 92, 34, 98], 4⟩] :=
  string_reported_once_at_closing_quote (jsmn_stream_init blank true) [97, 92, 34, 98]
    ⟨blank, true, [], rfl⟩ rfl rfl
    (string_content.plain 97 _ (by decide) (by decide)
      (string_content.escape 34 _ rfl
        (string_content.plain 98 _ (by decide) (by decide) string_content.nil)))
    (by decide)

/-! ## Claim C5: escape validation -/

/-- The escape check of `jsmn_stream_parse_string` in general, for a non-full
buffer that holds string contents `s` and the beginning of an escape.  After
`\`, a character that starts no escape is answered with `INVAL`.  After `\u`
and fewer than four hexadecimal digits, a byte that is no hexadecimal digit is
answered with `INVAL`, except the NUL byte, which is answered with `PART`
without a callback: the one case in which the check fails. -/
theorem escape_check_in_general (p : jsmn_stream_parser_t) (s hx : List Nat) (c : Nat)
    (hs : p.state = JSMN_STREAM_PARSING_STRING) (hlt : p.buffer_size < 255)
    (hcont : string_content s) :
    (live_buffer p = s ++ [92] → is_simple_escape c = false → c ≠ 117 →
      (jsmn_stream_parse p c).ret = JSMN_STREAM_ERROR_INVAL) ∧
    (live_buffer p = s ++ 92 :: 117 :: hx → hx.length < 4 → (∀ h ∈ hx, is_hex h = true) →
      is_hex c = false →
      (jsmn_stream_parse p c).ret =
        (if c = 0 then JSMN_STREAM_ERROR_PART else JSMN_STREAM_ERROR_INVAL) ∧
      (jsmn_stream_parse p c).calls = []) := by
  have hne : p.buffer_size ≠ JSMN_STREAM_BUFFER_SIZE - 1 := by
    simp only [JSMN_STREAM_BUFFER_SIZE]; omega
  constructor
  · intro hb h1 h2
    have hscan := string_loop_bad_escape (Function.update p.buffer p.buffer_size c)
      (p.buffer_size + 1) s c
      (by rw [payload_succ]; unfold live_buffer at hb; rw [hb]; simp) hcont h1 h2
    rw [parse_in_string c hs]
    unfold jsmn_stream_parse_string
    rw [if_neg hne]
    simp only
    rw [hscan]
    simp [JSMN_STREAM_ERROR_INVAL]
  · intro hb hxl hxh hc
    have hscan := string_loop_after_unicode (Function.update p.buffer p.buffer_size c)
      (p.buffer_size + 1) s hx c
      (by rw [payload_succ]; unfold live_buffer at hb; rw [hb]; simp) hcont hxl hxh hc
    rw [parse_in_string c hs]
    unfold jsmn_stream_parse_string
    rw [if_neg hne]
    simp only
    rw [hscan]
    by_cases hz : c = 0
    · simp [hz, JSMN_STREAM_ERROR_PART]
    · simp [hz, JSMN_STREAM_ERROR_INVAL]

/-- C5, the defect: after `"\u` a NUL byte is not a hexadecimal digit, yet the
call that delivers it returns `JSMN_STREAM_ERROR_PART` (-3) and not
`JSMN_STREAM_ERROR_INVAL` (-2); the string goes on and is handed to the
callback with the malformed escape inside.  The two inputs named in the claim
behave as it says: `\u00e9` is accepted, the first `Z` of `\uZZZZ` is answered
with `INVAL`. -/
theorem unicode_escape_nul_not_rejected :
    is_hex 0 = false ∧
    (feed (jsmn_stream_init blank true) [34, 92, 117, 0]).rets = [0, -3, -3, -3] ∧
    (feed (jsmn_stream_init blank true) [34, 92, 117, 0]).rets.getLast? ≠
      some JSMN_STREAM_ERROR_INVAL ∧
    (feed (jsmn_stream_init blank true) [34, 92, 117, 0, 90, 34]).calls =
      [⟨JSMN_STREAM_TOKEN_KEY, some [92, 117, 0, 90], 4⟩] ∧
    (feed (jsmn_stream_init blank true) [34, 92, 117, 48, 48, 101, 57, 34]).rets =
      [0, -3, -3, -3, -3, -3, -3, 0] ∧
    (feed (jsmn_stream_init blank true) [34, 92, 117, 90]).rets =
      [0, -3, -3, JSMN_STREAM_ERROR_INVAL] := by
  decide

/-! ## Claim C6: the buffer bound -/

/-- C6: in string or primitive mode, a buffer that already holds
`JSMN_STREAM_BUFFER_SIZE - 1 = 255` bytes makes `jsmn_stream_parse` return
`JSMN_STREAM_ERROR_NOMEM` for every character, with no callback and the parser
left exactly as it was; with fewer than 255 bytes held, `NOMEM` is never
returned. -/
theorem full_buffer_gives_nomem (p : jsmn_stream_parser_t) (c : Nat)
    (hs : p.state = JSMN_STREAM_PARSING_STRING ∨ p.state = JSMN_STREAM_PARSING_PRIMITIVE) :
    JSMN_STREAM_BUFFER_SIZE - 1 = 255 ∧
    (p.buffer_size = 255 → jsmn_stream_parse p c = ⟨JSMN_STREAM_ERROR_NOMEM, p, []⟩) ∧
    (p.buffer_size < 255 → (jsmn_stream_parse p c).ret ≠ JSMN_STREAM_ERROR_NOMEM) := by
  refine ⟨rfl, ?_, ?_⟩
  · intro hb
    rcases hs with hs | hs
    · rw [parse_in_string c hs, parse_string_full c hb]; rfl
    · rw [parse_in_primitive c hs, parse_primitive_full c hb]; rfl
  · intro hb hret
    have hne : p.buffer_size ≠ JSMN_STREAM_BUFFER_SIZE - 1 := by
      simp only [JSMN_STREAM_BUFFER_SIZE]; omega
    rcases hs with hs | hs
    · rw [parse_in_string c hs] at hret
      by_cases hneg : (jsmn_stream_parse_string p c).ret < 0
      · rw [if_pos hneg] at hret
        exact hne (parse_string_nomem hret)
      · rw [if_neg hneg] at hret
        simp [JSMN_STREAM_ERROR_NOMEM] at hret
    · rw [parse_in_primitive c hs] at hret
      by_cases h1 : (jsmn_stream_parse_primitive p c).ret < 0
      · rw [if_pos h1] at hret
        exact hne (parse_primitive_nomem hret)
      · rw [if_neg h1] at hret
        by_cases h2 : (jsmn_stream_parse_primitive p c).ret = 0
        · rw [if_pos h2] at hret
          simp only at hret
          rcases parse_structural_ret c (parse_primitive_done_state h2) with h | h | h <;>
            rw [h] at hret <;>
            simp [JSMN_STREAM_ERROR_NOMEM, JSMN_STREAM_ERROR_INVAL,
              JSMN_STREAM_ERROR_MAX_DEPTH] at hret
        · rw [if_neg h2] at hret
          simp [JSMN_STREAM_ERROR_NOMEM] at hret

/-- C6 at a concrete input: a primitive of 255 bytes is held, the character
`,` is answered with `NOMEM` and nothing changes. -/
theorem full_buffer_gives_nomem_witness :
    jsmn_stream_parse { blank with state := JSMN_STREAM_PARSING_PRIMITIVE, buffer_size := 255 } 44 =
      ⟨JSMN_STREAM_ERROR_NOMEM,
       { blank with state := JSMN_STREAM_PARSING_PRIMITIVE, buffer_size := 255 }, []⟩ ∧
    (jsmn_stream_parse { blank with state := JSMN_STREAM_PARSING_PRIMITIVE, buffer_size := 254 } 44).ret
      ≠ JSMN_STREAM_ERROR_NOMEM :=
  ⟨(full_buffer_gives_nomem _ 44 (Or.inr rfl)).2.1 rfl,
   (full_buffer_gives_nomem _ 44 (Or.inr rfl)).2.2 (by decide)⟩

/-! ## Claim C7: the depth bound -/

/-- C7, as the code has it: the bound of 32 is on the entries of the type
stack, which holds one marker for every open object or array and one `KEY`
marker for every object member whose value is pending.  For every well-formed
document whose parse needs at most 32 such entries, no step from a freshly
initialised parser returns `MAX_DEPTH` (every step returns `0` or `PART`).  In
any parser state, no call returns `MAX_DEPTH` while fewer than 32 entries are
in use; with 32 entries in use, `{` and `[` in structural mode return
`MAX_DEPTH`. -/
theorem max_depth_only_at_full_stack (p : jsmn_stream_parser_t) (c : Nat)
    (p0 : jsmn_stream_parser_t) (v : json_value) (cs : List Nat) :
    JSMN_STREAM_MAX_DEPTH = 32 ∧
    (((∃ es, v = .array es) ∨ (∃ ms, v = .object ms)) → v.ok →
      v.stack_need ≤ JSMN_STREAM_MAX_DEPTH → serializes v cs →
      ∀ x ∈ (feed (jsmn_stream_init p0 true) cs).rets,
        x ≠ JSMN_STREAM_ERROR_MAX_DEPTH ∧ (x = 0 ∨ x = JSMN_STREAM_ERROR_PART)) ∧
    ((jsmn_stream_parse p c).ret = JSMN_STREAM_ERROR_MAX_DEPTH → 32 ≤ p.stack_height) ∧
    (p.state = JSMN_STREAM_PARSING → 32 ≤ p.stack_height → (c = 123 ∨ c = 91) →
      (jsmn_stream_parse p c).ret = JSMN_STREAM_ERROR_MAX_DEPTH) := by
  refine ⟨rfl, ?_, ?_, ?_⟩
  · intro htop hok hneed hser x hx
    have hend : value_end v [] := by
      rcases htop with ⟨es, rfl⟩ | ⟨ms, rfl⟩ <;> trivial
    have hl : live_stack (jsmn_stream_init p0 true) = [] := by
      simp [live_stack, jsmn_stream_init]
    obtain ⟨p', _, _, _, hr⟩ := feed_value v cs [] (jsmn_stream_init p0 true) hser hok
      ⟨rfl, rfl, rfl⟩ (by rw [hl]; decide)
      (by simpa [jsmn_stream_init, JSMN_STREAM_MAX_DEPTH] using hneed) hend
    rw [List.append_nil] at hr
    have h01 : x = 0 ∨ x = JSMN_STREAM_ERROR_PART := by
      rcases hr x hx with h | h
      · rw [feed_nil] at h; exact absurd h (List.not_mem_nil _)
      · exact h
    refine ⟨?_, h01⟩
    rcases h01 with h | h <;> rw [h] <;> decide
  · intro h
    cases hs : p.state
    · exact parse_structural_max_depth hs h
    · rw [parse_in_string c hs] at h
      by_cases hneg : (jsmn_stream_parse_string p c).ret < 0
      · rw [if_pos hneg] at h
        rcases parse_string_ret p c with h' | h' | h' | h' <;> rw [h'] at h <;>
          simp [JSMN_STREAM_ERROR_MAX_DEPTH, JSMN_STREAM_ERROR_INVAL, JSMN_STREAM_ERROR_NOMEM,
            JSMN_STREAM_ERROR_PART] at h
      · rw [if_neg hneg] at h
        simp [JSMN_STREAM_ERROR_MAX_DEPTH] at h
    · rw [parse_in_primitive c hs] at h
      by_cases h1 : (jsmn_stream_parse_primitive p c).ret < 0
      · rw [if_pos h1] at h
        rcases parse_primitive_ret p c with h' | h' | h' | h' <;> rw [h'] at h <;>
          simp [JSMN_STREAM_ERROR_MAX_DEPTH, JSMN_STREAM_ERROR_INVAL, JSMN_STREAM_ERROR_NOMEM,
            JSMN_STREAM_ERROR_PART] at h
      · rw [if_neg h1] at h
        by_cases h2 : (jsmn_stream_parse_primitive p c).ret = 0
        · rw [if_pos h2] at h
          have h3 := parse_structural_max_depth (parse_primitive_done_state h2) h
          have h4 := pop_if_key_height_le (jsmn_stream_parse_primitive p c).parser
          have h5 : (jsmn_stream_parse_primitive p c).parser.stack_height = p.stack_height := by
            rw [parse_primitive_zero h2]
          rw [h5] at h4
          exact le_trans h3 h4
        · rw [if_neg h2] at h
          simp [JSMN_STREAM_ERROR_MAX_DEPTH] at h
  · intro hs hh hc
    rw [parse_structural c hs, if_pos hc, stack_push_full _ hh]
    rfl

set_option maxRecDepth 100000 in
/-- C7, refuted as written: in the document start `{"a":{"a": … {` only
seventeen containers are open (seventeen `{`, no `[`, nothing closed), yet its
last character is answered with `MAX_DEPTH`: the sixteen pending keys hold
stack entries too. -/
theorem nesting_depth_counterexample :
    seventeen_objects.count 123 + seventeen_objects.count 91 = 17 ∧
    seventeen_objects.count 125 + seventeen_objects.count 93 = 0 ∧
    17 ≤ JSMN_STREAM_MAX_DEPTH ∧
    (feed (jsmn_stream_init blank true) seventeen_objects).rets.getLast? =
      some JSMN_STREAM_ERROR_MAX_DEPTH := by
  decide

/-- C7 at the input of the claim: 32 consecutive `[` all return `0`, and a
33rd `[` returns `MAX_DEPTH`, the stack then holding 32 entries. -/
theorem max_depth_only_at_full_stack_witness :
    (feed (jsmn_stream_init blank true) (List.replicate 32 91)).rets = List.replicate 32 0 ∧
    (feed (jsmn_stream_init blank true) (List.replicate 32 91)).parser.stack_height = 32 ∧
    (jsmn_stream_parse (feed (jsmn_stream_init blank true) (List.replicate 32 91)).parser 91).ret
      = JSMN_STREAM_ERROR_MAX_DEPTH :=
  ⟨by decide, by decide,
   (max_depth_only_at_full_stack
      (feed (jsmn_stream_init blank true) (List.replicate 32 91)).parser 91
      blank one_two_three []).2.2.2
      (by decide) (by decide) (Or.inr rfl)⟩

/-! ## Claim C8: a push beyond the bound -/

/-- C8: with the stack at height 32 in structural mode, `{` and `[` make the
`START_OBJECT` / `START_ARRAY` callback and then return `MAX_DEPTH`; `:` on top
of an object returns `MAX_DEPTH` without a callback; in all three cases the
parser (height, every stack cell, mode, buffer) is left exactly as it was. -/
theorem push_beyond_bound_rejected (p : jsmn_stream_parser_t)
    (hs : p.state = JSMN_STREAM_PARSING) (hh : p.stack_height = 32) (hcb : p.callback = true) :
    JSMN_STREAM_MAX_DEPTH = 32 ∧
    jsmn_stream_parse p 123 =
      ⟨JSMN_STREAM_ERROR_MAX_DEPTH, p, [⟨JSMN_STREAM_TOKEN_START_OBJECT, none, 0⟩]⟩ ∧
    jsmn_stream_parse p 91 =
      ⟨JSMN_STREAM_ERROR_MAX_DEPTH, p, [⟨JSMN_STREAM_TOKEN_START_ARRAY, none, 0⟩]⟩ ∧
    (jsmn_stream_stack_top p = JSMN_STREAM_OBJECT →
      jsmn_stream_parse p 58 = ⟨JSMN_STREAM_ERROR_MAX_DEPTH, p, []⟩) := by
  have hfull : JSMN_STREAM_MAX_DEPTH ≤ p.stack_height := by rw [hh]; exact le_refl _
  refine ⟨rfl, ?_, ?_, ?_⟩
  · rw [parse_structural 123 hs]
    simp [stack_push_full _ hfull, JSMN_STREAM_CALLBACK_NULL, hcb]
  · rw [parse_structural 91 hs]
    simp [stack_push_full _ hfull, JSMN_STREAM_CALLBACK_NULL, hcb]
  · intro htop
    rw [parse_structural 58 hs]
    simp [stack_push_full _ hfull, htop]

/-- C8 at a concrete input. -/
theorem push_beyond_bound_rejected_witness :
    jsmn_stream_parse full_stack 123 =
      ⟨JSMN_STREAM_ERROR_MAX_DEPTH, full_stack, [⟨JSMN_STREAM_TOKEN_START_OBJECT, none, 0⟩]⟩ ∧
    jsmn_stream_parse full_stack 58 = ⟨JSMN_STREAM_ERROR_MAX_DEPTH, full_stack, []⟩ :=
  ⟨(push_beyond_bound_rejected full_stack rfl rfl rfl).2.1,
   (push_beyond_bound_rejected full_stack rfl rfl rfl).2.2.2 rfl⟩

/-! ## Claim C9: control characters in primitives -/

/-- C9, as the code has it: while a clean, non-full primitive is held, every
control character (code point below 32) other than NUL and the three
whitespace delimiters tab (9), LF (10) and CR (13) makes `jsmn_stream_parse`
return `JSMN_STREAM_ERROR_INVAL`, with no callback. -/
theorem control_character_in_primitive_invalid (p : jsmn_stream_parser_t) (c : Nat)
    (hs : p.state = JSMN_STREAM_PARSING_PRIMITIVE)
    (hlt : p.buffer_size < 255)
    (hbuf : ∀ i, i < p.buffer_size → is_primitive_char (p.buffer i) = true)
    (hc : c < 32) (h0 : c ≠ 0) (h9 : c ≠ 9) (h10 : c ≠ 10) (h13 : c ≠ 13) :
    (jsmn_stream_parse p c).ret = JSMN_STREAM_ERROR_INVAL ∧
    (jsmn_stream_parse p c).calls = [] := by
  rw [parse_in_primitive c hs, parse_primitive_clean p c hlt hbuf]
  have hd : is_delimiter c = false := by
    simp [is_delimiter]; omega
  simp [h0, hd, hc, JSMN_STREAM_ERROR_INVAL]

/-- C9, refuted as written: with the primitive `1` held after `[1`, the
control character tab (code point 9) is not answered with `INVAL`: it ends the
primitive, the callback gets `1` and the call returns `0`. -/
theorem control_character_in_primitive_counterexample :
    (feed (jsmn_stream_init blank true) [91, 49]).parser.state = JSMN_STREAM_PARSING_PRIMITIVE ∧
    live_buffer (feed (jsmn_stream_init blank true) [91, 49]).parser = [49] ∧
    (9 : Nat) < 32 ∧
    (jsmn_stream_parse (feed (jsmn_stream_init blank true) [91, 49]).parser 9).ret = 0 ∧
    (jsmn_stream_parse (feed (jsmn_stream_init blank true) [91, 49]).parser 9).ret
      ≠ JSMN_STREAM_ERROR_INVAL ∧
    (jsmn_stream_parse (feed (jsmn_stream_init blank true) [91, 49]).parser 9).calls =
      [⟨JSMN_STREAM_TOKEN_PRIMITIVE, some [49], 1⟩] := by
  decide

/-- C9 at a concrete input: after `[1` the byte `0x01` is answered with `INVAL`. -/
theorem control_character_in_primitive_invalid_witness :
    (jsmn_stream_parse (feed (jsmn_stream_init blank true) [91, 49]).parser 1).ret =
      JSMN_STREAM_ERROR_INVAL :=
  (control_character_in_primitive_invalid (feed (jsmn_stream_init blank true) [91, 49]).parser 1
    (by decide) (by decide) (by decide) (by decide) (by decide) (by decide) (by decide)
    (by decide)).1

/-! ## Claim C10: the delimiter after a primitive -/

/-- C10: a delimiter that ends a clean primitive makes the
`PRIMITIVE` callback with the bytes held (the delimiter excluded) and is then
handled as a structural character in the same call: the further callbacks,
the returned value and the parser left behind are those of
`jsmn_stream_parse` with the same delimiter on the same parser put in
structural mode with `buffer_size = 0` and a `KEY` marker on top of the stack
popped; the one cell of the now unused buffer in which the terminating NUL
was stored is the only difference. -/
theorem delimiter_ends_primitive_and_is_redispatched (p : jsmn_stream_parser_t) (d : Nat)
    (hs : p.state = JSMN_STREAM_PARSING_PRIMITIVE) (hcb : p.callback = true)
    (hlt : p.buffer_size < 255)
    (hbuf : ∀ i, i < p.buffer_size → is_primitive_char (p.buffer i) = true)
    (hd : is_delimiter d = true) :
    (jsmn_stream_parse p d).calls =
      ⟨JSMN_STREAM_TOKEN_PRIMITIVE, some (live_buffer p), p.buffer_size⟩ ::
        (jsmn_stream_parse
          (pop_if_key { p with state := JSMN_STREAM_PARSING, buffer_size := 0 }) d).calls ∧
    (jsmn_stream_parse p d).ret =
      (jsmn_stream_parse
        (pop_if_key { p with state := JSMN_STREAM_PARSING, buffer_size := 0 }) d).ret ∧
    (jsmn_stream_parse p d).parser =
      { (jsmn_stream_parse
          (pop_if_key { p with state := JSMN_STREAM_PARSING, buffer_size := 0 }) d).parser with
        buffer := Function.update p.buffer p.buffer_size 0 } ∧
    (jsmn_stream_parse
      (pop_if_key { p with state := JSMN_STREAM_PARSING, buffer_size := 0 }) d).parser.buffer
        = p.buffer ∧
    (jsmn_stream_parse p d).parser.buffer_size = 0 := by
  have hd0 : d ≠ 0 := by
    rcases is_delimiter_cases hd with h | h | h | h | h | h | h <;> omega
  have hq : (pop_if_key { p with state := JSMN_STREAM_PARSING, buffer_size := 0 }).state
      = JSMN_STREAM_PARSING := by rw [pop_if_key_state]
  have hstep : jsmn_stream_parse_primitive p d =
      ⟨0, { p with buffer := Function.update p.buffer p.buffer_size 0
                   buffer_size := 0
                   state := JSMN_STREAM_PARSING },
       [⟨JSMN_STREAM_TOKEN_PRIMITIVE, some (live_buffer p), p.buffer_size⟩]⟩ := by
    rw [parse_primitive_clean p d hlt hbuf]
    simp [hd0, hd, JSMN_STREAM_CALLBACK, hcb]
  have hmove : pop_if_key { p with buffer := Function.update p.buffer p.buffer_size 0
                                   buffer_size := 0
                                   state := JSMN_STREAM_PARSING } =
      { pop_if_key { p with state := JSMN_STREAM_PARSING, buffer_size := 0 } with
        buffer := Function.update p.buffer p.buffer_size 0 } :=
    pop_if_key_with_buffer { p with state := JSMN_STREAM_PARSING, buffer_size := 0 } _
  have hbufq : (jsmn_stream_parse
      (pop_if_key { p with state := JSMN_STREAM_PARSING, buffer_size := 0 }) d).parser.buffer
        = p.buffer := by
    have := parse_delimiter_with_buffer
      (pop_if_key { p with state := JSMN_STREAM_PARSING, buffer_size := 0 }) p.buffer d hq hd
    have e : { pop_if_key { p with state := JSMN_STREAM_PARSING, buffer_size := 0 } with
        buffer := p.buffer } = pop_if_key { p with state := JSMN_STREAM_PARSING, buffer_size := 0 } := by
      rw [← pop_if_key_with_buffer]
    rw [e] at this
    rw [this]
  have hsizeq : (jsmn_stream_parse
      (pop_if_key { p with state := JSMN_STREAM_PARSING, buffer_size := 0 }) d).parser.buffer_size
        = 0 := by
    rw [parse_structural d hq]
    rcases is_delimiter_cases hd with h | h | h | h | h | h | h <;> subst h <;>
      simp [pop_if_key_buffer_size, stack_pop_buffer_size]
  rw [parse_in_primitive d hs, hstep]
  simp only [lt_self_iff_false, if_false, if_true]
  rw [hmove, parse_delimiter_with_buffer _ _ d hq hd]
  exact ⟨rfl, rfl, rfl, hbufq, hsizeq⟩

/-- C10 at the input of the claim: after `[42`, the character `]` makes the
callbacks `PRIMITIVE "42"` and `END_ARRAY`, returns `0` and leaves the stack
empty. -/
theorem delimiter_ends_primitive_and_is_redispatched_witness :
    (jsmn_stream_parse (feed (jsmn_stream_init blank true) [91, 52, 50]).parser 93).calls =
      [⟨JSMN_STREAM_TOKEN_PRIMITIVE, some [52, 50], 2⟩, ⟨JSMN_STREAM_TOKEN_END_ARRAY, none, 0⟩] ∧
    (jsmn_stream_parse (feed (jsmn_stream_init blank true) [91, 52, 50]).parser 93).ret = 0 ∧
    (jsmn_stream_parse (feed (jsmn_stream_init blank true) [91, 52, 50]).parser 93).parser.stack_height
      = 0 :=
  have h := delimiter_ends_primitive_and_is_redispatched
    (feed (jsmn_stream_init blank true) [91, 52, 50]).parser 93
    (by decide) (by decide) (by decide) (by decide) (by decide)
  ⟨h.1.trans (by decide), h.2.1.trans (by decide), by rw [h.2.2.1]; decide⟩

/-! ## Claim C11: the parser after a complete document -/

/-- C11: after a freshly initialised parser (with or without a callback) has
been fed all characters of a serialisation of a JSON value tree whose top
level is an object or an array, whose strings and primitives are at most 254
bytes and whose parse needs at most 32 stack entries, the stack height is
zero and the mode is `JSMN_STREAM_PARSING`. -/
theorem document_leaves_parser_at_rest (p0 : jsmn_stream_parser_t) (callback : Bool)
    (v : json_value) (cs : List Nat)
    (htop : (∃ es, v = .array es) ∨ (∃ ms, v = .object ms)) (hok : v.ok)
    (hneed : v.stack_need ≤ JSMN_STREAM_MAX_DEPTH) (hser : serializes v cs) :
    (feed (jsmn_stream_init p0 callback) cs).parser.stack_height = 0 ∧
    (feed (jsmn_stream_init p0 callback) cs).parser.state = JSMN_STREAM_PARSING := by
  have hend : value_end v [] := by
    rcases htop with ⟨es, rfl⟩ | ⟨ms, rfl⟩ <;> trivial
  have hl : live_stack (jsmn_stream_init p0 true) = [] := by
    simp [live_stack, jsmn_stream_init]
  obtain ⟨p', ha, _, hp, _⟩ := feed_value v cs [] (jsmn_stream_init p0 true) hser hok
    ⟨rfl, rfl, rfl⟩ (by rw [hl]; decide)
    (by simpa [jsmn_stream_init, JSMN_STREAM_MAX_DEPTH] using hneed) hend
  rw [List.append_nil, feed_nil] at hp
  have hsame : same_live (jsmn_stream_init p0 callback) (jsmn_stream_init p0 true) :=
    ⟨rfl, rfl, rfl, fun _ _ => rfl, fun _ _ => rfl⟩
  obtain ⟨_, hfin, _⟩ := feed_same cs hsame
  rw [hfin.1, hfin.2.1, hp]
  refine ⟨?_, ha.1⟩
  rw [← live_stack_length, ha.2.2.2, live_stack_pop_if_key, hl]
  rfl

/-- C11 at the documents `[1,2,3]` and `{"a":1}`. -/
theorem document_leaves_parser_at_rest_witness :
    ((feed (jsmn_stream_init blank true) [91, 49, 44, 50, 44, 51, 93]).parser.stack_height = 0 ∧
      (feed (jsmn_stream_init blank true) [91, 49, 44, 50, 44, 51, 93]).parser.state =
        JSMN_STREAM_PARSING) ∧
    ((feed (jsmn_stream_init blank false) [123, 34, 97, 34, 58, 49, 125]).parser.stack_height = 0 ∧
      (feed (jsmn_stream_init blank false) [123, 34, 97, 34, 58, 49, 125]).parser.state =
        JSMN_STREAM_PARSING) :=
  ⟨document_leaves_parser_at_rest blank true one_two_three [91, 49, 44, 50, 44, 51, 93]
      (Or.inl ⟨_, rfl⟩)
      ⟨primitive_text_digit 49 rfl, primitive_text_digit 50 rfl, primitive_text_digit 51 rfl,
        trivial⟩
      (by decide)
      (serializes.array _ [] [49, 44, 50, 44, 51] whitespace_nil
        (serializes_elements.cons _ _ _ [49] [] [] [50, 44, 51]
          (serializes.primitive [49]) whitespace_nil whitespace_nil
          (serializes_elements.cons _ _ _ [50] [] [] [51]
            (serializes.primitive [50]) whitespace_nil whitespace_nil
            (serializes_elements.last _ [51] [] (serializes.primitive [51]) whitespace_nil)))),
   document_leaves_parser_at_rest blank false a_is_one [123, 34, 97, 34, 58, 49, 125]
      (Or.inr ⟨_, rfl⟩)
      ⟨string_text_letter 97 (by decide) (by decide), primitive_text_digit 49 rfl, trivial⟩
      (by decide)
      (serializes.object _ [] [34, 97, 34, 58, 49] whitespace_nil
        (serializes_members.last [97] _ [] [] [49] []
          whitespace_nil whitespace_nil (serializes.primitive [49]) whitespace_nil))⟩

/-! ## Claim C12: when the structural mode answers `INVAL` -/

/-- C12: in mode `JSMN_STREAM_PARSING`, `jsmn_stream_parse` returns
`JSMN_STREAM_ERROR_INVAL` exactly when the character starts a primitive while
the top of the stack is `JSMN_STREAM_OBJECT`, or the character is none of
`{`, `}`, `[`, `]`, `"`, `:`, `,`, tab, CR, LF, space and starts no
primitive; and whenever it returns `JSMN_STREAM_ERROR_INVAL` in that mode, no
callback is made and the parser is left exactly as it was. -/
theorem structural_invalid_exactly (p : jsmn_stream_parser_t) (c : Nat)
    (hs : p.state = JSMN_STREAM_PARSING) :
    ((jsmn_stream_parse p c).ret = JSMN_STREAM_ERROR_INVAL ↔
      (is_primitive_start c = true ∧ jsmn_stream_stack_top p = JSMN_STREAM_OBJECT) ∨
      (c ≠ 123 ∧ c ≠ 125 ∧ c ≠ 91 ∧ c ≠ 93 ∧ c ≠ 34 ∧ c ≠ 58 ∧ c ≠ 44 ∧
        c ≠ 9 ∧ c ≠ 13 ∧ c ≠ 10 ∧ c ≠ 32 ∧ is_primitive_start c = false)) ∧
    ((jsmn_stream_parse p c).ret = JSMN_STREAM_ERROR_INVAL →
      (jsmn_stream_parse p c).calls = [] ∧ (jsmn_stream_parse p c).parser = p) := by
  rw [parse_structural c hs]
  have h0 : ¬ ((0 : Int) = JSMN_STREAM_ERROR_INVAL) := by decide
  have hm : ¬ (JSMN_STREAM_ERROR_MAX_DEPTH = JSMN_STREAM_ERROR_INVAL) := by decide
  by_cases h1 : c = 123 ∨ c = 91
  · rw [if_pos h1]
    have hn : is_primitive_start c = false := by rcases h1 with rfl | rfl <;> rfl
    constructor
    · constructor
      · intro h; split_ifs at h <;> first | exact absurd h h0 | exact absurd h hm
      · rintro (⟨h, _⟩ | h)
        · rw [hn] at h; exact absurd h Bool.false_ne_true
        · omega
    · intro h; split_ifs at h <;> first | exact absurd h h0 | exact absurd h hm
  rw [if_neg h1]
  by_cases h2 : c = 125 ∨ c = 93
  · rw [if_pos h2]
    have hn : is_primitive_start c = false := by rcases h2 with rfl | rfl <;> rfl
    refine ⟨⟨fun h => absurd h h0, ?_⟩, fun h => absurd h h0⟩
    rintro (⟨h, _⟩ | h)
    · rw [hn] at h; exact absurd h Bool.false_ne_true
    · omega
  rw [if_neg h2]
  by_cases h3 : c = 34
  · rw [if_pos h3]
    have hn : is_primitive_start c = false := by rw [h3]; rfl
    refine ⟨⟨fun h => absurd h h0, ?_⟩, fun h => absurd h h0⟩
    rintro (⟨h, _⟩ | h)
    · rw [hn] at h; exact absurd h Bool.false_ne_true
    · omega
  rw [if_neg h3]
  by_cases h4 : c = 9 ∨ c = 13 ∨ c = 10 ∨ c = 32 ∨ c = 44
  · rw [if_pos h4]
    have hn : is_primitive_start c = false := by
      rcases h4 with rfl | rfl | rfl | rfl | rfl <;> rfl
    refine ⟨⟨fun h => absurd h h0, ?_⟩, fun h => absurd h h0⟩
    rintro (⟨h, _⟩ | h)
    · rw [hn] at h; exact absurd h Bool.false_ne_true
    · omega
  rw [if_neg h4]
  by_cases h5 : c = 58
  · rw [if_pos h5]
    have hn : is_primitive_start c = false := by rw [h5]; rfl
    constructor
    · constructor
      · intro h; split_ifs at h <;> first | exact absurd h h0 | exact absurd h hm
      · rintro (⟨h, _⟩ | h)
        · rw [hn] at h; exact absurd h Bool.false_ne_true
        · omega
    · intro h; split_ifs at h <;> first | exact absurd h h0 | exact absurd h hm
  rw [if_neg h5]
  by_cases h6 : is_primitive_start c = true
  · rw [if_pos h6]
    by_cases h7 : jsmn_stream_stack_top p = JSMN_STREAM_OBJECT
    · rw [if_pos h7]
      exact ⟨⟨fun _ => Or.inl ⟨h6, h7⟩, fun _ => rfl⟩, fun _ => ⟨rfl, rfl⟩⟩
    · rw [if_neg h7]
      refine ⟨⟨fun h => absurd h h0, ?_⟩, fun h => absurd h h0⟩
      rintro (⟨_, h⟩ | h)
      · exact absurd h h7
      · rw [h6] at h; exact absurd h.2.2.2.2.2.2.2.2.2.2.2.symm Bool.false_ne_true
  · rw [if_neg h6]
    refine ⟨⟨fun _ => Or.inr ?_, fun _ => rfl⟩, fun _ => ⟨rfl, rfl⟩⟩
    refine ⟨?_, ?_, ?_, ?_, h3, h5, ?_, ?_, ?_, ?_, ?_, by simpa using h6⟩ <;> omega

/-- C12 at a parser that has read `{`: the primitive start `1` and the
letter `x` are both answered `JSMN_STREAM_ERROR_INVAL`, with no callback and
the parser unchanged. -/
theorem structural_invalid_exactly_witness :
    (feed (jsmn_stream_init blank true) [123]).parser.state = JSMN_STREAM_PARSING ∧
    (jsmn_stream_parse (feed (jsmn_stream_init blank true) [123]).parser 49).ret =
      JSMN_STREAM_ERROR_INVAL ∧
    (jsmn_stream_parse (feed (jsmn_stream_init blank true) [123]).parser 49).calls = [] ∧
    (jsmn_stream_parse (feed (jsmn_stream_init blank true) [123]).parser 49).parser =
      (feed (jsmn_stream_init blank true) [123]).parser ∧
    (jsmn_stream_parse (feed (jsmn_stream_init blank true) [123]).parser 120).ret =
      JSMN_STREAM_ERROR_INVAL :=
  have h := structural_invalid_exactly (feed (jsmn_stream_init blank true) [123]).parser 49
    (by decide)
  have h1 := h.1.2 (Or.inl ⟨by decide, by decide⟩)
  ⟨by decide, h1, (h.2 h1).1, (h.2 h1).2,
    (structural_invalid_exactly (feed (jsmn_stream_init blank true) [123]).parser 120
      (by decide)).1.2 (Or.inr (by decide))⟩

/-! ## Claim C13: a finished string is a value or a key by the stack top alone -/

/-- C13: when a call in mode `JSMN_STREAM_PARSING_STRING` completes a string
(it returns `0`, which happens at the closing quote), the one event reported
is `JSMN_STREAM_TOKEN_STRING` if the top of the stack is `JSMN_STREAM_KEY`
and `JSMN_STREAM_TOKEN_KEY` in every other case (top `JSMN_STREAM_OBJECT`,
top `JSMN_STREAM_ARRAY`, empty stack); a `JSMN_STREAM_KEY` on top is popped
exactly once by that call and otherwise the stack is left as it was. -/
theorem string_kind_decided_by_stack_top (p : jsmn_stream_parser_t) (c : Nat)
    (hs : p.state = JSMN_STREAM_PARSING_STRING) (h : (jsmn_stream_parse p c).ret = 0) :
    (jsmn_stream_parse p c).calls =
      JSMN_STREAM_CALLBACK p
        (if jsmn_stream_stack_top p = JSMN_STREAM_KEY
         then JSMN_STREAM_TOKEN_STRING else JSMN_STREAM_TOKEN_KEY)
        (some (live_buffer p)) p.buffer_size ∧
    (jsmn_stream_parse p c).parser.type_stack = p.type_stack ∧
    (jsmn_stream_stack_top p = JSMN_STREAM_KEY →
      (jsmn_stream_parse p c).parser.stack_height + 1 = p.stack_height ∧
      live_stack (jsmn_stream_parse p c).parser = (live_stack p).dropLast) ∧
    (jsmn_stream_stack_top p ≠ JSMN_STREAM_KEY →
      (jsmn_stream_parse p c).parser.stack_height = p.stack_height ∧
      live_stack (jsmn_stream_parse p c).parser = live_stack p) := by
  have h0 := parse_in_string_zero hs h
  have hneg : ¬ (jsmn_stream_parse_string p c).ret < 0 := by omega
  have htop : jsmn_stream_stack_top (jsmn_stream_parse_string p c).parser =
      jsmn_stream_stack_top p := by
    rw [parse_string_zero h0]; exact stack_top_congr rfl rfl
  rw [parse_in_string c hs, if_neg hneg]
  refine ⟨parse_string_zero_calls h0, ?_, ?_, ?_⟩
  · show (pop_if_key _).type_stack = _
    rw [pop_if_key_type_stack, parse_string_zero h0]
  · intro hk
    show (pop_if_key _).stack_height + 1 = _ ∧ live_stack (pop_if_key _) = _
    have hpos : 0 < p.stack_height := by
      by_contra hz
      have : p.stack_height = 0 := by omega
      unfold jsmn_stream_stack_top at hk
      rw [if_pos this] at hk
      exact absurd hk (by decide)
    unfold pop_if_key
    rw [if_pos (htop.trans hk)]
    constructor
    · rw [stack_pop_height, parse_string_zero h0]
      show p.stack_height - 1 + 1 = p.stack_height
      omega
    · rw [live_stack_pop, parse_string_zero h0]
      rfl
  · intro hk
    show (pop_if_key _).stack_height = _ ∧ live_stack (pop_if_key _) = _
    unfold pop_if_key
    rw [if_neg (fun hh => hk (htop.symm.trans hh)), parse_string_zero h0]
    exact ⟨rfl, rfl⟩

/-- C13 at the closing quotes of `{"a":"b"`, of `["a"` and of a bare `"a"`:
the first is a `JSMN_STREAM_TOKEN_STRING` and pops the marker, the other two
are `JSMN_STREAM_TOKEN_KEY` and leave the stack alone. -/
theorem string_kind_decided_by_stack_top_witness :
    ((jsmn_stream_parse (feed (jsmn_stream_init blank true)
        [123, 34, 97, 34, 58, 34, 98]).parser 34).calls =
        [⟨JSMN_STREAM_TOKEN_STRING, some [98], 1⟩] ∧
      live_stack (jsmn_stream_parse (feed (jsmn_stream_init blank true)
        [123, 34, 97, 34, 58, 34, 98]).parser 34).parser = [JSMN_STREAM_OBJECT]) ∧
    ((jsmn_stream_parse (feed (jsmn_stream_init blank true) [91, 34, 97]).parser 34).calls =
        [⟨JSMN_STREAM_TOKEN_KEY, some [97], 1⟩] ∧
      live_stack (jsmn_stream_parse (feed (jsmn_stream_init blank true)
        [91, 34, 97]).parser 34).parser = [JSMN_STREAM_ARRAY]) ∧
    ((jsmn_stream_parse (feed (jsmn_stream_init blank true) [34, 97]).parser 34).calls =
        [⟨JSMN_STREAM_TOKEN_KEY, some [97], 1⟩] ∧
      live_stack (jsmn_stream_parse (feed (jsmn_stream_init blank true)
        [34, 97]).parser 34).parser = []) :=
  have h1 := string_kind_decided_by_stack_top
    (feed (jsmn_stream_init blank true) [123, 34, 97, 34, 58, 34, 98]).parser 34
    (by decide) (by decide)
  have h2 := string_kind_decided_by_stack_top
    (feed (jsmn_stream_init blank true) [91, 34, 97]).parser 34 (by decide) (by decide)
  have h3 := string_kind_decided_by_stack_top
    (feed (jsmn_stream_init blank true) [34, 97]).parser 34 (by decide) (by decide)
  ⟨⟨h1.1, (h1.2.2.1 (by decide)).2⟩, ⟨h2.1, (h2.2.2.2 (by decide)).2⟩,
    ⟨h3.1, (h3.2.2.2 (by decide)).2⟩⟩

/-! ## Claim C14: re-initialisation -/

/-- C14: `jsmn_stream_init` sets the mode to `JSMN_STREAM_PARSING`, the stack
height to 0 and the buffer size to 0 whatever the parser structure held
before; and two parser structures with arbitrary previous contents (stack
cells, buffer bytes, counters, mode), initialised with the same callback and
fed the same characters, give the same return values and the same callback
invocations. -/
theorem init_gives_fresh_start (p1 p2 : jsmn_stream_parser_t) (callback : Bool) (cs : List Nat) :
    ((jsmn_stream_init p1 callback).state = JSMN_STREAM_PARSING ∧
      (jsmn_stream_init p1 callback).stack_height = 0 ∧
      (jsmn_stream_init p1 callback).buffer_size = 0) ∧
    (feed (jsmn_stream_init p1 callback) cs).rets =
      (feed (jsmn_stream_init p2 callback) cs).rets ∧
    (feed (jsmn_stream_init p1 callback) cs).calls =
      (feed (jsmn_stream_init p2 callback) cs).calls := by
  have hsame : same_live (jsmn_stream_init p1 callback) (jsmn_stream_init p2 callback) :=
    ⟨rfl, rfl, rfl, fun _ hi => absurd hi (Nat.not_lt_zero _),
      fun _ hi => absurd hi (Nat.not_lt_zero _)⟩
  obtain ⟨h1, _, h3⟩ := feed_same cs hsame
  exact ⟨⟨rfl, rfl, rfl⟩, h1, h3 rfl⟩

/-! ## Claim C15: the array bounds -/

/-- C15: in every state reachable from `jsmn_stream_init` by any sequence of
characters, whatever the calls returned, the stack height is at most
`JSMN_STREAM_MAX_DEPTH` and the buffer size at most
`JSMN_STREAM_BUFFER_SIZE - 1`.  Hence the cell `type_stack[stack_height - 1]`
read by `jsmn_stream_stack_top` is inside the array, and when a character is
appended the new length is at most 255, so that the cell written, the cells
`pos` and `pos + 1` below the length that the scans read and the terminator
cell `len - 1` are inside `buffer[256]`.  In terms of the arrays: no run
changes a stack cell from index 32 on or a buffer cell from index 255 on, and
a parser that differs only in cells outside the arrays gives the same return
values and callbacks on every input. -/
theorem bounds_never_exceeded (p : jsmn_stream_parser_t) (hr : reachable p) :
    p.stack_height ≤ JSMN_STREAM_MAX_DEPTH ∧
    p.buffer_size ≤ JSMN_STREAM_BUFFER_SIZE - 1 ∧
    (p.stack_height ≠ 0 → p.stack_height - 1 < JSMN_STREAM_MAX_DEPTH) ∧
    (p.buffer_size ≠ JSMN_STREAM_BUFFER_SIZE - 1 →
      p.buffer_size + 1 ≤ JSMN_STREAM_BUFFER_SIZE - 1) ∧
    (∀ cs i, JSMN_STREAM_MAX_DEPTH ≤ i → (feed p cs).parser.type_stack i = p.type_stack i) ∧
    (∀ cs i, JSMN_STREAM_BUFFER_SIZE - 1 ≤ i → (feed p cs).parser.buffer i = p.buffer i) ∧
    (∀ q cs, q.state = p.state → q.callback = p.callback →
      q.stack_height = p.stack_height → q.buffer_size = p.buffer_size →
      (∀ i, i < JSMN_STREAM_MAX_DEPTH → q.type_stack i = p.type_stack i) →
      (∀ i, i < JSMN_STREAM_BUFFER_SIZE → q.buffer i = p.buffer i) →
      (feed q cs).rets = (feed p cs).rets ∧ (feed q cs).calls = (feed p cs).calls) := by
  obtain ⟨hs, hb⟩ := reachable_within_bounds hr
  refine ⟨hs, hb, fun h => ?_, fun h => ?_, fun cs i hi => (feed_frame cs p).2.1 i hi,
    fun cs i hi => ((feed_frame cs p).2.2.2 hb).2 i hi, ?_⟩
  · omega
  · omega
  · intro q cs h1 h2 h3 h4 h5 h6
    have hsame : same_live q p :=
      ⟨h1, h3, h4, fun i hi => h5 i (by rw [h3] at hi; omega),
        fun i hi => h6 i (by rw [h4] at hi; unfold JSMN_STREAM_BUFFER_SIZE at hb ⊢; omega)⟩
    obtain ⟨r1, _, r3⟩ := feed_same cs hsame
    exact ⟨r1, r3 h2⟩

/-- C15 at the state reached by forty `[` in a row, of which the last eight
were answered `JSMN_STREAM_ERROR_MAX_DEPTH`. -/
theorem bounds_never_exceeded_witness :
    reachable (feed (jsmn_stream_init blank true) (List.replicate 40 91)).parser ∧
    (feed (jsmn_stream_init blank true) (List.replicate 40 91)).parser.stack_height ≤
      JSMN_STREAM_MAX_DEPTH ∧
    (feed (jsmn_stream_init blank true) (List.replicate 40 91)).parser.buffer_size ≤
      JSMN_STREAM_BUFFER_SIZE - 1 :=
  ⟨⟨blank, true, List.replicate 40 91, rfl⟩,
    (bounds_never_exceeded _ ⟨blank, true, List.replicate 40 91, rfl⟩).1,
    (bounds_never_exceeded _ ⟨blank, true, List.replicate 40 91, rfl⟩).2.1⟩

/-! ## Claim C16: `JSMN_STREAM_KEY` markers sit on objects -/

/-- C16, as the code has it: in every state reachable from `jsmn_stream_init`, every
live stack entry is `JSMN_STREAM_OBJECT`, `JSMN_STREAM_ARRAY` or
`JSMN_STREAM_KEY`, and a `JSMN_STREAM_KEY` entry is never the bottom one and
has a `JSMN_STREAM_OBJECT` immediately beneath it; and in mode
`JSMN_STREAM_PARSING` a `:` pushes `JSMN_STREAM_KEY` when the top is
`JSMN_STREAM_OBJECT` and the stack holds fewer than 32 entries, returns
`JSMN_STREAM_ERROR_MAX_DEPTH` with nothing changed when the top is
`JSMN_STREAM_OBJECT` and the stack holds 32 entries, and returns `0` with
nothing changed and no callback in every other case. -/
theorem colon_pushes_marker_on_object (p : jsmn_stream_parser_t) (hr : reachable p) :
    (∀ i, i < p.stack_height →
      (p.type_stack i = JSMN_STREAM_OBJECT ∨ p.type_stack i = JSMN_STREAM_ARRAY ∨
        p.type_stack i = JSMN_STREAM_KEY) ∧
      (p.type_stack i = JSMN_STREAM_KEY →
        0 < i ∧ p.type_stack (i - 1) = JSMN_STREAM_OBJECT)) ∧
    (p.state = JSMN_STREAM_PARSING →
      (jsmn_stream_stack_top p = JSMN_STREAM_OBJECT ∧ p.stack_height < JSMN_STREAM_MAX_DEPTH →
        jsmn_stream_parse p 58 = ⟨0, (jsmn_stream_stack_push p JSMN_STREAM_KEY).2, []⟩ ∧
        live_stack (jsmn_stream_parse p 58).parser = live_stack p ++ [JSMN_STREAM_KEY]) ∧
      (jsmn_stream_stack_top p = JSMN_STREAM_OBJECT ∧ p.stack_height = JSMN_STREAM_MAX_DEPTH →
        jsmn_stream_parse p 58 = ⟨JSMN_STREAM_ERROR_MAX_DEPTH, p, []⟩) ∧
      (jsmn_stream_stack_top p ≠ JSMN_STREAM_OBJECT →
        jsmn_stream_parse p 58 = ⟨0, p, []⟩)) := by
  refine ⟨reachable_key_on_object hr, fun hs => ⟨fun h => ?_, fun h => ?_, fun h => ?_⟩⟩
  · have e := parse_colon hs h.1 h.2
    refine ⟨e, ?_⟩
    rw [e]
    exact live_stack_push p _ h.2
  · rw [parse_structural 58 hs]
    have hfull : jsmn_stream_stack_push p JSMN_STREAM_KEY = (false, p) :=
      stack_push_full _ (by rw [h.2])
    simp [h.1, hfull]
  · rw [parse_structural 58 hs]
    simp [h]

set_option maxRecDepth 100000 in
/-- C16, refuted as written (a push whenever the top is an object): after
`[[ … [{"a"` with thirty-one `[` the parser is in structural mode with an
object on top of a stack of 32 entries, and the `:` is answered
`JSMN_STREAM_ERROR_MAX_DEPTH` and pushes nothing. -/
theorem colon_at_full_stack_counterexample :
    (feed (jsmn_stream_init blank true) deep_object).parser.state = JSMN_STREAM_PARSING ∧
    jsmn_stream_stack_top (feed (jsmn_stream_init blank true) deep_object).parser =
      JSMN_STREAM_OBJECT ∧
    (jsmn_stream_parse (feed (jsmn_stream_init blank true) deep_object).parser 58).ret =
      JSMN_STREAM_ERROR_MAX_DEPTH ∧
    live_stack (jsmn_stream_parse (feed (jsmn_stream_init blank true) deep_object).parser
      58).parser = live_stack (feed (jsmn_stream_init blank true) deep_object).parser := by
  decide

/-- C16 at the state after `{"a"`: the `:` pushes the marker on the object. -/
theorem colon_pushes_marker_on_object_witness :
    reachable (feed (jsmn_stream_init blank true) [123, 34, 97, 34]).parser ∧
    live_stack (jsmn_stream_parse (feed (jsmn_stream_init blank true)
      [123, 34, 97, 34]).parser 58).parser = [JSMN_STREAM_OBJECT, JSMN_STREAM_KEY] :=
  ⟨⟨blank, true, [123, 34, 97, 34], rfl⟩,
    (((colon_pushes_marker_on_object _ ⟨blank, true, [123, 34, 97, 34], rfl⟩).2
      (by decide)).1 ⟨by decide, by decide⟩).2⟩

/-! ## Claim C17: the buffer between tokens -/

/-- C17: in every state reachable from `jsmn_stream_init`, mode
`JSMN_STREAM_PARSING` goes with buffer size 0, and every call that reports a
`JSMN_STREAM_TOKEN_KEY`, `JSMN_STREAM_TOKEN_STRING` or
`JSMN_STREAM_TOKEN_PRIMITIVE` leaves the parser with buffer size 0 in mode
`JSMN_STREAM_PARSING`. -/
theorem buffer_empty_between_tokens (p : jsmn_stream_parser_t) (hr : reachable p) :
    (p.state = JSMN_STREAM_PARSING → p.buffer_size = 0) ∧
    ∀ (c : Nat) (e : callback_call), e ∈ (jsmn_stream_parse p c).calls →
      (e.token = JSMN_STREAM_TOKEN_KEY ∨ e.token = JSMN_STREAM_TOKEN_STRING ∨
        e.token = JSMN_STREAM_TOKEN_PRIMITIVE) →
      (jsmn_stream_parse p c).parser.buffer_size = 0 ∧
      (jsmn_stream_parse p c).parser.state = JSMN_STREAM_PARSING := by
  obtain ⟨_, hemp, hpend⟩ := reachable_sound hr
  refine ⟨hemp, fun c e he ht => ?_⟩
  cases hs : p.state with
  | JSMN_STREAM_PARSING =>
    exfalso
    rcases (parse_structural_facts c hs (hemp hs)).2.2.1 e he with h | h | h | h <;>
      rw [h] at ht <;> exact absurd ht (by decide)
  | JSMN_STREAM_PARSING_STRING =>
    obtain ⟨_, h1, h2⟩ := (parse_in_string_facts c hs).2.2 e he
    exact ⟨h2, h1⟩
  | JSMN_STREAM_PARSING_PRIMITIVE =>
    by_cases h0 : (jsmn_stream_parse_primitive p c).ret = 0
    · obtain ⟨_, _, _, h1, h2, _⟩ := parse_in_primitive_zero hs (hpend hs).2.2 h0
      exact ⟨h2, h1⟩
    · exfalso
      rw [parse_in_primitive_nonzero hs h0, (parse_primitive_nonzero h0).2.1] at he
      exact absurd he (List.not_mem_nil _)

/-- C17 at the comma after `[1`: the primitive is reported and the buffer is
empty again. -/
theorem buffer_empty_between_tokens_witness :
    reachable (feed (jsmn_stream_init blank true) [91, 49]).parser ∧
    (jsmn_stream_parse (feed (jsmn_stream_init blank true) [91, 49]).parser 44).calls =
      [⟨JSMN_STREAM_TOKEN_PRIMITIVE, some [49], 1⟩] ∧
    (jsmn_stream_parse (feed (jsmn_stream_init blank true) [91, 49]).parser 44).parser.buffer_size
      = 0 ∧
    (jsmn_stream_parse (feed (jsmn_stream_init blank true) [91, 49]).parser 44).parser.state =
      JSMN_STREAM_PARSING :=
  ⟨⟨blank, true, [91, 49], rfl⟩, by decide,
    (buffer_empty_between_tokens _ ⟨blank, true, [91, 49], rfl⟩).2 44
      ⟨JSMN_STREAM_TOKEN_PRIMITIVE, some [49], 1⟩ (by decide) (Or.inr (Or.inr rfl))⟩

/-! ## Claim C18: termination and the depth of the self-recursion -/

/-- C18: `jsmn_stream_parse` returns for every parser state and every
character: four nested activations always suffice, and the two scanning loops
end by themselves, a larger iteration bound changing nothing.  From a state
reachable from `jsmn_stream_init` two nested activations suffice, and a
second one is made only for a character that starts a primitive, handed to
the primitive accumulator, or for the delimiter that ends a primitive, handed
to the structural mode; that delimiter starts no primitive, and in both cases
the nested activation makes no further one. -/
theorem parse_returns_with_one_reentry (p : jsmn_stream_parser_t) (c : Nat) :
    jsmn_stream_parse_fuel 4 p c = some (jsmn_stream_parse p c) ∧
    (∀ (js : Nat → Nat) (len fuel : Nat), len ≤ fuel →
      primitive_loop js len fuel 0 = primitive_loop js len len 0 ∧
      string_loop js len fuel 0 = string_loop js len len 0) ∧
    (reachable p →
      jsmn_stream_parse_fuel 2 p c = some (jsmn_stream_parse p c) ∧
      (jsmn_stream_parse_fuel 1 p c = none →
        (p.state = JSMN_STREAM_PARSING ∧ is_primitive_start c = true ∧
          jsmn_stream_parse_fuel 1 { p with state := JSMN_STREAM_PARSING_PRIMITIVE } c =
            some (jsmn_stream_parse { p with state := JSMN_STREAM_PARSING_PRIMITIVE } c)) ∨
        (p.state = JSMN_STREAM_PARSING_PRIMITIVE ∧
          (jsmn_stream_parse_primitive p c).ret = 0 ∧
          is_delimiter c = true ∧ is_primitive_start c = false ∧
          jsmn_stream_parse_fuel 1 (pop_if_key (jsmn_stream_parse_primitive p c).parser) c =
            some (jsmn_stream_parse (pop_if_key (jsmn_stream_parse_primitive p c).parser) c)))) := by
  refine ⟨jsmn_stream_parse_fuel_enough 4 (le_refl _) p c, fun js len fuel hf =>
    ⟨primitive_loop_fuel js len fuel len 0 (by omega) (by omega),
      string_loop_fuel js len fuel len 0 (by omega) (by omega)⟩, fun hr => ?_⟩
  obtain ⟨_, hemp, hpend⟩ := reachable_sound hr
  cases hs : p.state with
  | JSMN_STREAM_PARSING =>
    obtain ⟨h2, h1, _⟩ := parse_structural_facts c hs (hemp hs)
    refine ⟨h2, fun hn => Or.inl ⟨rfl, (h1 hn).1, ?_⟩⟩
    exact parse_fuel_primitive_entry 0 (hemp hs) (h1 hn).1
  | JSMN_STREAM_PARSING_STRING =>
    have h1 := (parse_in_string_facts c hs).1
    refine ⟨parse_fuel_mono_le 1 2 (by omega) p c _ h1, fun hn => ?_⟩
    rw [h1] at hn
    exact absurd hn (by simp)
  | JSMN_STREAM_PARSING_PRIMITIVE =>
    by_cases h0 : (jsmn_stream_parse_primitive p c).ret = 0
    · obtain ⟨_, hd, _, _, _, h2, _⟩ := parse_in_primitive_zero hs (hpend hs).2.2 h0
      refine ⟨h2, fun _ => Or.inr ⟨rfl, h0, hd, is_primitive_start_of_delimiter hd, ?_⟩⟩
      exact (parse_structural_delimiter (parse_primitive_done_state h0) hd).1
    · have h1 := parse_fuel_primitive_nonzero 0 hs h0
      refine ⟨parse_fuel_primitive_nonzero 1 hs h0, fun hn => ?_⟩
      rw [h1] at hn
      exact absurd hn (by simp)

/-- C18 at the two calls that nest: the `1` after `[` and the `,` after
`[1` need a second activation and no third. -/
theorem parse_returns_with_one_reentry_witness :
    reachable (feed (jsmn_stream_init blank true) [91]).parser ∧
    jsmn_stream_parse_fuel 1 (feed (jsmn_stream_init blank true) [91]).parser 49 = none ∧
    jsmn_stream_parse_fuel 2 (feed (jsmn_stream_init blank true) [91]).parser 49 =
      some (jsmn_stream_parse (feed (jsmn_stream_init blank true) [91]).parser 49) ∧
    jsmn_stream_parse_fuel 1 (feed (jsmn_stream_init blank true) [91, 49]).parser 44 = none ∧
    jsmn_stream_parse_fuel 2 (feed (jsmn_stream_init blank true) [91, 49]).parser 44 =
      some (jsmn_stream_parse (feed (jsmn_stream_init blank true) [91, 49]).parser 44) :=
  ⟨⟨blank, true, [91], rfl⟩, rfl,
    ((parse_returns_with_one_reentry (feed (jsmn_stream_init blank true) [91]).parser 49).2.2
      ⟨blank, true, [91], rfl⟩).1,
    rfl,
    ((parse_returns_with_one_reentry (feed (jsmn_stream_init blank true) [91, 49]).parser 44).2.2
      ⟨blank, true, [91, 49], rfl⟩).1⟩

/-! ## Claim C19: the payload of a primitive -/

/-- C19: in any run from a freshly initialised parser, every
`JSMN_STREAM_TOKEN_PRIMITIVE` callback has a payload that is not empty, whose
first byte is `-`, a digit, `t`, `f` or `n`, whose bytes are all in 32..126
and none of them a delimiter, and which is exactly the stretch of the input
that begins where the parser was in structural mode and ends just before the
delimiter whose call made the callback. -/
theorem primitive_payload_is_raw_token (p0 : jsmn_stream_parser_t) (callback : Bool)
    (cs : List Nat) (e : callback_call)
    (he : e ∈ (feed (jsmn_stream_init p0 callback) cs).calls)
    (ht : e.token = JSMN_STREAM_TOKEN_PRIMITIVE) :
    ∃ pre first rest d post, cs = (pre ++ first :: rest) ++ d :: post ∧
      e = ⟨JSMN_STREAM_TOKEN_PRIMITIVE, some (first :: rest), rest.length + 1⟩ ∧
      is_primitive_start first = true ∧
      (∀ x, x ∈ first :: rest → 32 ≤ x ∧ x ≤ 126 ∧ is_delimiter x = false) ∧
      is_delimiter d = true ∧
      (feed (jsmn_stream_init p0 callback) pre).parser.state = JSMN_STREAM_PARSING ∧
      e ∈ (jsmn_stream_parse
        (feed (jsmn_stream_init p0 callback) (pre ++ first :: rest)).parser d).calls := by
  obtain ⟨a, d, post, e1, e2⟩ := mem_feed_calls cs _ he
  obtain ⟨pre, first, rest, h1, h2, h3, h4, h5, h6⟩ :=
    primitive_event_of_call p0 callback a d e e2 ht
  refine ⟨pre, first, rest, d, post, by rw [e1, h1], h2, h3, fun x hx => ?_, h5, h6, ?_⟩
  · obtain ⟨b1, b2, b3⟩ := is_primitive_char_spec (h4 x hx)
    exact ⟨b1, by omega, b3⟩
  · rw [← h1]; exact e2

/-- C19 at the run `[12,-3]`: the payloads are `12` and `-3`. -/
theorem primitive_payload_is_raw_token_witness :
    ∃ pre first rest d post, [91, 49, 50, 44, 45, 51, 93] = (pre ++ first :: rest) ++ d :: post ∧
      (⟨JSMN_STREAM_TOKEN_PRIMITIVE, some [45, 51], 2⟩ : callback_call) =
        ⟨JSMN_STREAM_TOKEN_PRIMITIVE, some (first :: rest), rest.length + 1⟩ ∧
      is_primitive_start first = true ∧
      (∀ x, x ∈ first :: rest → 32 ≤ x ∧ x ≤ 126 ∧ is_delimiter x = false) ∧
      is_delimiter d = true ∧
      (feed (jsmn_stream_init blank true) pre).parser.state = JSMN_STREAM_PARSING ∧
      (⟨JSMN_STREAM_TOKEN_PRIMITIVE, some [45, 51], 2⟩ : callback_call) ∈ (jsmn_stream_parse
        (feed (jsmn_stream_init blank true) (pre ++ first :: rest)).parser d).calls :=
  primitive_payload_is_raw_token blank true [91, 49, 50, 44, 45, 51, 93]
    ⟨JSMN_STREAM_TOKEN_PRIMITIVE, some [45, 51], 2⟩ (by decide) rfl

/-! ## Claim C20: a NUL inside a primitive -/

/-- C20, as the code has it: let `p` be a parser in mode
`JSMN_STREAM_PARSING_PRIMITIVE` with fewer than 255 bytes buffered, left by a
call on a reachable parser that did not return `JSMN_STREAM_ERROR_INVAL`.
Then `jsmn_stream_parse` with a NUL returns `JSMN_STREAM_ERROR_PART` and
stores the NUL, and after that, whatever characters `cs` are fed, no callback
is made, only `JSMN_STREAM_ERROR_PART` and `JSMN_STREAM_ERROR_NOMEM` are
returned, the mode stays, the buffer grows by one byte per call up to 255
bytes, and the next character, delimiter or not, is answered
`JSMN_STREAM_ERROR_PART` while the buffer is below 255 bytes and
`JSMN_STREAM_ERROR_NOMEM`, with the parser unchanged, once it holds 255. -/
theorem nul_makes_primitive_unterminable (q p : jsmn_stream_parser_t) (c0 : Nat)
    (hr : reachable q) (hp : p = (jsmn_stream_parse q c0).parser)
    (hret : (jsmn_stream_parse q c0).ret ≠ JSMN_STREAM_ERROR_INVAL)
    (hs : p.state = JSMN_STREAM_PARSING_PRIMITIVE)
    (hlt : p.buffer_size < JSMN_STREAM_BUFFER_SIZE - 1) :
    jsmn_stream_parse p 0 =
      ⟨JSMN_STREAM_ERROR_PART,
       { p with buffer := Function.update p.buffer p.buffer_size 0
                buffer_size := p.buffer_size + 1 }, []⟩ ∧
    ∀ (cs : List Nat) (c : Nat),
      (feed (jsmn_stream_parse p 0).parser cs).calls = [] ∧
      (∀ x, x ∈ (feed (jsmn_stream_parse p 0).parser cs).rets →
        x = JSMN_STREAM_ERROR_PART ∨ x = JSMN_STREAM_ERROR_NOMEM) ∧
      (feed (jsmn_stream_parse p 0).parser cs).parser.state = JSMN_STREAM_PARSING_PRIMITIVE ∧
      (feed (jsmn_stream_parse p 0).parser cs).parser.buffer_size =
        min (p.buffer_size + 1 + cs.length) (JSMN_STREAM_BUFFER_SIZE - 1) ∧
      ((feed (jsmn_stream_parse p 0).parser cs).parser.buffer_size < JSMN_STREAM_BUFFER_SIZE - 1 →
        (jsmn_stream_parse (feed (jsmn_stream_parse p 0).parser cs).parser c).ret =
          JSMN_STREAM_ERROR_PART ∧
        (jsmn_stream_parse (feed (jsmn_stream_parse p 0).parser cs).parser c).calls = [] ∧
        (jsmn_stream_parse (feed (jsmn_stream_parse p 0).parser cs).parser c).parser.state =
          JSMN_STREAM_PARSING_PRIMITIVE) ∧
      ((feed (jsmn_stream_parse p 0).parser cs).parser.buffer_size = JSMN_STREAM_BUFFER_SIZE - 1 →
        jsmn_stream_parse (feed (jsmn_stream_parse p 0).parser cs).parser c =
          ⟨JSMN_STREAM_ERROR_NOMEM, (feed (jsmn_stream_parse p 0).parser cs).parser, []⟩) := by
  have hne : p.buffer_size ≠ JSMN_STREAM_BUFFER_SIZE - 1 := by omega
  have hq : ∀ k, first_dirty p.buffer p.buffer_size k → p.buffer k = 0 := by
    rw [hp] at hs hne ⊢
    exact not_invalid_first_dirty_nul (reachable_sound hr) c0 hret hs hne
  obtain ⟨e, hstuck⟩ := parse_nul_in_primitive hs hne hq
  refine ⟨e, fun cs c => ?_⟩
  have hle : (jsmn_stream_parse p 0).parser.buffer_size ≤ JSMN_STREAM_BUFFER_SIZE - 1 := by
    rw [e]
    show p.buffer_size + 1 ≤ _
    omega
  obtain ⟨f1, f2, f3, f4⟩ := nul_stuck_feed cs hstuck hle
  obtain ⟨s1, s2, s3⟩ := nul_stuck_step f1 c
  refine ⟨f2, f4, f1.1, ?_, fun hlt2 => ?_, s2⟩
  · rw [f3, e]
  · have e2 := s1 (by omega)
    refine ⟨by rw [e2], by rw [e2], s3.1⟩

/-- C20, refuted as written (every reachable parser in primitive mode): after
`1` and the byte 1, which was answered `JSMN_STREAM_ERROR_INVAL`, the parser
is in primitive mode with two bytes buffered and a NUL is answered
`JSMN_STREAM_ERROR_INVAL`, not `JSMN_STREAM_ERROR_PART`. -/
theorem nul_after_invalid_byte_counterexample :
    reachable (feed (jsmn_stream_init blank true) [49, 1]).parser ∧
    (feed (jsmn_stream_init blank true) [49, 1]).parser.state = JSMN_STREAM_PARSING_PRIMITIVE ∧
    (feed (jsmn_stream_init blank true) [49, 1]).parser.buffer_size = 2 ∧
    (jsmn_stream_parse (feed (jsmn_stream_init blank true) [49, 1]).parser 0).ret =
      JSMN_STREAM_ERROR_INVAL :=
  ⟨⟨blank, true, [49, 1], rfl⟩, by decide, by decide, by decide⟩

/-- C20 at the state after `[1`: the NUL is answered
`JSMN_STREAM_ERROR_PART`, and so is the `,` that follows it. -/
theorem nul_makes_primitive_unterminable_witness :
    reachable (feed (jsmn_stream_init blank true) [91]).parser ∧
    (jsmn_stream_parse (feed (jsmn_stream_init blank true) [91, 49]).parser 0).ret =
      JSMN_STREAM_ERROR_PART ∧
    (jsmn_stream_parse (feed (jsmn_stream_init blank true) [91, 49, 0]).parser 44).ret =
      JSMN_STREAM_ERROR_PART :=
  have h := nul_makes_primitive_unterminable (feed (jsmn_stream_init blank true) [91]).parser
    (feed (jsmn_stream_init blank true) [91, 49]).parser 49
    ⟨blank, true, [91], rfl⟩ rfl (by decide) (by decide) (by decide)
  ⟨⟨blank, true, [91], rfl⟩, congrArg step_result.ret h.1,
    ((h.2 [] 44).2.2.2.2.1 (by decide)).1⟩

end JsmnStream
